import Mathlib

/-!
# Animation and keyframe engine of `ProyectoFinalChance2.cpp`

A shallow embedding of the global animation state of the program and of the
functions that update it (`saveFrame`, `resetElements`, `interpolation`,
`animate`, `movCuerpo`, `my_input`), followed by theorems about them.

Conventions of the embedding:

* C `float` globals are read as exact rationals (`ℚ`); C `int` globals are `Int`
  (no run considered here comes near the 32-bit range).
* The array `FRAME KeyFrame[MAX_FRAMES]` is a total map `Int → FRAME`.  Only the
  indices `0 .. MAX_FRAMES - 1` lie inside the C array; an access at any other
  index is undefined behaviour in C, and the map then merely records which
  cell the statement addresses.
* The globals are grouped as the source groups their declarations (light,
  Sonic, rings, Freddy, Chica, Eggman, Cheff, Ballon Boy, keyframes, key
  guards); every block of `animate` is a function on the group it uses.
* `cos` and `sin` come from the C library; they are passed in as a `Libm`.
-/

namespace ProyectoFinal

/-! ## Keyframes: data -/

/-- Capacity of the keyframe table (`#define MAX_FRAMES 50`). -/
def MAX_FRAMES : Int := 50

/-- One cell of the keyframe table (`struct _frame`). -/
structure FRAME where
  movGlobo_x : ℚ
  movGlobo_y : ℚ
  movGlobo_z : ℚ
  movGlobo_xInc : ℚ
  movGlobo_yInc : ℚ
  movGlobo_zInc : ℚ
  giroGlobo : ℚ
  giroGloboInc : ℚ
  deriving DecidableEq

/-- Globals declared under `// Keyframes`: the live pose of the balloon, the
step counters, the table and its two cursors. -/
structure Keyframes where
  movGlobo_x : ℚ
  movGlobo_y : ℚ
  movGlobo_z : ℚ
  giroGlobo : ℚ
  i_max_steps : Int
  i_curr_steps : Int
  KeyFrame : Int → FRAME
  FrameIndex : Int
  play : Bool
  playIndex : Int

/-- A zero-initialised table cell (static storage). -/
def FRAME.zero : FRAME :=
  { movGlobo_x := 0, movGlobo_y := 0, movGlobo_z := 0,
    movGlobo_xInc := 0, movGlobo_yInc := 0, movGlobo_zInc := 0,
    giroGlobo := 0, giroGloboInc := 0 }

/-- A table cell holding a recorded pose, increments zero. -/
def FRAME.pose (x y z g : ℚ) : FRAME :=
  { FRAME.zero with movGlobo_x := x, movGlobo_y := y, movGlobo_z := z, giroGlobo := g }

/-- Assignment `KeyFrame[i] = f` on the table. -/
def setFrame (t : Int → FRAME) (i : Int) (f : FRAME) : Int → FRAME :=
  fun j => if j = i then f else t j

/-! ## Keyframes: operations -/

/-- Source `saveFrame`: copy the live pose into `KeyFrame[FrameIndex]`, then
`FrameIndex++`.  The source has no test against `MAX_FRAMES`. -/
def saveFrame (k : Keyframes) : Keyframes :=
  let k := { k with KeyFrame := setFrame k.KeyFrame k.FrameIndex
                        ({ (k.KeyFrame k.FrameIndex) with movGlobo_x := k.movGlobo_x }) }
  let k := { k with KeyFrame := setFrame k.KeyFrame k.FrameIndex
                        ({ (k.KeyFrame k.FrameIndex) with movGlobo_y := k.movGlobo_y }) }
  let k := { k with KeyFrame := setFrame k.KeyFrame k.FrameIndex
                        ({ (k.KeyFrame k.FrameIndex) with movGlobo_z := k.movGlobo_z }) }
  let k := { k with KeyFrame := setFrame k.KeyFrame k.FrameIndex
                        ({ (k.KeyFrame k.FrameIndex) with giroGlobo := k.giroGlobo }) }
  { k with FrameIndex := k.FrameIndex + 1 }

/-- Source `resetElements`, statement by statement.  The third statement
assigns `movGlobo_y` a second time (from `KeyFrame[0].movGlobo_z`); the source
has no assignment to `movGlobo_z`. -/
def resetElements (k : Keyframes) : Keyframes :=
  let k := { k with movGlobo_x := (k.KeyFrame 0).movGlobo_x }
  let k := { k with movGlobo_y := (k.KeyFrame 0).movGlobo_y }
  let k := { k with movGlobo_y := (k.KeyFrame 0).movGlobo_z }
  { k with giroGlobo := (k.KeyFrame 0).giroGlobo }

/-- Source `interpolation`: the four increments of `KeyFrame[playIndex]`,
statement by statement.  The divisor is the `int` global `i_max_steps`
converted to `float` (for a zero divisor the C value is an infinity or a NaN,
which the rational reading does not represent). -/
def interpolation (k : Keyframes) : Keyframes :=
  let k := { k with KeyFrame := setFrame k.KeyFrame k.playIndex
                        ({ (k.KeyFrame k.playIndex) with movGlobo_xInc :=
                            ((k.KeyFrame (k.playIndex + 1)).movGlobo_x
                              - (k.KeyFrame k.playIndex).movGlobo_x) / (k.i_max_steps : ℚ) }) }
  let k := { k with KeyFrame := setFrame k.KeyFrame k.playIndex
                        ({ (k.KeyFrame k.playIndex) with movGlobo_yInc :=
                            ((k.KeyFrame (k.playIndex + 1)).movGlobo_y
                              - (k.KeyFrame k.playIndex).movGlobo_y) / (k.i_max_steps : ℚ) }) }
  let k := { k with KeyFrame := setFrame k.KeyFrame k.playIndex
                        ({ (k.KeyFrame k.playIndex) with movGlobo_zInc :=
                            ((k.KeyFrame (k.playIndex + 1)).movGlobo_z
                              - (k.KeyFrame k.playIndex).movGlobo_z) / (k.i_max_steps : ℚ) }) }
  { k with KeyFrame := setFrame k.KeyFrame k.playIndex
                ({ (k.KeyFrame k.playIndex) with giroGloboInc :=
                    ((k.KeyFrame (k.playIndex + 1)).giroGlobo
                      - (k.KeyFrame k.playIndex).giroGlobo) / (k.i_max_steps : ℚ) }) }

/-- The block `//Animacion por keyframes` of `animate`. -/
def animateKeyframes (k : Keyframes) : Keyframes :=
  if k.play then
    if k.i_curr_steps ≥ k.i_max_steps then
      let k := { k with playIndex := k.playIndex + 1 }
      if k.playIndex > k.FrameIndex - 2 then
        let k := { k with playIndex := 0 }
        { k with play := false }
      else
        let k := { k with i_curr_steps := 0 }
        interpolation k
    else
      let k := { k with movGlobo_x := k.movGlobo_x + (k.KeyFrame k.playIndex).movGlobo_xInc }
      let k := { k with movGlobo_y := k.movGlobo_y + (k.KeyFrame k.playIndex).movGlobo_yInc }
      let k := { k with movGlobo_z := k.movGlobo_z + (k.KeyFrame k.playIndex).movGlobo_zInc }
      let k := { k with giroGlobo := k.giroGlobo + (k.KeyFrame k.playIndex).giroGloboInc }
      { k with i_curr_steps := k.i_curr_steps + 1 }
  else k

/-! ## The animated figures: data and the blocks of `animate`

In each case of a `switch` the assignments of the source are gathered in one
record update (every right-hand side reads the values the variables had when
the source statement ran), followed by the tests of the source. -/

/-- The C library functions used by `animate`. -/
structure Libm where
  cos : ℚ → ℚ
  sin : ℚ → ℚ

/-- Globals declared under `//Luz ciclo de dia y noche`. -/
structure Luz where
  luzx : ℚ
  luzy : ℚ
  luzz : ℚ
  noche : ℚ
  dia : Int

/-- The block `switch (dia)` of `animate`. -/
def animateLuz (l : Luz) : Luz :=
  if l.dia = 0 then
    let l1 := { l with luzx := l.luzx + 0.0005, luzy := l.luzy + 0.0005,
                       luzz := l.luzz + 0.0005 }
    if l1.luzx ≥ 0.8 then { l1 with dia := 1 } else l1
  else if l.dia = 1 then
    let l1 := { l with luzx := l.luzx - 0.0005, luzy := l.luzy - 0.0005,
                       luzz := l.luzz - 0.0005 }
    if l1.luzx ≤ 0.1 then { l1 with dia := 2 } else l1
  else if l.dia = 2 then
    let l1 := { l with noche := l.noche + 0.001 }
    if l1.noche ≥ 1.0 then { l1 with dia := 0, noche := 0.0 } else l1
  else l

/-- Globals declared under `//Sonic`. -/
structure Sonic where
  posxs : ℚ
  poszs : ℚ
  posys : ℚ
  rotsonic : ℚ
  incsonic : ℚ
  animsonic : Int

/-- The `switch (animsonic)` of `animate`.  In case 1 the second test reads
`posxs`, which the first `if` does not assign. -/
def switchSonic (m : Libm) (s : Sonic) : Sonic :=
  if s.animsonic = 0 then
    let s1 := { s with posys := s.posys + 0.6 }
    if s1.posys ≥ 150 then { s1 with animsonic := 1 } else s1
  else if s.animsonic = 1 then
    let s1 := { s with poszs := 95 + (-95 * m.cos s.incsonic),
                       posys := 150 + (95 * m.sin s.incsonic),
                       incsonic := s.incsonic + 0.01,
                       posxs := s.posxs - 0.1 }
    let s2 := if s1.incsonic ≥ 6.5 then { s1 with animsonic := 2 } else s1
    if s1.posxs ≤ -66 then { s2 with posxs := -66.0 } else s2
  else if s.animsonic = 2 then
    let s1 := { s with posys := s.posys + 0.6 }
    if s1.posys ≥ 350 then { s1 with animsonic := 3 } else s1
  else if s.animsonic = 3 then
    let s1 := { s with posys := s.posys - 0.6 }
    if s1.posys ≤ 150 then { s1 with animsonic := 4 } else s1
  else if s.animsonic = 4 then
    let s1 := { s with poszs := 95 + (-95 * m.cos s.incsonic),
                       posys := 150 + (95 * m.sin s.incsonic),
                       incsonic := s.incsonic - 0.01,
                       posxs := s.posxs + 0.1 }
    if s1.incsonic ≤ 0.0 then { s1 with incsonic := 0.0, animsonic := 5 } else s1
  else if s.animsonic = 5 then
    let s1 := { s with posys := s.posys - 0.6 }
    if s1.posys ≤ 0 then { s1 with posys := 0, animsonic := 0 } else s1
  else s

/-- The block `//Animacion Sonic` of `animate`: `rotsonic += 1.5f`, then the
switch. -/
def animateSonic (m : Libm) (s : Sonic) : Sonic :=
  switchSonic m { s with rotsonic := s.rotsonic + 1.5 }

/-- Global declared under `//Rings`. -/
structure Rings where
  rotring : ℚ

/-- The block `//Animacion Ring` of `animate`. -/
def animateRing (r : Rings) : Rings :=
  let r1 := { r with rotring := r.rotring + 2.5 }
  if r1.rotring ≥ 180 then { r1 with rotring := 0.0 } else r1

/-- Globals declared under `//Freddy`. -/
structure Freddy where
  rotBrazoF : ℚ
  animFreddy : Int
  Freddyanim : Bool

/-- The block `//Animacion Saludo Freddy` of `animate`. -/
def animateFreddy (f : Freddy) : Freddy :=
  if f.Freddyanim then
    if f.animFreddy = 0 then
      let f1 := { f with rotBrazoF := f.rotBrazoF + 1.0 }
      if f1.rotBrazoF ≥ 45 then { f1 with animFreddy := 1 } else f1
    else if f.animFreddy = 1 then
      let f1 := { f with rotBrazoF := f.rotBrazoF - 1.0 }
      if f1.rotBrazoF ≤ -45 then { f1 with animFreddy := 0 } else f1
    else f
  else f

/-- Globals declared under `//eggman`. -/
structure Eggman where
  eggx : ℚ
  eggy : ℚ
  eggz : ℚ
  rotegg : ℚ
  egginc : ℚ
  animegg : Int

/-- The block `//Animacion Eggman` of `animate`.  Case 5 adds `0.3f` to `eggz`
three times. -/
def animateEggman (m : Libm) (e : Eggman) : Eggman :=
  if e.animegg = 0 then
    let e1 := { e with eggy := e.eggy + 0.7 }
    if e1.eggy ≥ 70 then { e1 with animegg := 1 } else e1
  else if e.animegg = 1 then
    let e1 := { e with rotegg := e.rotegg + 0.7 }
    if e1.rotegg ≥ 90 then { e1 with animegg := 2 } else e1
  else if e.animegg = 2 then
    let e1 := { e with eggx := e.eggx + 0.7 }
    if e1.eggx ≥ 200 then { e1 with animegg := 3 } else e1
  else if e.animegg = 3 then
    let e1 := { e with rotegg := e.rotegg - 0.7 }
    if e1.rotegg ≤ 0 then { e1 with animegg := 4 } else e1
  else if e.animegg = 4 then
    let e1 := { e with eggy := e.eggy - 0.7 }
    if e1.eggy ≤ 40 then { e1 with animegg := 5 } else e1
  else if e.animegg = 5 then
    let e1 := { e with eggz := e.eggz + 0.3 + 0.3 + 0.3,
                       eggx := 200 * m.cos e.egginc,
                       eggy := 200 * m.sin e.egginc,
                       egginc := e.egginc + 0.01,
                       rotegg := e.rotegg - 0.4 }
    if e1.eggz ≥ 100 then { e1 with animegg := 6 } else e1
  else if e.animegg = 6 then
    { e with rotegg := e.rotegg - 0.46,
             eggx := 200 * m.cos e.egginc,
             eggy := 200 * m.sin e.egginc,
             egginc := e.egginc + 0.008 }
  else e

/-- Globals declared under `//Chica`. -/
structure Chica where
  rotBrazoC : ℚ
  rotpanque : ℚ
  poszpanque : ℚ
  animChica : Int
  Chicaanim : Bool

/-- The block `//Animacio Chica` of `animate`.  In case 2 the second test reads
`rotBrazoC`, which the first `if` does not assign. -/
def animateChica (c : Chica) : Chica :=
  if c.Chicaanim then
    if c.animChica = 0 then
      let c1 := { c with rotBrazoC := c.rotBrazoC - 0.3,
                         poszpanque := c.poszpanque + 0.1,
                         rotpanque := c.rotpanque + 2.7 }
      if c1.rotBrazoC ≤ -20 then { c1 with animChica := 1 } else c1
    else if c.animChica = 1 then
      let c1 := { c with poszpanque := c.poszpanque + 0.3 }
      if c1.poszpanque ≥ 25 then { c1 with animChica := 2 } else c1
    else if c.animChica = 2 then
      let c1 := { c with rotBrazoC := c.rotBrazoC + 0.3,
                         rotpanque := c.rotpanque + 2.7,
                         poszpanque := c.poszpanque - 0.105 }
      let c2 := if c1.rotpanque ≥ 360 then { c1 with rotpanque := 0 } else c1
      if c1.rotBrazoC ≥ 0 then { c2 with animChica := 0 } else c2
    else c
  else c

/-- Globals declared under `//Cheff`. -/
structure Cheff where
  rotcheff : ℚ
  poszsar : ℚ
  rotsarten : ℚ
  carnex : ℚ
  carney : ℚ
  carnez : ℚ
  tempcarne : ℚ
  carneinc : ℚ
  animcheff : Int

/-- The block `//Animacion Cheff` of `animate`.  In case 0 the second test
reads `rotcheff`, which the first `if` does not assign. -/
def animateCheff (m : Libm) (c : Cheff) : Cheff :=
  if c.animcheff = 0 then
    let c1 := { c with rotcheff := c.rotcheff + 0.3,
                       poszsar := c.poszsar + 0.1,
                       rotsarten := c.rotsarten + 0.25,
                       carnez := -15.0 * m.cos c.carneinc,
                       carney := 12.0 * m.sin c.carneinc,
                       carneinc := c.carneinc + 0.015 }
    let c2 := if c1.carneinc ≥ 3 then { c1 with carneinc := 3.0 } else c1
    if c1.rotcheff ≥ 30 then { c2 with animcheff := 1 } else c2
  else if c.animcheff = 1 then
    let c1 := { c with carneinc := c.carneinc + 0.04 }
    if c1.carneinc ≥ 3.1 then { c1 with animcheff := 2 } else c1
  else if c.animcheff = 2 then
    let c1 := { c with carnez := -15.0 * m.cos c.carneinc,
                       carney := 70 * m.sin c.carneinc,
                       carneinc := c.carneinc + 0.005,
                       rotcheff := c.rotcheff - 0.3,
                       rotsarten := c.rotsarten - 0.25,
                       poszsar := c.poszsar - 0.1 }
    if c1.rotcheff ≤ 0 then { c1 with animcheff := 3 } else c1
  else if c.animcheff = 3 then
    let c1 := { c with carnez := -15.0 * m.cos c.carneinc,
                       carney := 70 * m.sin c.carneinc,
                       carneinc := c.carneinc + 0.008 }
    if c1.carneinc ≥ 4.85 then { c1 with animcheff := 4 } else c1
  else if c.animcheff = 4 then
    let c1 := { c with carneinc := c.carneinc + 0.01 }
    if c1.carneinc ≥ 7 then { c1 with carneinc := 1.5, animcheff := 0 } else c1
  else c

/-- Globals declared under `// Ballon Boy` that the program updates. -/
structure BallonBoy where
  posX : ℚ
  posY : ℚ
  posZ : ℚ
  rotRodIzq : ℚ
  rotRodDer : ℚ
  movPierDer : ℚ
  movPierIzq : ℚ
  giroMonito : ℚ
  movBrazoDer : ℚ
  movBrazIzq : ℚ
  movCabeza : ℚ
  movHombroIzq : ℚ
  movHombroDer : ℚ
  baja : Bool
  sube : Bool

/-- The first `if` of `movCuerpo` (the leg is being raised).  `movHombroDer`
gets `+= 0.1f` and then `-= 0.1f`. -/
def movCuerpoSube (b : BallonBoy) : BallonBoy :=
  if b.movPierDer ≤ 40.0 ∧ b.sube then
    let b1 := { b with movPierDer := b.movPierDer + 3.0,
                       movHombroDer := b.movHombroDer + 0.1 - 0.1,
                       movBrazoDer := b.movBrazoDer + 0.12,
                       movPierIzq := b.movPierIzq - 3.0,
                       rotRodDer := b.rotRodDer + 1.0,
                       rotRodIzq := b.rotRodIzq - 1.0,
                       movBrazIzq := b.movBrazIzq - 0.1 }
    if b1.movPierDer ≥ 40.0 then { b1 with sube := false, baja := true } else b1
  else b

/-- The second `if` of `movCuerpo` (the leg is being lowered).  `movHombroDer`
gets `-= 0.1f` and then `+= 0.1f`. -/
def movCuerpoBaja (b : BallonBoy) : BallonBoy :=
  if b.movPierDer ≥ -50 ∧ b.baja then
    let b1 := { b with movPierDer := b.movPierDer - 3.0,
                       movHombroDer := b.movHombroDer - 0.1 + 0.1,
                       movBrazoDer := b.movBrazoDer - 0.12,
                       movPierIzq := b.movPierIzq + 3.0,
                       rotRodDer := b.rotRodDer - 1.0,
                       rotRodIzq := b.rotRodIzq + 1.0,
                       movBrazIzq := b.movBrazIzq + 0.1 }
    if b1.movPierDer ≤ -50.0 then { b1 with baja := false, sube := true } else b1
  else b

/-- Source `movCuerpo`: the raising block, then the lowering block. -/
def movCuerpo (b : BallonBoy) : BallonBoy :=
  movCuerpoBaja (movCuerpoSube b)

/-! ## The whole state, `animate` and `my_input` -/

/-- The globals that `animate`, `movCuerpo` and the key blocks of `my_input`
read or write.  The six `float` counters declared after the Bunny variables
guard the key handlers.  Globals used only for drawing (the Bunny angles, the
`posX_globo` offsets, the camera, the lights) are left out. -/
structure State where
  luz : Luz
  sonic : Sonic
  rings : Rings
  freddy : Freddy
  chica : Chica
  eggman : Eggman
  cheff : Cheff
  reproduciranimacion : ℚ
  habilitaranimacion : ℚ
  guardoFrame : ℚ
  reinicioFrame : ℚ
  ciclo : ℚ
  ciclo2 : ℚ
  bb : BallonBoy
  kf : Keyframes

/-- Source `animate`: the eight blocks in the order of the source. -/
def animate (m : Libm) (s : State) : State :=
  { s with
    luz := animateLuz s.luz
    kf := animateKeyframes s.kf
    sonic := animateSonic m s.sonic
    rings := animateRing s.rings
    freddy := animateFreddy s.freddy
    eggman := animateEggman m s.eggman
    chica := animateChica s.chica
    cheff := animateCheff m s.cheff }

/-- The keys `my_input` compares its `key` argument with. -/
inductive Key where
  | P | K1 | K2 | K0 | L | K3 | K | J | other
  deriving DecidableEq

/-- The `action` argument of a GLFW key callback. -/
inductive Action where
  | PRESS | RELEASE | REPEAT
  deriving DecidableEq

/-- What `glfwGetKey` reports, during one call of `my_input`, for the polled
keys that move the figure.  (The polled keys Escape, W, S, A, D, I, U, Z and X
act on the window and the camera only and are left out.) -/
structure Held where
  up : Bool
  right : Bool
  down : Bool
  left : Bool
  m : Bool
  n : Bool
  r : Bool
  t : Bool

/-- No polled key is down. -/
def Held.none : Held :=
  { up := false, right := false, down := false, left := false,
    m := false, n := false, r := false, t := false }

/-- The `GLFW_KEY_P` block of `my_input`: start or stop the playback.  In the
source `interpolation()` runs before `playIndex = 0`. -/
def inputPlay (key : Key) (action : Action) (s : State) : State :=
  if key = Key.P ∧ action = Action.PRESS then
    if s.reproduciranimacion < 1 then
      if s.kf.play = false ∧ s.kf.FrameIndex > 1 then
        { s with
          kf := { interpolation (resetElements s.kf) with
                  play := true, playIndex := 0, i_curr_steps := 0 }
          reproduciranimacion := s.reproduciranimacion + 1
          habilitaranimacion := 0 }
      else
        { s with kf := { s.kf with play := false } }
    else s
  else s

/-- The `GLFW_KEY_1` block of `my_input`: `Freddyanim ^= true`. -/
def inputFreddy (key : Key) (action : Action) (s : State) : State :=
  if key = Key.K1 ∧ action = Action.PRESS then
    { s with freddy := { s.freddy with Freddyanim := xor s.freddy.Freddyanim true } }
  else s

/-- The `GLFW_KEY_2` block of `my_input`: `Chicaanim ^= true`. -/
def inputChica (key : Key) (action : Action) (s : State) : State :=
  if key = Key.K2 ∧ action = Action.PRESS then
    { s with chica := { s.chica with Chicaanim := xor s.chica.Chicaanim true } }
  else s

/-- The `GLFW_KEY_0` block of `my_input`: re-arm the playback key. -/
def inputRearmPlay (key : Key) (action : Action) (s : State) : State :=
  if key = Key.K0 ∧ action = Action.PRESS then
    if s.habilitaranimacion < 1 then { s with reproduciranimacion := 0 } else s
  else s

/-- The `GLFW_KEY_L` block of `my_input`: record a frame. -/
def inputSave (key : Key) (action : Action) (s : State) : State :=
  if key = Key.L ∧ action = Action.PRESS then
    if s.guardoFrame < 1 then
      { s with kf := saveFrame s.kf, guardoFrame := s.guardoFrame + 1, reinicioFrame := 0 }
    else s
  else s

/-- The `GLFW_KEY_3` block of `my_input`: re-arm the record key. -/
def inputRearmSave (key : Key) (action : Action) (s : State) : State :=
  if key = Key.K3 ∧ action = Action.PRESS then
    if s.reinicioFrame < 1 then { s with guardoFrame := 0 } else s
  else s

/-- The `GLFW_KEY_K` block of `my_input`: nudge the balloon along x. -/
def inputNudge (key : Key) (action : Action) (s : State) : State :=
  if key = Key.K ∧ action = Action.PRESS then
    if s.ciclo < 1 then
      { s with kf := { s.kf with movGlobo_x := s.kf.movGlobo_x + 1.0 },
               ciclo := s.ciclo + 1, ciclo2 := 0 }
    else s
  else s

/-- The `GLFW_KEY_J` block of `my_input`: re-arm the nudge. -/
def inputRearmNudge (key : Key) (action : Action) (s : State) : State :=
  if key = Key.J ∧ action = Action.PRESS then
    if s.ciclo2 < 1 then { s with ciclo := 0 } else s
  else s

/-- The four `if`s under `//BALLONBOY` of `my_input` (arrow keys). -/
def inputWalk (held : Held) (b : BallonBoy) : BallonBoy :=
  let b1 := if held.up then movCuerpo { b with posZ := b.posZ - 1 } else b
  let b2 := if held.right then movCuerpo { b1 with posX := b1.posX + 1 } else b1
  let b3 := if held.down then movCuerpo { b2 with posZ := b2.posZ + 1 } else b2
  if held.left then movCuerpo { b3 with posX := b3.posX - 1 } else b3

/-- The two `if`s under `//CABEZA` of `my_input` (keys M and N). -/
def inputHead (held : Held) (b : BallonBoy) : BallonBoy :=
  let b1 :=
    if held.m ∧ b.movCabeza < 75.0 then { b with movCabeza := b.movCabeza + 3.5 } else b
  if held.n ∧ b1.movCabeza > -75.0 then { b1 with movCabeza := b1.movCabeza - 3.5 } else b1

/-- The two `if`s under `//ROTACION` of `my_input` that act on the figure
(keys R and T). -/
def inputTurn (held : Held) (b : BallonBoy) : BallonBoy :=
  let b1 := if held.r then movCuerpo { b with giroMonito := b.giroMonito - 1 } else b
  if held.t then movCuerpo { b1 with giroMonito := b1.giroMonito + 1 } else b1

/-- Source `my_input`: its blocks in the order of the source.  The blocks
that act on the window and the camera are left out. -/
def my_input (key : Key) (action : Action) (held : Held) (s : State) : State :=
  let s1 := inputPlay key action s
  let s2 := inputFreddy key action s1
  let s3 := inputChica key action s2
  let s4 := inputRearmPlay key action s3
  let s5 := inputSave key action s4
  let s6 := inputRearmSave key action s5
  let s7 := inputNudge key action s6
  let s8 := inputRearmNudge key action s7
  { s8 with bb := inputTurn held (inputHead held (inputWalk held s8.bb)) }

/-! ## The state at program start -/

/-- The poses `main` writes into `KeyFrame[0] .. KeyFrame[45]`, as
`(movGlobo_x, movGlobo_y, movGlobo_z, giroGlobo)`. -/
def bakedPoses : List (ℚ × ℚ × ℚ × ℚ) :=
  [
    (0, 0, 0, 0), (0, 10, 0, 0), (5, 6, 0, 0), (7, 10, 0, 0),
    (9, 6, 0, 0), (11, 10, 0, 0), (13, 6, 0, 0), (15, 10, 0, 0),
    (17, 6, 0, 90), (19, 10, -4, 90), (19, 6, -8, 90), (19, 10, -12, 90),
    (19, 6, -16, 90), (19, 10, -20, 90), (19, 6, -24, 90), (19, 10, -28, 90),
    (19, 6, -32, 90), (19, 10, -36, 90), (19, 6, -40, 90), (19, 5, -44, 90),
    (19, 4, -48, 90), (19, 3, -52, 90), (19, 2, -56, 90), (19, 1, -60, 90),
    (19, 0, -64, 90), (19, 0, -68, 90), (19, 0, -68, 180), (15, 1, -68, 180),
    (11, 2, -68, 180), (7, 3, -68, 180), (3, 4, -68, 180), (-1, 5, -68, 180),
    (-5, 6, -68, 180), (-5, 6, -68, 270), (-5, 10, -60, 270), (-5, 6, -52, 270),
    (-5, 10, -44, 270), (-5, 6, -36, 270), (-5, 10, -28, 270), (-5, 6, -20, 270),
    (-5, 10, -12, 270), (-5, 6, -4, 270), (-5, 5, 0, 270), (-5, 5, 0, 360),
    (-5, 0, 0, 360), (0, 0, 0, 360)
  ]

/-- The globals as their initialisers leave them (static storage without an
initialiser is zero). -/
def initGlobals : State :=
  { luz := { luzx := 0.5, luzy := 0.8, luzz := 0.8, noche := 0.0, dia := 0 },
    sonic := { posxs := 0.0, poszs := 0.0, posys := 0.0, rotsonic := 0.0, incsonic := 0.0,
               animsonic := 0 },
    rings := { rotring := 0.0 },
    freddy := { rotBrazoF := 0.0, animFreddy := 0, Freddyanim := true },
    chica := { rotBrazoC := 0.0, rotpanque := 0.0, poszpanque := 18.5, animChica := 0,
               Chicaanim := false },
    eggman := { eggx := 0.0, eggy := 0.0, eggz := 0.0, rotegg := 0.0, egginc := 0.0,
                animegg := 0 },
    cheff := { rotcheff := 0.0, poszsar := 13.5, rotsarten := 0.0, carnex := 0.0, carney := 0.0,
               carnez := 0.0, tempcarne := 0.0, carneinc := 1.5, animcheff := 0 },
    reproduciranimacion := 0, habilitaranimacion := 0, guardoFrame := 0, reinicioFrame := 0,
    ciclo := 0, ciclo2 := 0,
    bb := { posX := 0.0, posY := 0.0, posZ := 0.0, rotRodIzq := 0.0, rotRodDer := 0.0,
            movPierDer := 0.0, movPierIzq := 0.0, giroMonito := 0.0, movBrazoDer := 0.0,
            movBrazIzq := 0.0, movCabeza := 0.0, movHombroIzq := 0.0, movHombroDer := 0.0,
            baja := false, sube := true },
    kf := { movGlobo_x := 0.0, movGlobo_y := 0.0, movGlobo_z := 0.0, giroGlobo := 0,
            i_max_steps := 270, i_curr_steps := 9, KeyFrame := fun _ => FRAME.zero,
            FrameIndex := 46, play := false, playIndex := 0 } }

/-- The assignments `KeyFrame[i].movGlobo_x = ...` etc. of `main`, for
`i = 0 .. 45`; the increment fields are not assigned. -/
def bakeKeyFrames (t : Int → FRAME) : Int → FRAME :=
  fun i =>
    if 0 ≤ i then
      match bakedPoses.get? i.toNat with
      | some (x, y, z, g) =>
          { (t i) with movGlobo_x := x, movGlobo_y := y, movGlobo_z := z, giroGlobo := g }
      | none => t i
    else t i

/-- The state when `main` enters the render loop: one call of `animate`
(before the table is filled), then the table assignments. -/
def mainInit (m : Libm) : State :=
  let s := animate m initGlobals
  { s with kf := { s.kf with KeyFrame := bakeKeyFrames s.kf.KeyFrame } }

/-- One step of a run: a rendered frame (a call of `animate`) or a key
callback. -/
inductive Event where
  | tick
  | input (key : Key) (action : Action) (held : Held)

/-- The effect of one event. -/
def applyEvent (m : Libm) (s : State) : Event → State
  | Event.tick => animate m s
  | Event.input key action held => my_input key action held s

/-- The state after a sequence of events, oldest first. -/
def run (m : Libm) (s : State) (es : List Event) : State :=
  es.foldl (applyEvent m) s

/-- States the render loop can be in: `mainInit` followed by any events. -/
inductive Reachable (m : Libm) : State → Prop where
  | init : Reachable m (mainInit m)
  | step (s : State) (e : Event) : Reachable m s → Reachable m (applyEvent m s e)

/-! ## Auxiliary definitions for the statements -/

/-- A stand-in for the C library, used where a run is evaluated on a concrete
input; no keyframe variable depends on it. -/
def Libm.standIn : Libm := { cos := fun _ => 1, sin := fun _ => 0 }

/-- The live pose `(movGlobo_x, movGlobo_y, movGlobo_z, giroGlobo)`. -/
def Keyframes.pose (k : Keyframes) : ℚ × ℚ × ℚ × ℚ :=
  (k.movGlobo_x, k.movGlobo_y, k.movGlobo_z, k.giroGlobo)

/-- The recorded pose held by a table cell. -/
def FRAME.recorded (f : FRAME) : ℚ × ℚ × ℚ × ℚ :=
  (f.movGlobo_x, f.movGlobo_y, f.movGlobo_z, f.giroGlobo)

/-- The four increment fields of a table cell. -/
def FRAME.increments (f : FRAME) : ℚ × ℚ × ℚ × ℚ :=
  (f.movGlobo_xInc, f.movGlobo_yInc, f.movGlobo_zInc, f.giroGloboInc)

/-- The state after `n` consecutive calls of `animate`. -/
def ticks (m : Libm) (n : ℕ) (s : State) : State :=
  (animate m)^[n] s

/-- A press of `key` with no polled key down. -/
def press (key : Key) : Event :=
  Event.input key Action.PRESS Held.none

/-- The table of the three-frame scenario: poses `(0,0,0,0)`, `(10,0,0,90)`,
`(10,0,-10,180)` in cells 0, 1, 2. -/
def exampleFrames : Int → FRAME :=
  fun i =>
    if i = 0 then FRAME.pose 0 0 0 0
    else if i = 1 then FRAME.pose 10 0 0 90
    else if i = 2 then FRAME.pose 10 0 (-10) 180
    else FRAME.zero

/-- The three-frame scenario: three recorded frames, 100 steps per segment,
live pose `(0,0,0,0)`, playback idle, every key guard armed. -/
def exampleState : State :=
  { initGlobals with
    kf := { initGlobals.kf with
            i_max_steps := 100, KeyFrame := exampleFrames, FrameIndex := 3 } }

/-- The three-frame scenario at the end of its first segment: playback active,
cursor 0, all 100 steps of the segment taken. -/
def exampleBoundary : State :=
  { exampleState with
    kf := { exampleState.kf with
            movGlobo_x := 10, giroGlobo := 90, i_curr_steps := 100, play := true } }

/-- A state with a single recorded frame. -/
def oneFrameState : State :=
  { initGlobals with kf := { initGlobals.kf with FrameIndex := 1 } }

/-- The keyframe variables after `n` interpolation steps inside the current
segment: `n` times the increments of `KeyFrame[playIndex]` added to the live
pose, `i_curr_steps` advanced by `n`. -/
def advance (k : Keyframes) (n : ℕ) : Keyframes :=
  { k with
    movGlobo_x := k.movGlobo_x + n * (k.KeyFrame k.playIndex).movGlobo_xInc
    movGlobo_y := k.movGlobo_y + n * (k.KeyFrame k.playIndex).movGlobo_yInc
    movGlobo_z := k.movGlobo_z + n * (k.KeyFrame k.playIndex).movGlobo_zInc
    giroGlobo := k.giroGlobo + n * (k.KeyFrame k.playIndex).giroGloboInc
    i_curr_steps := k.i_curr_steps + n }

/-- The event is a press of key 3 (the re-arm of the record key). -/
def Event.isRearmSave : Event → Bool
  | Event.input Key.K3 Action.PRESS _ => true
  | _ => false

/-- The event is a press of key L (the record key). -/
def Event.isSave : Event → Bool
  | Event.input Key.L Action.PRESS _ => true
  | _ => false

/-- The offset between the live pose and the played frame that a start of
the playback leaves: none on x and rotation; on y and z what `resetElements`
leaves (`movGlobo_y` gets `KeyFrame[0].movGlobo_z`, `movGlobo_z` is kept). -/
def startOffset (k : Keyframes) : ℚ × ℚ × ℚ × ℚ :=
  (0, (k.KeyFrame 0).movGlobo_z - (k.KeyFrame 0).movGlobo_y,
   k.movGlobo_z - (k.KeyFrame 0).movGlobo_z, 0)

/-- Playback stands at the start of segment `j`: it is active with cursor `j`
and no step taken, the table still holds the recorded poses of `F`, the
increments of cell `j` are those of segment `j`, and the live pose is the
pose of frame `j` shifted by the constant offset `d`.  `S` and `N` are the
values of `i_max_steps` and `FrameIndex`. -/
structure AtFrame (F : Int → FRAME) (S N : Int) (d : ℚ × ℚ × ℚ × ℚ) (j : Int)
    (k : Keyframes) : Prop where
  play : k.play = true
  cursor : k.playIndex = j
  steps : k.i_curr_steps = 0
  max : k.i_max_steps = S
  count : k.FrameIndex = N
  recorded : ∀ i, (k.KeyFrame i).recorded = (F i).recorded
  incs : (k.KeyFrame j).increments =
    (((F (j + 1)).movGlobo_x - (F j).movGlobo_x) / (S : ℚ),
     ((F (j + 1)).movGlobo_y - (F j).movGlobo_y) / (S : ℚ),
     ((F (j + 1)).movGlobo_z - (F j).movGlobo_z) / (S : ℚ),
     ((F (j + 1)).giroGlobo - (F j).giroGlobo) / (S : ℚ))
  pose : k.pose =
    ((F j).movGlobo_x + d.1, (F j).movGlobo_y + d.2.1, (F j).movGlobo_z + d.2.2.1,
     (F j).giroGlobo + d.2.2.2)

/-- The state in which the playback of the baked path has been stopped inside
segment 8: program start, P (start), 0 (re-arm), 2303 ticks, P (stop). -/
def stoppedMidway : State :=
  my_input Key.P Action.PRESS Held.none
    (ticks Libm.standIn 2303
      (my_input Key.K0 Action.PRESS Held.none
        (my_input Key.P Action.PRESS Held.none (mainInit Libm.standIn))))

/-- States of a run counted from the static initialisers: `initGlobals`, the
state at the entry of the render loop, and every state that events lead to
from either of them. -/
inductive FromStart (m : Libm) : State → Prop where
  | globals : FromStart m initGlobals
  | loop : FromStart m (mainInit m)
  | step (s : State) (e : Event) : FromStart m s → FromStart m (applyEvent m s e)

/-- The waving arm is on its grid: `rotBrazoF` is a whole number of degrees,
within `[-45, 44]` while the arm goes up (phase 0) and within `[-44, 45]` while
it goes down (phase 1). -/
def Freddy.OnGrid (f : Freddy) : Prop :=
  ∃ z : Int, f.rotBrazoF = z ∧
    ((f.animFreddy = 0 ∧ -45 ≤ z ∧ z ≤ 44) ∨ (f.animFreddy = 1 ∧ -44 ≤ z ∧ z ≤ 45))

/-- The green and blue channels of the ambient light sit 0.3 above the red
one, as the initialisers `luzx = 0.5f, luzy = 0.8f, luzz = 0.8f` put them. -/
def Luz.Offset (l : Luz) : Prop :=
  l.luzy = l.luzx + 0.3 ∧ l.luzz = l.luzx + 0.3

/-- Every phase index holds one of the `case` labels of its `switch` in
`animate`. -/
def State.PhasesDeclared (s : State) : Prop :=
  (s.luz.dia = 0 ∨ s.luz.dia = 1 ∨ s.luz.dia = 2) ∧
  (0 ≤ s.sonic.animsonic ∧ s.sonic.animsonic ≤ 5) ∧
  (s.freddy.animFreddy = 0 ∨ s.freddy.animFreddy = 1) ∧
  (0 ≤ s.eggman.animegg ∧ s.eggman.animegg ≤ 6) ∧
  (s.chica.animChica = 0 ∨ s.chica.animChica = 1 ∨ s.chica.animChica = 2) ∧
  (0 ≤ s.cheff.animcheff ∧ s.cheff.animcheff ≤ 4)

/-- The eight blocks of `animate`, in the order of the source: day/night,
keyframe playback, Sonic (rolling mover), ring, Freddy (waving figure),
Eggman (flight figure), Chica (throw figure), Cheff (cooking figure). -/
inductive Block where
  | luz | keyframes | sonic | ring | freddy | eggman | chica | cheff
  deriving DecidableEq

/-- One block of `animate` run on its own on the whole state. -/
def Block.step (m : Libm) : Block → State → State
  | Block.luz, s => { s with luz := animateLuz s.luz }
  | Block.keyframes, s => { s with kf := animateKeyframes s.kf }
  | Block.sonic, s => { s with sonic := animateSonic m s.sonic }
  | Block.ring, s => { s with rings := animateRing s.rings }
  | Block.freddy, s => { s with freddy := animateFreddy s.freddy }
  | Block.eggman, s => { s with eggman := animateEggman m s.eggman }
  | Block.chica, s => { s with chica := animateChica s.chica }
  | Block.cheff, s => { s with cheff := animateCheff m s.cheff }

/-- The blocks in the order in which `animate` runs them. -/
def Block.order : List Block :=
  [Block.luz, Block.keyframes, Block.sonic, Block.ring, Block.freddy, Block.eggman,
   Block.chica, Block.cheff]

/-- Two states hold the same values in the variables of a block. -/
def Block.SameVars : Block → State → State → Prop
  | Block.luz, s, t => s.luz = t.luz
  | Block.keyframes, s, t => s.kf = t.kf
  | Block.sonic, s, t => s.sonic = t.sonic
  | Block.ring, s, t => s.rings = t.rings
  | Block.freddy, s, t => s.freddy = t.freddy
  | Block.eggman, s, t => s.eggman = t.eggman
  | Block.chica, s, t => s.chica = t.chica
  | Block.cheff, s, t => s.cheff = t.cheff

/-- Two states hold the same values in the variables no block of `animate`
touches: the six key guards and the walking figure. -/
def State.SameRest (s t : State) : Prop :=
  s.reproduciranimacion = t.reproduciranimacion ∧ s.habilitaranimacion = t.habilitaranimacion ∧
  s.guardoFrame = t.guardoFrame ∧ s.reinicioFrame = t.reinicioFrame ∧
  s.ciclo = t.ciclo ∧ s.ciclo2 = t.ciclo2 ∧ s.bb = t.bb

/-- The right leg is on its grid: `movPierDer` is a whole multiple `3 z` of
the step, exactly one of the two direction flags is set, `z` lies in
`[-17, 13]` while the leg is being raised and in `[-16, 13]` while it is being
lowered. -/
def BallonBoy.OnCycle (b : BallonBoy) : Prop :=
  ∃ z : Int, b.movPierDer = 3 * z ∧
    ((b.sube = true ∧ b.baja = false ∧ -17 ≤ z ∧ z ≤ 13) ∨
     (b.sube = false ∧ b.baja = true ∧ -16 ≤ z ∧ z ≤ 13))

/-- The two arm angles follow the right leg: 0.12 and -0.1 degrees of arm per
3 degrees of leg. -/
def BallonBoy.ArmsTied (b : BallonBoy) : Prop :=
  b.movBrazoDer = b.movPierDer / 25 ∧ b.movBrazIzq = -(b.movPierDer / 30)

/-- The left leg and the two knees follow the right leg: the left leg is its
mirror image, and each knee turns one degree per three degrees of leg, the
left knee against the right one. -/
def BallonBoy.LegsTied (b : BallonBoy) : Prop :=
  b.movPierIzq = -b.movPierDer ∧ b.rotRodDer = b.movPierDer / 3 ∧
  b.rotRodIzq = -(b.movPierDer / 3)

/-- The arm of the throw figure and the rotation of the tossed object are on
their grid: in phase 0 (wind-up) the arm has gone down `n` steps of 0.3 and
the object has turned `n` steps of 2.7, `0 <= n <= 66`; in phase 1 (rise) they
rest at -20.1 and 180.9; in phase 2 (return) they have gone `k` steps on from
there, `0 <= k <= 66`. -/
def Chica.OnGrid (c : Chica) : Prop :=
  (c.animChica = 0 ∧ ∃ n : Int, c.rotBrazoC = -(0.3 * n) ∧ c.rotpanque = 2.7 * n ∧
      0 ≤ n ∧ n ≤ 66) ∨
  (c.animChica = 1 ∧ c.rotBrazoC = -20.1 ∧ c.rotpanque = 180.9) ∨
  (c.animChica = 2 ∧ ∃ k : Int, c.rotBrazoC = -20.1 + 0.3 * k ∧
      c.rotpanque = 180.9 + 2.7 * k ∧ 0 ≤ k ∧ k ≤ 66)

/-- The initial state with the throw figure switched on: key 2 pressed once,
no polled key down. -/
def chicaEnabled : State :=
  my_input Key.K2 Action.PRESS Held.none initGlobals

/-- The phase of the cooking figure and the four parameters that its phase
tests read: `(animcheff, rotcheff, poszsar, rotsarten, carneinc)`. -/
def Cheff.core (c : Cheff) : Int × ℚ × ℚ × ℚ × ℚ :=
  (c.animcheff, c.rotcheff, c.poszsar, c.rotsarten, c.carneinc)

theorem animate_kf (m : Libm) (s : State) : (animate m s).kf = animateKeyframes s.kf := rfl

theorem ticks_kf (m : Libm) (n : ℕ) (s : State) :
    (ticks m n s).kf = animateKeyframes^[n] s.kf := by
  induction n generalizing s with
  | zero => rfl
  | succ n ih =>
    simp only [ticks, Function.iterate_succ, Function.comp_apply] at ih ⊢
    rw [ih, animate_kf]

theorem animateKeyframes_idle (k : Keyframes) (h : k.play = false) :
    animateKeyframes k = k := by
  simp [animateKeyframes, h]

theorem iterate_idle (k : Keyframes) (h : k.play = false) (n : ℕ) :
    animateKeyframes^[n] k = k := by
  induction n with
  | zero => rfl
  | succ n ih => rw [Function.iterate_succ_apply', ih, animateKeyframes_idle k h]

theorem my_input_kf_P (held : Held) (s : State) :
    (my_input Key.P Action.PRESS held s).kf = (inputPlay Key.P Action.PRESS s).kf := by
  simp [my_input, inputFreddy, inputChica, inputRearmPlay, inputSave, inputRearmSave,
    inputNudge, inputRearmNudge]

theorem interpolation_fields (k : Keyframes) :
    (interpolation k).movGlobo_x = k.movGlobo_x ∧ (interpolation k).movGlobo_y = k.movGlobo_y ∧
    (interpolation k).movGlobo_z = k.movGlobo_z ∧ (interpolation k).giroGlobo = k.giroGlobo ∧
    (interpolation k).i_max_steps = k.i_max_steps ∧
    (interpolation k).i_curr_steps = k.i_curr_steps ∧
    (interpolation k).FrameIndex = k.FrameIndex ∧ (interpolation k).play = k.play ∧
    (interpolation k).playIndex = k.playIndex := by
  simp [interpolation]

theorem interpolation_at (k : Keyframes) :
    (interpolation k).KeyFrame k.playIndex =
      { (k.KeyFrame k.playIndex) with
        movGlobo_xInc := ((k.KeyFrame (k.playIndex + 1)).movGlobo_x
          - (k.KeyFrame k.playIndex).movGlobo_x) / (k.i_max_steps : ℚ)
        movGlobo_yInc := ((k.KeyFrame (k.playIndex + 1)).movGlobo_y
          - (k.KeyFrame k.playIndex).movGlobo_y) / (k.i_max_steps : ℚ)
        movGlobo_zInc := ((k.KeyFrame (k.playIndex + 1)).movGlobo_z
          - (k.KeyFrame k.playIndex).movGlobo_z) / (k.i_max_steps : ℚ)
        giroGloboInc := ((k.KeyFrame (k.playIndex + 1)).giroGlobo
          - (k.KeyFrame k.playIndex).giroGlobo) / (k.i_max_steps : ℚ) } := by
  simp [interpolation, setFrame]

theorem interpolation_other (k : Keyframes) (j : Int) (h : j ≠ k.playIndex) :
    (interpolation k).KeyFrame j = k.KeyFrame j := by
  simp [interpolation, setFrame, h]

theorem interpolation_recorded (k : Keyframes) (j : Int) :
    ((interpolation k).KeyFrame j).recorded = (k.KeyFrame j).recorded := by
  by_cases h : j = k.playIndex
  · subst h
    rw [interpolation_at]
    rfl
  · rw [interpolation_other k j h]

theorem saveFrame_fields (k : Keyframes) :
    (saveFrame k).movGlobo_x = k.movGlobo_x ∧ (saveFrame k).movGlobo_y = k.movGlobo_y ∧
    (saveFrame k).movGlobo_z = k.movGlobo_z ∧ (saveFrame k).giroGlobo = k.giroGlobo ∧
    (saveFrame k).i_max_steps = k.i_max_steps ∧ (saveFrame k).i_curr_steps = k.i_curr_steps ∧
    (saveFrame k).FrameIndex = k.FrameIndex + 1 ∧ (saveFrame k).play = k.play ∧
    (saveFrame k).playIndex = k.playIndex := by
  simp [saveFrame]

theorem animateKeyframes_interior (k : Keyframes) (hp : k.play = true)
    (h : k.i_curr_steps < k.i_max_steps) :
    animateKeyframes k =
      { k with
        movGlobo_x := k.movGlobo_x + (k.KeyFrame k.playIndex).movGlobo_xInc
        movGlobo_y := k.movGlobo_y + (k.KeyFrame k.playIndex).movGlobo_yInc
        movGlobo_z := k.movGlobo_z + (k.KeyFrame k.playIndex).movGlobo_zInc
        giroGlobo := k.giroGlobo + (k.KeyFrame k.playIndex).giroGloboInc
        i_curr_steps := k.i_curr_steps + 1 } := by
  simp [animateKeyframes, hp, not_le.mpr h]

theorem animateKeyframes_finish (k : Keyframes) (hp : k.play = true)
    (h : k.i_max_steps ≤ k.i_curr_steps) (hlast : k.FrameIndex - 2 < k.playIndex + 1) :
    animateKeyframes k = { k with playIndex := 0, play := false } := by
  simp [animateKeyframes, hp, h, hlast]

theorem animateKeyframes_next (k : Keyframes) (hp : k.play = true)
    (h : k.i_max_steps ≤ k.i_curr_steps) (hmore : k.playIndex + 1 ≤ k.FrameIndex - 2) :
    animateKeyframes k =
      interpolation { k with playIndex := k.playIndex + 1, i_curr_steps := 0 } := by
  simp [animateKeyframes, hp, h, not_lt.mpr hmore]

theorem animateKeyframes_cases (k : Keyframes) :
    animateKeyframes k = k ∨
    (k.play = true ∧ animateKeyframes k = { k with playIndex := 0, play := false }) ∨
    (k.play = true ∧ k.playIndex + 1 ≤ k.FrameIndex - 2 ∧
      animateKeyframes k =
        interpolation { k with playIndex := k.playIndex + 1, i_curr_steps := 0 }) ∨
    (k.play = true ∧ animateKeyframes k =
      { k with
        movGlobo_x := k.movGlobo_x + (k.KeyFrame k.playIndex).movGlobo_xInc
        movGlobo_y := k.movGlobo_y + (k.KeyFrame k.playIndex).movGlobo_yInc
        movGlobo_z := k.movGlobo_z + (k.KeyFrame k.playIndex).movGlobo_zInc
        giroGlobo := k.giroGlobo + (k.KeyFrame k.playIndex).giroGloboInc
        i_curr_steps := k.i_curr_steps + 1 }) := by
  by_cases hp : k.play = true
  · by_cases h : k.i_max_steps ≤ k.i_curr_steps
    · by_cases hl : k.FrameIndex - 2 < k.playIndex + 1
      · exact Or.inr (Or.inl ⟨hp, animateKeyframes_finish k hp h hl⟩)
      · exact Or.inr (Or.inr (Or.inl
          ⟨hp, not_lt.mp hl, animateKeyframes_next k hp h (not_lt.mp hl)⟩))
    · exact Or.inr (Or.inr (Or.inr ⟨hp, animateKeyframes_interior k hp (not_le.mp h)⟩))
  · exact Or.inl (animateKeyframes_idle k (by simpa using hp))

theorem animateKeyframes_i_max_steps (k : Keyframes) :
    (animateKeyframes k).i_max_steps = k.i_max_steps := by
  rcases animateKeyframes_cases k with h | ⟨_, h⟩ | ⟨_, _, h⟩ | ⟨_, h⟩ <;> rw [h]
  exact (interpolation_fields _).2.2.2.2.1

theorem my_input_i_max_steps (key : Key) (action : Action) (held : Held) (s : State) :
    (my_input key action held s).kf.i_max_steps = s.kf.i_max_steps := by
  cases key <;> cases action <;>
    simp [my_input, inputPlay, inputFreddy, inputChica, inputRearmPlay, inputSave,
      inputRearmSave, inputNudge, inputRearmNudge] <;>
    split_ifs <;> simp [interpolation, resetElements, saveFrame]

theorem reachable_i_max_steps {m : Libm} {s : State} (h : Reachable m s) :
    s.kf.i_max_steps = 270 := by
  induction h with
  | init => rfl
  | step s e _ ih =>
    cases e with
    | tick => simpa [applyEvent, animate_kf, animateKeyframes_i_max_steps] using ih
    | input key action held => simpa [applyEvent, my_input_i_max_steps] using ih

theorem press_L_kf (held : Held) (s : State) :
    (my_input Key.L Action.PRESS held s).kf =
        (if s.guardoFrame < 1 then saveFrame s.kf else s.kf) ∧
      (my_input Key.L Action.PRESS held s).guardoFrame =
        (if s.guardoFrame < 1 then s.guardoFrame + 1 else s.guardoFrame) ∧
      (my_input Key.L Action.PRESS held s).reinicioFrame =
        (if s.guardoFrame < 1 then 0 else s.reinicioFrame) := by
  by_cases h : s.guardoFrame < 1 <;>
    simp [my_input, inputPlay, inputFreddy, inputChica, inputRearmPlay, inputSave,
      inputRearmSave, inputNudge, inputRearmNudge, h]

theorem press_K3_kf (held : Held) (s : State) :
    (my_input Key.K3 Action.PRESS held s).kf = s.kf ∧
      (my_input Key.K3 Action.PRESS held s).guardoFrame =
        (if s.reinicioFrame < 1 then 0 else s.guardoFrame) ∧
      (my_input Key.K3 Action.PRESS held s).reinicioFrame = s.reinicioFrame := by
  by_cases h : s.reinicioFrame < 1 <;>
    simp [my_input, inputPlay, inputFreddy, inputChica, inputRearmPlay, inputSave,
      inputRearmSave, inputNudge, inputRearmNudge, h]

theorem mainInit_kf (m : Libm) :
    (mainInit m).kf =
      { initGlobals.kf with KeyFrame := bakeKeyFrames initGlobals.kf.KeyFrame } := by
  simp [mainInit, animate, animateKeyframes_idle, initGlobals]

theorem mainInit_guards (m : Libm) :
    (mainInit m).reproduciranimacion = 0 ∧ (mainInit m).habilitaranimacion = 0 ∧
      (mainInit m).guardoFrame = 0 ∧ (mainInit m).reinicioFrame = 0 ∧
      (mainInit m).ciclo = 0 ∧ (mainInit m).ciclo2 = 0 := by
  simp [mainInit, animate, initGlobals]

/-! ## Recording -/

/-- C9. Recording appends: in every state with `FrameIndex = n < MAX_FRAMES`,
`saveFrame` stores the live pose `(movGlobo_x, movGlobo_y, movGlobo_z, giroGlobo)`
in the position and rotation fields of `KeyFrame[n]`, sets `FrameIndex` to
`n + 1` (which does not exceed `MAX_FRAMES`), and leaves every cell with an
index other than `n` and the live pose itself unchanged. -/
theorem C9_saveFrame_appends (k : Keyframes) (hcap : k.FrameIndex < MAX_FRAMES) :
    ((saveFrame k).KeyFrame k.FrameIndex).recorded = k.pose ∧
    (saveFrame k).FrameIndex = k.FrameIndex + 1 ∧
    (saveFrame k).FrameIndex ≤ MAX_FRAMES ∧
    (∀ j, j ≠ k.FrameIndex → (saveFrame k).KeyFrame j = k.KeyFrame j) ∧
    (saveFrame k).pose = k.pose := by
  have hnext : (saveFrame k).FrameIndex = k.FrameIndex + 1 := by simp [saveFrame]
  refine ⟨?_, hnext, ?_, ?_, ?_⟩
  · simp [saveFrame, setFrame, FRAME.recorded, Keyframes.pose]
  · rw [hnext]; omega
  · intro j hj
    simp [saveFrame, setFrame, hj]
  · simp [saveFrame, Keyframes.pose]

/-- Witness for C9: the table as `main` fills it has `FrameIndex = 46`, and
recording there moves the write cursor to 47. -/
theorem C9_saveFrame_appends_witness :
    (mainInit Libm.standIn).kf.FrameIndex < MAX_FRAMES ∧
    (saveFrame (mainInit Libm.standIn).kf).FrameIndex = 47 := by
  have hlt : (mainInit Libm.standIn).kf.FrameIndex < MAX_FRAMES := by
    rw [mainInit_kf]; decide
  refine ⟨hlt, ?_⟩
  rw [(C9_saveFrame_appends (mainInit Libm.standIn).kf hlt).2.1, mainInit_kf]
  rfl

/-- C3, evaluated on the code.  Four recordings (keys L, 3, L, 3, L, 3, L, 3)
after program start bring the write cursor to `MAX_FRAMES = 50`; the next
recording addresses `KeyFrame[50]`, which is outside `FRAME KeyFrame[MAX_FRAMES]`,
and moves the write cursor to 51.  In any state `saveFrame` increments
`FrameIndex`: the source has no capacity test. -/
theorem C3_saveFrame_at_capacity :
    (run Libm.standIn (mainInit Libm.standIn)
        [press Key.L, press Key.K3, press Key.L, press Key.K3,
         press Key.L, press Key.K3, press Key.L, press Key.K3]).kf.FrameIndex = MAX_FRAMES ∧
    (run Libm.standIn (mainInit Libm.standIn)
        [press Key.L, press Key.K3, press Key.L, press Key.K3,
         press Key.L, press Key.K3, press Key.L, press Key.K3, press Key.L]).kf.FrameIndex
      = MAX_FRAMES + 1 ∧
    (∀ k : Keyframes, k.FrameIndex = MAX_FRAMES →
      (saveFrame k).FrameIndex = MAX_FRAMES + 1 ∧
      ((saveFrame k).KeyFrame MAX_FRAMES).recorded = k.pose) := by
  have g := mainInit_guards Libm.standIn
  have hk := mainInit_kf Libm.standIn
  refine ⟨?_, ?_, ?_⟩
  · simp [run, press, applyEvent, press_L_kf, press_K3_kf, g, hk, saveFrame, initGlobals,
      MAX_FRAMES]
  · simp [run, press, applyEvent, press_L_kf, press_K3_kf, g, hk, saveFrame, initGlobals,
      MAX_FRAMES]
  · intro k hk
    constructor
    · simp [saveFrame, hk]
    · simp [saveFrame, setFrame, hk, FRAME.recorded, Keyframes.pose]

/-! ## Segment increments -/

/-- C8. Segment increments: for every play cursor `i = playIndex`,
`interpolation` sets each of the four increment fields of `KeyFrame[i]` to
`(KeyFrame[i+1].channel - KeyFrame[i].channel) / i_max_steps`, changes no
position or rotation field of any cell and no field of any other cell; and
`i_max_steps` is 270 in every state the render loop can be in. -/
theorem C8_segment_increments (m : Libm) (k : Keyframes) :
    ((interpolation k).KeyFrame k.playIndex).increments =
      (((k.KeyFrame (k.playIndex + 1)).movGlobo_x - (k.KeyFrame k.playIndex).movGlobo_x)
          / (k.i_max_steps : ℚ),
       ((k.KeyFrame (k.playIndex + 1)).movGlobo_y - (k.KeyFrame k.playIndex).movGlobo_y)
          / (k.i_max_steps : ℚ),
       ((k.KeyFrame (k.playIndex + 1)).movGlobo_z - (k.KeyFrame k.playIndex).movGlobo_z)
          / (k.i_max_steps : ℚ),
       ((k.KeyFrame (k.playIndex + 1)).giroGlobo - (k.KeyFrame k.playIndex).giroGlobo)
          / (k.i_max_steps : ℚ)) ∧
    (∀ j, ((interpolation k).KeyFrame j).recorded = (k.KeyFrame j).recorded) ∧
    (∀ j, j ≠ k.playIndex → (interpolation k).KeyFrame j = k.KeyFrame j) ∧
    (∀ s, Reachable m s → s.kf.i_max_steps = 270) := by
  refine ⟨?_, interpolation_recorded k, interpolation_other k, fun s hs => ?_⟩
  · rw [interpolation_at]; rfl
  · exact reachable_i_max_steps hs

/-! ## Key handlers and the keyframe variables -/

theorem inputPlay_kf_idle (s : State) (hN : s.kf.FrameIndex < 2) (hplay : s.kf.play = false) :
    (inputPlay Key.P Action.PRESS s).kf = s.kf := by
  have hnot : ¬ (1 < s.kf.FrameIndex) := by omega
  have heta : ({ s.kf with play := false } : Keyframes) = s.kf := by
    rw [← hplay]
  by_cases h : s.reproduciranimacion < 1
  · simp [inputPlay, h, hnot, heta]
  · simp [inputPlay, h]

/-- C5. Playback never starts on a sequence with fewer than 2 recorded
frames: in every state with `FrameIndex < 2` and `play == false`, a press of P
leaves all keyframe variables as they were (so `play` stays false and the live
pose, `playIndex` and `i_curr_steps` are unchanged), and so does every number
of subsequent `animate` ticks. -/
theorem C5_no_start_below_two_frames (m : Libm) (held : Held) (s : State)
    (hN : s.kf.FrameIndex < 2) (hplay : s.kf.play = false) :
    (my_input Key.P Action.PRESS held s).kf.play = false ∧
    (my_input Key.P Action.PRESS held s).kf = s.kf ∧
    ∀ n : ℕ, (ticks m n (my_input Key.P Action.PRESS held s)).kf.pose = s.kf.pose ∧
      (ticks m n (my_input Key.P Action.PRESS held s)).kf.playIndex = s.kf.playIndex ∧
      (ticks m n (my_input Key.P Action.PRESS held s)).kf.i_curr_steps = s.kf.i_curr_steps ∧
      (ticks m n (my_input Key.P Action.PRESS held s)).kf.play = false := by
  have h1 : (my_input Key.P Action.PRESS held s).kf = s.kf := by
    rw [my_input_kf_P, inputPlay_kf_idle s hN hplay]
  refine ⟨by rw [h1, hplay], h1, fun n => ?_⟩
  have h2 : (ticks m n (my_input Key.P Action.PRESS held s)).kf = s.kf := by
    rw [ticks_kf, h1, iterate_idle s.kf hplay]
  rw [h2]
  exact ⟨rfl, rfl, rfl, hplay⟩

/-- Witness for C5: with one recorded frame a press of P does not start the
playback, and 10 ticks later it is still idle. -/
theorem C5_no_start_below_two_frames_witness :
    oneFrameState.kf.FrameIndex < 2 ∧ oneFrameState.kf.play = false ∧
    (ticks Libm.standIn 10
      (my_input Key.P Action.PRESS Held.none oneFrameState)).kf.play = false :=
  ⟨by decide, rfl,
    ((C5_no_start_below_two_frames Libm.standIn Held.none oneFrameState
      (by decide) rfl).2.2 10).2.2.2⟩

theorem press_P_start (held : Held) (s : State) (harm : s.reproduciranimacion < 1)
    (hplay : s.kf.play = false) (hN : 1 < s.kf.FrameIndex) :
    (my_input Key.P Action.PRESS held s).kf =
        { interpolation (resetElements s.kf) with
          play := true, playIndex := 0, i_curr_steps := 0 } ∧
      (my_input Key.P Action.PRESS held s).reproduciranimacion = s.reproduciranimacion + 1 ∧
      (my_input Key.P Action.PRESS held s).habilitaranimacion = 0 := by
  simp [my_input, inputPlay, inputFreddy, inputChica, inputRearmPlay, inputSave,
    inputRearmSave, inputNudge, inputRearmNudge, harm, hplay, hN]

theorem press_P_stop (held : Held) (s : State) (harm : s.reproduciranimacion < 1)
    (hplay : s.kf.play = true) :
    (my_input Key.P Action.PRESS held s).kf = { s.kf with play := false } ∧
      (my_input Key.P Action.PRESS held s).reproduciranimacion = s.reproduciranimacion ∧
      (my_input Key.P Action.PRESS held s).habilitaranimacion = s.habilitaranimacion := by
  simp [my_input, inputPlay, inputFreddy, inputChica, inputRearmPlay, inputSave,
    inputRearmSave, inputNudge, inputRearmNudge, harm, hplay]

theorem press_P_guarded (held : Held) (s : State) (harm : 1 ≤ s.reproduciranimacion) :
    (my_input Key.P Action.PRESS held s).kf = s.kf ∧
      (my_input Key.P Action.PRESS held s).reproduciranimacion = s.reproduciranimacion ∧
      (my_input Key.P Action.PRESS held s).habilitaranimacion = s.habilitaranimacion := by
  simp [my_input, inputPlay, inputFreddy, inputChica, inputRearmPlay, inputSave,
    inputRearmSave, inputNudge, inputRearmNudge, not_lt.mpr harm]

theorem press_K0 (held : Held) (s : State) :
    (my_input Key.K0 Action.PRESS held s).kf = s.kf ∧
      (my_input Key.K0 Action.PRESS held s).reproduciranimacion =
        (if s.habilitaranimacion < 1 then 0 else s.reproduciranimacion) ∧
      (my_input Key.K0 Action.PRESS held s).habilitaranimacion = s.habilitaranimacion := by
  by_cases h : s.habilitaranimacion < 1 <;>
    simp [my_input, inputPlay, inputFreddy, inputChica, inputRearmPlay, inputSave,
      inputRearmSave, inputNudge, inputRearmNudge, h]

/-! ## The start key while the playback is active -/

/-- C4, as stated, fails: after program start, key P starts the playback and
key 0 re-arms the start guard; playback is then active, and a second press of
P sets `play` to false. -/
theorem C4_counterexample :
    (run Libm.standIn (mainInit Libm.standIn) [press Key.P, press Key.K0]).kf.play = true ∧
    (run Libm.standIn (mainInit Libm.standIn)
      [press Key.P, press Key.K0, press Key.P]).kf.play = false := by
  have g := mainInit_guards Libm.standIn
  have hk := mainInit_kf Libm.standIn
  have h1 := press_P_start Held.none (mainInit Libm.standIn) (by rw [g.1]; norm_num)
    (by rw [hk]; rfl) (by rw [hk]; decide)
  have h2 := press_K0 Held.none (my_input Key.P Action.PRESS Held.none (mainInit Libm.standIn))
  have hplay : (my_input Key.K0 Action.PRESS Held.none
      (my_input Key.P Action.PRESS Held.none (mainInit Libm.standIn))).kf.play = true := by
    rw [h2.1, h1.1]
  have harm : (my_input Key.K0 Action.PRESS Held.none
      (my_input Key.P Action.PRESS Held.none (mainInit Libm.standIn))).reproduciranimacion
        < 1 := by
    rw [h2.2.1, h1.2.2]; norm_num
  refine ⟨hplay, ?_⟩
  have h3 := press_P_stop Held.none _ harm hplay
  simp only [run, press, List.foldl, applyEvent]
  rw [h3.1]

/-- C4, amended. A press of P while the playback is active (`play == true`):
if the start guard is not re-armed (`reproduciranimacion >= 1`) it changes no
keyframe variable and neither guard counter; if the guard has been re-armed
(`reproduciranimacion < 1`, after key 0) it sets `play` to false and leaves
`playIndex`, `i_curr_steps`, the live pose, all keyframes and both guard
counters unchanged. -/
theorem C4_press_while_playing (held : Held) (s : State) (hplay : s.kf.play = true) :
    (1 ≤ s.reproduciranimacion →
      (my_input Key.P Action.PRESS held s).kf = s.kf ∧
      (my_input Key.P Action.PRESS held s).kf.play = true) ∧
    (s.reproduciranimacion < 1 →
      (my_input Key.P Action.PRESS held s).kf = { s.kf with play := false } ∧
      (my_input Key.P Action.PRESS held s).kf.play = false ∧
      (my_input Key.P Action.PRESS held s).kf.playIndex = s.kf.playIndex ∧
      (my_input Key.P Action.PRESS held s).kf.i_curr_steps = s.kf.i_curr_steps ∧
      (my_input Key.P Action.PRESS held s).kf.pose = s.kf.pose ∧
      (my_input Key.P Action.PRESS held s).kf.KeyFrame = s.kf.KeyFrame) ∧
    (my_input Key.P Action.PRESS held s).reproduciranimacion = s.reproduciranimacion ∧
    (my_input Key.P Action.PRESS held s).habilitaranimacion = s.habilitaranimacion := by
  refine ⟨fun h => ?_, fun h => ?_, ?_, ?_⟩
  · have h1 := (press_P_guarded held s h).1
    exact ⟨h1, by rw [h1, hplay]⟩
  · have h1 := (press_P_stop held s h hplay).1
    rw [h1]
    exact ⟨rfl, rfl, rfl, rfl, rfl, rfl⟩
  · by_cases h : s.reproduciranimacion < 1
    · exact (press_P_stop held s h hplay).2.1
    · exact (press_P_guarded held s (not_lt.mp h)).2.1
  · by_cases h : s.reproduciranimacion < 1
    · exact (press_P_stop held s h hplay).2.2
    · exact (press_P_guarded held s (not_lt.mp h)).2.2

/-- Witness for C4 (amended): in the three-frame scenario at the end of its
first segment the playback is active and the start guard is armed, so a press
of P stops the playback. -/
theorem C4_press_while_playing_witness :
    exampleBoundary.kf.play = true ∧
    (my_input Key.P Action.PRESS Held.none exampleBoundary).kf.play = false :=
  ⟨rfl, ((C4_press_while_playing Held.none exampleBoundary rfl).2.1
    (by simp [exampleBoundary, exampleState, initGlobals])).2.1⟩

/-! ## The tick at a segment boundary -/

/-- C6, as stated, fails: in the three-frame scenario at the end of its first
segment (`playIndex = 0`, `FrameIndex = 3`, `i_curr_steps = i_max_steps`) the
advanced cursor 1 indexes the second-to-last frame, `playIndex + 1 >=
FrameIndex - 2`, yet the tick leaves the playback active: it moves to segment
1, whose increments it computes. -/
theorem C6_counterexample :
    exampleBoundary.kf.play = true ∧
    exampleBoundary.kf.i_curr_steps ≥ exampleBoundary.kf.i_max_steps ∧
    exampleBoundary.kf.playIndex + 1 ≥ exampleBoundary.kf.FrameIndex - 2 ∧
    (animate Libm.standIn exampleBoundary).kf.play = true ∧
    (animate Libm.standIn exampleBoundary).kf.playIndex = 1 := by
  have h : animateKeyframes exampleBoundary.kf =
      interpolation { exampleBoundary.kf with
        playIndex := exampleBoundary.kf.playIndex + 1, i_curr_steps := 0 } :=
    animateKeyframes_next _ rfl (by decide) (by decide)
  refine ⟨rfl, by decide, by decide, ?_, ?_⟩
  · rw [animate_kf, h, (interpolation_fields _).2.2.2.2.2.2.2.1]
    rfl
  · rw [animate_kf, h, (interpolation_fields _).2.2.2.2.2.2.2.2]
    rfl

/-- C6, amended. On a tick taken while `play == true` and `i_curr_steps >=
i_max_steps` the play cursor is advanced by one, and the playback is marked
finished (`play = false`, the cursor put back to 0, nothing else changed) if
and only if the advanced cursor is past the second-to-last recorded frame,
i.e. iff `playIndex + 1 > FrameIndex - 2`; otherwise the cursor stays
advanced, `i_curr_steps` is reset to 0, the increments of the new segment are
recomputed from its two frames, and the live pose does not move. -/
theorem C6_segment_boundary (m : Libm) (s : State) (hplay : s.kf.play = true)
    (hend : s.kf.i_curr_steps ≥ s.kf.i_max_steps) :
    ((animate m s).kf.play = false ↔ s.kf.playIndex + 1 > s.kf.FrameIndex - 2) ∧
    (s.kf.playIndex + 1 > s.kf.FrameIndex - 2 →
      (animate m s).kf = { s.kf with playIndex := 0, play := false }) ∧
    (¬ s.kf.playIndex + 1 > s.kf.FrameIndex - 2 →
      (animate m s).kf.play = true ∧
      (animate m s).kf.playIndex = s.kf.playIndex + 1 ∧
      (animate m s).kf.i_curr_steps = 0 ∧
      (animate m s).kf.pose = s.kf.pose ∧
      ((animate m s).kf.KeyFrame (s.kf.playIndex + 1)).increments =
        (((s.kf.KeyFrame (s.kf.playIndex + 2)).movGlobo_x
            - (s.kf.KeyFrame (s.kf.playIndex + 1)).movGlobo_x) / (s.kf.i_max_steps : ℚ),
         ((s.kf.KeyFrame (s.kf.playIndex + 2)).movGlobo_y
            - (s.kf.KeyFrame (s.kf.playIndex + 1)).movGlobo_y) / (s.kf.i_max_steps : ℚ),
         ((s.kf.KeyFrame (s.kf.playIndex + 2)).movGlobo_z
            - (s.kf.KeyFrame (s.kf.playIndex + 1)).movGlobo_z) / (s.kf.i_max_steps : ℚ),
         ((s.kf.KeyFrame (s.kf.playIndex + 2)).giroGlobo
            - (s.kf.KeyFrame (s.kf.playIndex + 1)).giroGlobo) / (s.kf.i_max_steps : ℚ))) := by
  have hnext : ¬ s.kf.playIndex + 1 > s.kf.FrameIndex - 2 →
      (animate m s).kf = interpolation
        { s.kf with playIndex := s.kf.playIndex + 1, i_curr_steps := 0 } := fun h => by
    rw [animate_kf]
    exact animateKeyframes_next s.kf hplay hend (not_lt.mp h)
  have hfin : s.kf.playIndex + 1 > s.kf.FrameIndex - 2 →
      (animate m s).kf = { s.kf with playIndex := 0, play := false } := fun h => by
    rw [animate_kf]
    exact animateKeyframes_finish s.kf hplay hend h
  refine ⟨⟨fun h => ?_, fun h => ?_⟩, hfin, fun h => ?_⟩
  · by_contra hc
    rw [hnext hc, (interpolation_fields _).2.2.2.2.2.2.2.1] at h
    simp [hplay] at h
  · rw [hfin h]
  · rw [hnext h]
    have hf := interpolation_fields
      { s.kf with playIndex := s.kf.playIndex + 1, i_curr_steps := 0 }
    have hat := interpolation_at
      { s.kf with playIndex := s.kf.playIndex + 1, i_curr_steps := 0 }
    refine ⟨by rw [hf.2.2.2.2.2.2.2.1]; exact hplay, hf.2.2.2.2.2.2.2.2, hf.2.2.2.2.2.1, ?_, ?_⟩
    · simp only [Keyframes.pose, hf.1, hf.2.1, hf.2.2.1, hf.2.2.2.1]
    · simp only [] at hat
      rw [hat]
      simp only [FRAME.increments, add_assoc]
      norm_num

/-- Witness for C6 (amended): the three-frame scenario at the end of its first
segment; the tick moves on to segment 1, whose rotation increment is
`(180 - 90) / 100`. -/
theorem C6_segment_boundary_witness :
    exampleBoundary.kf.play = true ∧
    exampleBoundary.kf.i_curr_steps ≥ exampleBoundary.kf.i_max_steps ∧
    (animate Libm.standIn exampleBoundary).kf.i_curr_steps = 0 ∧
    ((animate Libm.standIn exampleBoundary).kf.KeyFrame 1).giroGloboInc = 9 / 10 := by
  have h := (C6_segment_boundary Libm.standIn exampleBoundary rfl (by decide)).2.2
    (by decide)
  refine ⟨rfl, by decide, h.2.2.1, ?_⟩
  have h5 := congrArg (fun q : ℚ × ℚ × ℚ × ℚ => q.2.2.2) h.2.2.2.2
  simp only [FRAME.increments] at h5
  have e : exampleBoundary.kf.playIndex + 1 = 1 := by decide
  rw [e] at h5
  rw [h5]
  simp [exampleBoundary, exampleState, initGlobals, exampleFrames, FRAME.pose, FRAME.zero]
  norm_num

/-! ## Invariants of the render loop -/

theorem reachable_run {m : Libm} {s : State} (h : Reachable m s) (es : List Event) :
    Reachable m (run m s es) := by
  induction es generalizing s with
  | nil => exact h
  | cons e es ih => exact ih (Reachable.step s e h)

theorem my_input_guards (key : Key) (action : Action) (held : Held) (s : State) :
    (my_input key action held s).guardoFrame =
        (if key = Key.L ∧ action = Action.PRESS then
          (if s.guardoFrame < 1 then s.guardoFrame + 1 else s.guardoFrame)
         else if key = Key.K3 ∧ action = Action.PRESS then
          (if s.reinicioFrame < 1 then 0 else s.guardoFrame)
         else s.guardoFrame) ∧
    (my_input key action held s).reinicioFrame =
        (if key = Key.L ∧ action = Action.PRESS then
          (if s.guardoFrame < 1 then 0 else s.reinicioFrame)
         else s.reinicioFrame) := by
  cases key <;> cases action <;>
    simp only [my_input, inputPlay, inputFreddy, inputChica, inputRearmPlay, inputSave,
      inputRearmSave, inputNudge, inputRearmNudge, and_self, and_true, and_false, if_true,
      if_false, reduceCtorEq, true_or] <;>
    (try split_ifs) <;> simp_all

theorem isRearmSave_input (key : Key) (action : Action) (held : Held) :
    (Event.input key action held).isRearmSave = true ↔ key = Key.K3 ∧ action = Action.PRESS := by
  cases key <;> cases action <;> simp [Event.isRearmSave]

theorem isSave_input (key : Key) (action : Action) (held : Held) :
    (Event.input key action held).isSave = true ↔ key = Key.L ∧ action = Action.PRESS := by
  cases key <;> cases action <;> simp [Event.isSave]

theorem my_input_not_rearm (key : Key) (action : Action) (held : Held) (s : State)
    (hne : (Event.input key action held).isRearmSave = false) (h : 1 ≤ s.guardoFrame) :
    1 ≤ (my_input key action held s).guardoFrame := by
  have hk : ¬ (key = Key.K3 ∧ action = Action.PRESS) := by
    rw [← isRearmSave_input key action held, hne]; simp
  rw [(my_input_guards key action held s).1]
  split_ifs <;> linarith

theorem my_input_not_save (key : Key) (action : Action) (held : Held) (s : State)
    (hne : (Event.input key action held).isSave = false) (h : s.guardoFrame < 1) :
    (my_input key action held s).guardoFrame < 1 := by
  have hk : ¬ (key = Key.L ∧ action = Action.PRESS) := by
    rw [← isSave_input key action held, hne]; simp
  rw [(my_input_guards key action held s).1]
  split_ifs <;> first | exact h | norm_num

theorem reachable_reinicioFrame {m : Libm} {s : State} (h : Reachable m s) :
    s.reinicioFrame = 0 ∧ 0 ≤ s.guardoFrame := by
  induction h with
  | init =>
    have g := mainInit_guards m
    rw [g.2.2.1, g.2.2.2.1]
    exact ⟨rfl, le_refl _⟩
  | step s e _ ih =>
    obtain ⟨ih0, ih1⟩ := ih
    cases e with
    | tick => exact ⟨ih0, ih1⟩
    | input key action held =>
      have hg := my_input_guards key action held s
      constructor
      · show (my_input key action held s).reinicioFrame = 0
        rw [hg.2]
        split_ifs <;> first | rfl | exact ih0
      · show 0 ≤ (my_input key action held s).guardoFrame
        rw [hg.1]
        split_ifs <;> first | exact ih1 | linarith

theorem run_blocked (m : Libm) (es : List Event) (s : State)
    (hes : ∀ e ∈ es, e.isRearmSave = false) (h : 1 ≤ s.guardoFrame) :
    1 ≤ (run m s es).guardoFrame := by
  induction es generalizing s with
  | nil => exact h
  | cons e es ih =>
    have hrest : ∀ x ∈ es, x.isRearmSave = false := fun x hx =>
      hes x (List.mem_cons_of_mem _ hx)
    have he : e.isRearmSave = false := hes e (List.mem_cons_self _ _)
    refine ih (applyEvent m s e) hrest ?_
    cases e with
    | tick => exact h
    | input key action held => exact my_input_not_rearm key action held s he h

theorem run_armed (m : Libm) (es : List Event) (s : State)
    (hes : ∀ e ∈ es, e.isSave = false) (h : s.guardoFrame < 1) :
    (run m s es).guardoFrame < 1 := by
  induction es generalizing s with
  | nil => exact h
  | cons e es ih =>
    have hrest : ∀ x ∈ es, x.isSave = false := fun x hx =>
      hes x (List.mem_cons_of_mem _ hx)
    have he : e.isSave = false := hes e (List.mem_cons_self _ _)
    refine ih (applyEvent m s e) hrest ?_
    cases e with
    | tick => exact h
    | input key action held => exact my_input_not_save key action held s he h

/-- C10. Record debounce: take any state of a run from program start and an
L press that records a frame there (it moves `FrameIndex`).  Then, through
any further events among which there is no press of key 3, every L press
leaves `FrameIndex` and all keyframes (indeed every keyframe variable)
unchanged; and once a press of key 3 has been handled, after any events among
which there is no L press, the next L press records exactly one frame:
its effect on the keyframe variables is that of one `saveFrame`. -/
theorem C10_record_debounce (m : Libm) (s : State) (hs : Reachable m s) (held : Held)
    (hrec : (my_input Key.L Action.PRESS held s).kf.FrameIndex = s.kf.FrameIndex + 1)
    (es : List Event) (hes : ∀ e ∈ es, e.isRearmSave = false) :
    (∀ held1 : Held,
      (my_input Key.L Action.PRESS held1
          (run m (my_input Key.L Action.PRESS held s) es)).kf
        = (run m (my_input Key.L Action.PRESS held s) es).kf) ∧
    (∀ (held2 : Held) (fs : List Event) (held3 : Held), (∀ e ∈ fs, e.isSave = false) →
      (my_input Key.L Action.PRESS held3
          (run m (my_input Key.K3 Action.PRESS held2
            (run m (my_input Key.L Action.PRESS held s) es)) fs)).kf
        = saveFrame (run m (my_input Key.K3 Action.PRESS held2
            (run m (my_input Key.L Action.PRESS held s) es)) fs).kf ∧
      (my_input Key.L Action.PRESS held3
          (run m (my_input Key.K3 Action.PRESS held2
            (run m (my_input Key.L Action.PRESS held s) es)) fs)).kf.FrameIndex
        = (run m (my_input Key.K3 Action.PRESS held2
            (run m (my_input Key.L Action.PRESS held s) es)) fs).kf.FrameIndex + 1) := by
  have hinv := reachable_reinicioFrame hs
  have hL := press_L_kf held s
  have harm : s.guardoFrame < 1 := by
    by_contra hc
    rw [hL.1, if_neg hc] at hrec
    omega
  have hg1 : 1 ≤ (my_input Key.L Action.PRESS held s).guardoFrame := by
    rw [hL.2.1, if_pos harm]
    linarith [hinv.2]
  have hr1 : Reachable m (my_input Key.L Action.PRESS held s) :=
    Reachable.step s (Event.input Key.L Action.PRESS held) hs
  have hg2 := run_blocked m es _ hes hg1
  have hr2 := reachable_run hr1 es
  constructor
  · intro held1
    rw [(press_L_kf held1 _).1, if_neg (not_lt.mpr hg2)]
  · intro held2 fs held3 hfs
    have hK := press_K3_kf held2 (run m (my_input Key.L Action.PRESS held s) es)
    have hg3 : (my_input Key.K3 Action.PRESS held2
        (run m (my_input Key.L Action.PRESS held s) es)).guardoFrame < 1 := by
      rw [hK.2.1, (reachable_reinicioFrame hr2).1]
      norm_num
    have hg4 := run_armed m fs _ hfs hg3
    have hsave := (press_L_kf held3 (run m (my_input Key.K3 Action.PRESS held2
        (run m (my_input Key.L Action.PRESS held s) es)) fs)).1
    rw [if_pos hg4] at hsave
    refine ⟨hsave, ?_⟩
    rw [hsave]
    exact (saveFrame_fields _).2.2.2.2.2.2.1

/-- Witness for C10: at program start an L press records a frame; after a tick
and a second L press a third L press changes no keyframe variable; after a
press of key 3 and a tick, an L press moves `FrameIndex` again. -/
theorem C10_record_debounce_witness :
    (my_input Key.L Action.PRESS Held.none (mainInit Libm.standIn)).kf.FrameIndex
      = (mainInit Libm.standIn).kf.FrameIndex + 1 ∧
    (my_input Key.L Action.PRESS Held.none
        (run Libm.standIn (my_input Key.L Action.PRESS Held.none (mainInit Libm.standIn))
          [Event.tick, press Key.L])).kf
      = (run Libm.standIn (my_input Key.L Action.PRESS Held.none (mainInit Libm.standIn))
          [Event.tick, press Key.L]).kf ∧
    (my_input Key.L Action.PRESS Held.none
        (run Libm.standIn (my_input Key.K3 Action.PRESS Held.none
          (run Libm.standIn (my_input Key.L Action.PRESS Held.none (mainInit Libm.standIn))
            [Event.tick, press Key.L])) [Event.tick])).kf.FrameIndex
      = (run Libm.standIn (my_input Key.K3 Action.PRESS Held.none
          (run Libm.standIn (my_input Key.L Action.PRESS Held.none (mainInit Libm.standIn))
            [Event.tick, press Key.L])) [Event.tick]).kf.FrameIndex + 1 := by
  have hrec : (my_input Key.L Action.PRESS Held.none (mainInit Libm.standIn)).kf.FrameIndex
      = (mainInit Libm.standIn).kf.FrameIndex + 1 := by
    rw [(press_L_kf Held.none (mainInit Libm.standIn)).1, (mainInit_guards Libm.standIn).2.2.1,
      if_pos (by norm_num)]
    exact (saveFrame_fields _).2.2.2.2.2.2.1
  have h := C10_record_debounce Libm.standIn (mainInit Libm.standIn) Reachable.init Held.none
    hrec [Event.tick, press Key.L] (by simp [press, Event.isRearmSave])
  exact ⟨hrec, h.1 Held.none,
    (h.2 Held.none [Event.tick] Held.none (by simp [Event.isSave])).2⟩

/-! ## Playback of the recorded frames -/

theorem advance_zero (k : Keyframes) : advance k 0 = k := by
  simp [advance]

theorem advance_fields (k : Keyframes) (n : ℕ) :
    (advance k n).play = k.play ∧ (advance k n).playIndex = k.playIndex ∧
    (advance k n).i_curr_steps = k.i_curr_steps + n ∧
    (advance k n).i_max_steps = k.i_max_steps ∧ (advance k n).FrameIndex = k.FrameIndex ∧
    (advance k n).KeyFrame = k.KeyFrame :=
  ⟨rfl, rfl, rfl, rfl, rfl, rfl⟩

theorem iterate_interior (k : Keyframes) (n : ℕ) (hp : k.play = true)
    (h : k.i_curr_steps + (n : Int) ≤ k.i_max_steps) :
    animateKeyframes^[n] k = advance k n := by
  induction n with
  | zero => rw [advance_zero]; rfl
  | succ n ih =>
    have hn : k.i_curr_steps + (n : Int) ≤ k.i_max_steps := by push_cast at h; omega
    rw [Function.iterate_succ_apply', ih hn]
    have hlt : (advance k n).i_curr_steps < (advance k n).i_max_steps := by
      show k.i_curr_steps + (n : Int) < k.i_max_steps
      push_cast at h; omega
    rw [animateKeyframes_interior (advance k n) hp hlt]
    simp only [advance, Keyframes.mk.injEq, and_true, true_and]
    refine ⟨?_, ?_, ?_, ?_, ?_⟩
    · push_cast; ring
    · push_cast; ring
    · push_cast; ring
    · push_cast; ring
    · push_cast; ring

theorem recorded_iff (f g : FRAME) :
    f.recorded = g.recorded ↔
      f.movGlobo_x = g.movGlobo_x ∧ f.movGlobo_y = g.movGlobo_y ∧
      f.movGlobo_z = g.movGlobo_z ∧ f.giroGlobo = g.giroGlobo := by
  simp [FRAME.recorded]

theorem AtFrame.segment {F : Int → FRAME} {S N : Int} {d : ℚ × ℚ × ℚ × ℚ} {j : Int}
    {k : Keyframes} (h : AtFrame F S N d j k) (n : ℕ) (hn : (n : Int) ≤ S) :
    animateKeyframes^[n] k = advance k n ∧
    (advance k n).pose =
      ((F j).movGlobo_x + d.1 + n * (((F (j + 1)).movGlobo_x - (F j).movGlobo_x) / (S : ℚ)),
       (F j).movGlobo_y + d.2.1 + n * (((F (j + 1)).movGlobo_y - (F j).movGlobo_y) / (S : ℚ)),
       (F j).movGlobo_z + d.2.2.1
          + n * (((F (j + 1)).movGlobo_z - (F j).movGlobo_z) / (S : ℚ)),
       (F j).giroGlobo + d.2.2.2
          + n * (((F (j + 1)).giroGlobo - (F j).giroGlobo) / (S : ℚ))) := by
  constructor
  · apply iterate_interior k n h.play
    rw [h.steps, h.max]; omega
  · have hi := h.incs
    have hp := h.pose
    simp only [FRAME.increments, Keyframes.pose, Prod.mk.injEq] at hi hp
    simp only [advance, Keyframes.pose, h.cursor, hi.1, hi.2.1, hi.2.2.1, hi.2.2.2, hp.1,
      hp.2.1, hp.2.2.1, hp.2.2.2]

theorem AtFrame.segment_end {F : Int → FRAME} {S N : Int} {d : ℚ × ℚ × ℚ × ℚ} {j : Int}
    {k : Keyframes} (h : AtFrame F S N d j k) (n : ℕ) (hn : (n : Int) = S) (hpos : 0 < n) :
    (advance k n).pose =
      ((F (j + 1)).movGlobo_x + d.1, (F (j + 1)).movGlobo_y + d.2.1,
       (F (j + 1)).movGlobo_z + d.2.2.1, (F (j + 1)).giroGlobo + d.2.2.2) := by
  rw [(h.segment n (le_of_eq hn)).2]
  have hS : (S : ℚ) = (n : ℚ) := by rw [← hn]; simp
  have hne : (n : ℚ) ≠ 0 := by exact_mod_cast hpos.ne'
  rw [hS]
  simp only [Prod.mk.injEq]
  refine ⟨?_, ?_, ?_, ?_⟩ <;> field_simp <;> ring

theorem AtFrame.next {F : Int → FRAME} {S N : Int} {d : ℚ × ℚ × ℚ × ℚ} {j : Int}
    {k : Keyframes} (h : AtFrame F S N d j k) (n : ℕ) (hn : (n : Int) = S) (hpos : 0 < n)
    (hmore : j + 1 ≤ N - 2) :
    AtFrame F S N d (j + 1) (animateKeyframes^[n + 1] k) := by
  have hseg := h.segment n (le_of_eq hn)
  have hend := h.segment_end n hn hpos
  have hf := advance_fields k n
  have hstep : animateKeyframes (advance k n) =
      interpolation { advance k n with playIndex := j + 1, i_curr_steps := 0 } := by
    rw [animateKeyframes_next (advance k n) (by rw [hf.1, h.play])
      (by rw [hf.2.2.2.1, hf.2.2.1, h.max, h.steps]; omega)
      (by rw [hf.2.1, hf.2.2.2.2.1, h.cursor, h.count]; exact hmore), hf.2.1, h.cursor]
  rw [Function.iterate_succ_apply', hseg.1, hstep]
  have hi := interpolation_fields { advance k n with playIndex := j + 1, i_curr_steps := 0 }
  have hat := interpolation_at { advance k n with playIndex := j + 1, i_curr_steps := 0 }
  have hrec : ∀ i, ((interpolation
      { advance k n with playIndex := j + 1, i_curr_steps := 0 }).KeyFrame i).recorded
        = (F i).recorded := fun i => by
    rw [interpolation_recorded]
    exact h.recorded i
  refine ⟨?_, hi.2.2.2.2.2.2.2.2, hi.2.2.2.2.2.1, ?_, ?_, hrec, ?_, ?_⟩
  · rw [hi.2.2.2.2.2.2.2.1]; exact h.play
  · rw [hi.2.2.2.2.1]; exact h.max
  · rw [hi.2.2.2.2.2.2.1]; exact h.count
  · simp only [] at hat
    rw [hat]
    have r1 := (recorded_iff _ _).1 (h.recorded (j + 1))
    have r2 := (recorded_iff _ _).1 (h.recorded (j + 1 + 1))
    simp only [FRAME.increments, advance, r1.1, r1.2.1, r1.2.2.1, r1.2.2.2, r2.1, r2.2.1,
      r2.2.2.1, r2.2.2.2, h.max]
  · have : (interpolation { advance k n with playIndex := j + 1, i_curr_steps := 0 }).pose
        = (advance k n).pose := by
      simp only [Keyframes.pose, hi.1, hi.2.1, hi.2.2.1, hi.2.2.2.1]
    rw [this, hend]

theorem AtFrame.finish {F : Int → FRAME} {S N : Int} {d : ℚ × ℚ × ℚ × ℚ} {j : Int}
    {k : Keyframes} (h : AtFrame F S N d j k) (n : ℕ) (hn : (n : Int) = S) (hpos : 0 < n)
    (hlast : N - 2 < j + 1) :
    (animateKeyframes^[n] k).play = true ∧
    (animateKeyframes^[n] k).pose =
      ((F (j + 1)).movGlobo_x + d.1, (F (j + 1)).movGlobo_y + d.2.1,
       (F (j + 1)).movGlobo_z + d.2.2.1, (F (j + 1)).giroGlobo + d.2.2.2) ∧
    animateKeyframes^[n + 1] k =
      { animateKeyframes^[n] k with playIndex := 0, play := false } := by
  have hseg := h.segment n (le_of_eq hn)
  have hend := h.segment_end n hn hpos
  have hf := advance_fields k n
  refine ⟨by rw [hseg.1, hf.1, h.play], by rw [hseg.1, hend], ?_⟩
  rw [Function.iterate_succ_apply', hseg.1]
  exact animateKeyframes_finish (advance k n) (by rw [hf.1, h.play])
    (by rw [hf.2.2.2.1, hf.2.2.1, h.max, h.steps]; omega)
    (by rw [hf.2.1, hf.2.2.2.2.1, h.cursor, h.count]; exact hlast)

theorem AtFrame.iterate {F : Int → FRAME} {S N : Int} {d : ℚ × ℚ × ℚ × ℚ}
    {k : Keyframes} (h : AtFrame F S N d 0 k) (n : ℕ) (hn : (n : Int) = S) (hpos : 0 < n)
    (j : ℕ) (hj : (j : Int) ≤ N - 2) :
    AtFrame F S N d j (animateKeyframes^[j * (n + 1)] k) := by
  induction j with
  | zero => simpa using h
  | succ j ih =>
    have hj' : (j : Int) ≤ N - 2 := by push_cast at hj; omega
    have hnext := (ih hj').next n hn hpos (by push_cast at hj; omega)
    rw [← Function.iterate_add_apply] at hnext
    have e : n + 1 + j * (n + 1) = (j + 1) * (n + 1) := by ring
    rw [e] at hnext
    exact_mod_cast hnext

theorem resetElements_fields (k : Keyframes) :
    (resetElements k).movGlobo_x = (k.KeyFrame 0).movGlobo_x ∧
    (resetElements k).movGlobo_y = (k.KeyFrame 0).movGlobo_z ∧
    (resetElements k).movGlobo_z = k.movGlobo_z ∧
    (resetElements k).giroGlobo = (k.KeyFrame 0).giroGlobo ∧
    (resetElements k).i_max_steps = k.i_max_steps ∧
    (resetElements k).i_curr_steps = k.i_curr_steps ∧
    (resetElements k).KeyFrame = k.KeyFrame ∧
    (resetElements k).FrameIndex = k.FrameIndex ∧ (resetElements k).play = k.play ∧
    (resetElements k).playIndex = k.playIndex :=
  ⟨rfl, rfl, rfl, rfl, rfl, rfl, rfl, rfl, rfl, rfl⟩

theorem atFrame_start (k : Keyframes) (hcur : k.playIndex = 0) :
    AtFrame k.KeyFrame k.i_max_steps k.FrameIndex (startOffset k) 0
      { interpolation (resetElements k) with
        play := true, playIndex := 0, i_curr_steps := 0 } := by
  have hr := resetElements_fields k
  have hi := interpolation_fields (resetElements k)
  have hat := interpolation_at (resetElements k)
  rw [hr.2.2.2.2.2.2.2.2.2, hcur] at hat
  refine ⟨rfl, rfl, rfl, ?_, ?_, fun i => ?_, ?_, ?_⟩
  · exact hi.2.2.2.2.1
  · exact hi.2.2.2.2.2.2.1
  · exact interpolation_recorded (resetElements k) i
  · show ((interpolation (resetElements k)).KeyFrame 0).increments = _
    rw [hat]
    simp only [FRAME.increments, resetElements, zero_add]
  · show ((interpolation (resetElements k)).movGlobo_x,
      (interpolation (resetElements k)).movGlobo_y,
      (interpolation (resetElements k)).movGlobo_z,
      (interpolation (resetElements k)).giroGlobo) = _
    rw [hi.1, hi.2.1, hi.2.2.1, hi.2.2.2.1, hr.1, hr.2.1, hr.2.2.1, hr.2.2.2.1]
    simp only [startOffset, Prod.mk.injEq]
    refine ⟨?_, ?_, ?_, ?_⟩ <;> ring

/-- After a start of the playback on `N >= 2` frames with `S > 0` steps per
segment and the cursor at 0: the state after `S + (N - 2) * (S + 1)` ticks
(playback still active, live pose at the last frame up to the start offset),
and the tick after it (playback finished, cursor back at 0, pose kept). -/
theorem playback_end (k : Keyframes) (M S : ℕ) (hS : 0 < S)
    (hcount : k.FrameIndex = (M : Int) + 2) (hmax : k.i_max_steps = S)
    (hcur : k.playIndex = 0) :
    (animateKeyframes^[S + M * (S + 1)]
        { interpolation (resetElements k) with
          play := true, playIndex := 0, i_curr_steps := 0 }).play = true ∧
    (animateKeyframes^[S + M * (S + 1)]
        { interpolation (resetElements k) with
          play := true, playIndex := 0, i_curr_steps := 0 }).pose =
      ((k.KeyFrame (M + 1)).movGlobo_x,
       (k.KeyFrame (M + 1)).movGlobo_y + (startOffset k).2.1,
       (k.KeyFrame (M + 1)).movGlobo_z + (startOffset k).2.2.1,
       (k.KeyFrame (M + 1)).giroGlobo) ∧
    animateKeyframes^[S + 1 + M * (S + 1)]
        { interpolation (resetElements k) with
          play := true, playIndex := 0, i_curr_steps := 0 } =
      { animateKeyframes^[S + M * (S + 1)]
          { interpolation (resetElements k) with
            play := true, playIndex := 0, i_curr_steps := 0 } with
        playIndex := 0, play := false } := by
  have h0 := atFrame_start k hcur
  have hM := h0.iterate S hmax.symm hS M (by rw [hcount]; omega)
  have hfin := hM.finish S hmax.symm hS (by rw [hcount]; omega)
  rw [← Function.iterate_add_apply, ← Function.iterate_add_apply] at hfin
  refine ⟨hfin.1, ?_, hfin.2.2⟩
  rw [hfin.2.1]
  simp [startOffset]

/-- C1, as stated, fails on its own scenario: frames `(0,0,0,0)`, `(10,0,0,90)`,
`(10,0,-10,180)`, 100 steps per segment, live pose `(0,0,0,0)`.  After the
start and 200 ticks the live pose is `(10, 0, -9.9, 179.1)`, not the last
frame, and the playback is still active; it is still active after tick 201.
(Tick 101 is spent on the change of segment and moves nothing.) -/
theorem C1_counterexample :
    (ticks Libm.standIn 200
      (my_input Key.P Action.PRESS Held.none exampleState)).kf.pose
        = (10, 0, -99 / 10, 1791 / 10) ∧
    (ticks Libm.standIn 200
      (my_input Key.P Action.PRESS Held.none exampleState)).kf.pose
        ≠ (exampleState.kf.KeyFrame 2).recorded ∧
    (ticks Libm.standIn 200
      (my_input Key.P Action.PRESS Held.none exampleState)).kf.play = true ∧
    (ticks Libm.standIn 201
      (my_input Key.P Action.PRESS Held.none exampleState)).kf.play = true := by
  have hstart := (press_P_start Held.none exampleState
    (by simp [exampleState, initGlobals]) rfl (by decide)).1
  have h0 := atFrame_start exampleState.kf rfl
  have h1 := h0.next 100 (by decide) (by decide) (by decide)
  have hseg := h1.segment 99 (by decide)
  have hfin := h1.finish 100 (by decide) (by decide) (by decide)
  rw [← Function.iterate_add_apply] at hseg hfin
  have hpose : (ticks Libm.standIn 200
      (my_input Key.P Action.PRESS Held.none exampleState)).kf.pose
        = (10, 0, -99 / 10, 1791 / 10) := by
    rw [ticks_kf, hstart, hseg.1, hseg.2]
    simp [startOffset, exampleState, initGlobals, exampleFrames, FRAME.pose, FRAME.zero]
    norm_num
  refine ⟨hpose, ?_, ?_, ?_⟩
  · rw [hpose]
    simp [exampleState, initGlobals, exampleFrames, FRAME.pose, FRAME.zero, FRAME.recorded]
    norm_num
  · rw [ticks_kf, hstart, hseg.1, (advance_fields _ 99).1]
    exact h1.play
  · rw [ticks_kf, hstart]
    exact hfin.1

/-- C1, amended. For `N >= 2` recorded frames and `S = i_max_steps > 0`:
starting the playback (P press with `play == false`, the start guard armed and
the play cursor at 0) and then running exactly `(N-1) * (S+1) - 1` ticks of
`animate` with no further input leaves the x and rotation channels of the
live pose equal to those of `KeyFrame[N-1]`, with the playback still active;
tick number `(N-1) * (S+1)` sets `play` to false (and the cursor to 0) without
moving the pose, and every later tick changes no keyframe variable.  Whenever
the start has left the live pose at `KeyFrame[0]`, the whole live pose after
`(N-1) * (S+1) - 1` ticks is that of `KeyFrame[N-1]`. -/
theorem C1_playback_timing (m : Libm) (held : Held) (s : State) (N S : ℕ)
    (hN : 2 ≤ N) (hS : 0 < S)
    (hcount : s.kf.FrameIndex = N) (hmax : s.kf.i_max_steps = S)
    (hplay : s.kf.play = false) (harm : s.reproduciranimacion < 1)
    (hcur : s.kf.playIndex = 0) :
    (ticks m ((N - 1) * (S + 1) - 1) (my_input Key.P Action.PRESS held s)).kf.movGlobo_x
      = (s.kf.KeyFrame ((N : Int) - 1)).movGlobo_x ∧
    (ticks m ((N - 1) * (S + 1) - 1) (my_input Key.P Action.PRESS held s)).kf.giroGlobo
      = (s.kf.KeyFrame ((N : Int) - 1)).giroGlobo ∧
    (ticks m ((N - 1) * (S + 1) - 1) (my_input Key.P Action.PRESS held s)).kf.play = true ∧
    (ticks m ((N - 1) * (S + 1)) (my_input Key.P Action.PRESS held s)).kf.play = false ∧
    (ticks m ((N - 1) * (S + 1)) (my_input Key.P Action.PRESS held s)).kf.playIndex = 0 ∧
    (ticks m ((N - 1) * (S + 1)) (my_input Key.P Action.PRESS held s)).kf.pose
      = (ticks m ((N - 1) * (S + 1) - 1) (my_input Key.P Action.PRESS held s)).kf.pose ∧
    (∀ n : ℕ,
      (ticks m ((N - 1) * (S + 1) + n) (my_input Key.P Action.PRESS held s)).kf
        = (ticks m ((N - 1) * (S + 1)) (my_input Key.P Action.PRESS held s)).kf) ∧
    ((my_input Key.P Action.PRESS held s).kf.pose = (s.kf.KeyFrame 0).recorded →
      (ticks m ((N - 1) * (S + 1) - 1) (my_input Key.P Action.PRESS held s)).kf.pose
        = (s.kf.KeyFrame ((N : Int) - 1)).recorded) := by
  obtain ⟨M, rfl⟩ : ∃ M, N = M + 2 := ⟨N - 2, by omega⟩
  have hstart := (press_P_start held s harm hplay (by rw [hcount]; push_cast; omega)).1
  have hend := playback_end s.kf M S hS (by rw [hcount]; push_cast; ring) hmax hcur
  have e1 : (M + 2 - 1) * (S + 1) - 1 = S + M * (S + 1) := by
    have : (M + 2 - 1) * (S + 1) = S + M * (S + 1) + 1 := by
      rw [show M + 2 - 1 = M + 1 by omega]; ring
    omega
  have e2 : (M + 2 - 1) * (S + 1) = S + 1 + M * (S + 1) := by
    rw [show M + 2 - 1 = M + 1 by omega]; ring
  have e3 : (((M + 2 : ℕ) : Int) - 1) = (M : Int) + 1 := by push_cast; ring
  have hpose := hend.2.1
  simp only [Keyframes.pose, Prod.mk.injEq] at hpose
  have hr := resetElements_fields s.kf
  have hi := interpolation_fields (resetElements s.kf)
  have hreset : (my_input Key.P Action.PRESS held s).kf.pose = (s.kf.KeyFrame 0).recorded →
      (startOffset s.kf).2.1 = 0 ∧ (startOffset s.kf).2.2.1 = 0 := fun h => by
    rw [hstart] at h
    simp only [Keyframes.pose, FRAME.recorded, Prod.mk.injEq, hi.2.1, hi.2.2.1, hr.2.1,
      hr.2.2.1] at h
    simp only [startOffset]
    exact ⟨by rw [h.2.1]; ring, by rw [h.2.2.1]; ring⟩
  rw [e1, e2, e3]
  simp only [ticks_kf, hstart] at hreset ⊢
  refine ⟨hpose.1, hpose.2.2.2, hend.1, ?_, ?_, ?_, fun n => ?_, fun h => ?_⟩
  · rw [hend.2.2]
  · rw [hend.2.2]
  · rw [hend.2.2]; rfl
  · rw [Nat.add_comm _ n, Function.iterate_add_apply, hend.2.2]
    exact iterate_idle _ rfl n
  · have hz := hreset h
    rw [hend.2.1, hz.1, hz.2]
    simp only [FRAME.recorded, add_zero]

/-- Witness for C1 (amended): the three-frame scenario with 100 steps per
segment.  After the start and 201 ticks the live pose is `(10, 0, -10, 180)`,
that of the last frame, and the playback is still active; tick 202 ends the
playback, and tick 203 changes no keyframe variable. -/
theorem C1_playback_timing_witness :
    (ticks Libm.standIn 201
      (my_input Key.P Action.PRESS Held.none exampleState)).kf.pose = (10, 0, -10, 180) ∧
    (ticks Libm.standIn 201
      (my_input Key.P Action.PRESS Held.none exampleState)).kf.play = true ∧
    (ticks Libm.standIn 202
      (my_input Key.P Action.PRESS Held.none exampleState)).kf.play = false ∧
    (ticks Libm.standIn 203 (my_input Key.P Action.PRESS Held.none exampleState)).kf
      = (ticks Libm.standIn 202 (my_input Key.P Action.PRESS Held.none exampleState)).kf := by
  have harm : exampleState.reproduciranimacion < 1 := by simp [exampleState, initGlobals]
  have h := C1_playback_timing Libm.standIn Held.none exampleState 3 100 (by decide)
    (by decide) rfl rfl rfl harm rfl
  have hstart : (my_input Key.P Action.PRESS Held.none exampleState).kf.pose
      = (exampleState.kf.KeyFrame 0).recorded := by
    rw [(press_P_start Held.none exampleState harm rfl (by decide)).1]
    have hr := resetElements_fields exampleState.kf
    have hi := interpolation_fields (resetElements exampleState.kf)
    simp only [Keyframes.pose, FRAME.recorded, hi.1, hi.2.1, hi.2.2.1, hi.2.2.2.1, hr.1, hr.2.1,
      hr.2.2.1, hr.2.2.2.1]
    simp [exampleState, initGlobals, exampleFrames, FRAME.pose, FRAME.zero]
    norm_num
  have hlast : (exampleState.kf.KeyFrame (((3 : ℕ) : Int) - 1)).recorded = (10, 0, -10, 180) := by
    simp [exampleState, initGlobals, exampleFrames, FRAME.pose, FRAME.zero, FRAME.recorded]
  exact ⟨(h.2.2.2.2.2.2.2 hstart).trans hlast, h.2.2.1, h.2.2.2.1, h.2.2.2.2.2.2.1 1⟩

theorem ticks_reproduciranimacion (m : Libm) (n : ℕ) (t : State) :
    (ticks m n t).reproduciranimacion = t.reproduciranimacion := by
  induction n generalizing t with
  | zero => rfl
  | succ n ih =>
    simp only [ticks, Function.iterate_succ, Function.comp_apply] at ih ⊢
    rw [ih]; rfl

theorem start_keeps_z (held : Held) (s : State) (hp : s.kf.play = false)
    (hN : 1 < s.kf.FrameIndex) (ha : s.reproduciranimacion < 1) :
    (my_input Key.P Action.PRESS held s).kf.play = true ∧
    (my_input Key.P Action.PRESS held s).kf.movGlobo_z = s.kf.movGlobo_z ∧
    (my_input Key.P Action.PRESS held s).kf.movGlobo_y = (s.kf.KeyFrame 0).movGlobo_z ∧
    ((my_input Key.P Action.PRESS held s).kf.KeyFrame 0).recorded
      = (s.kf.KeyFrame 0).recorded := by
  rw [(press_P_start held s ha hp hN).1]
  exact ⟨rfl, (interpolation_fields _).2.2.1, (interpolation_fields _).2.1,
    interpolation_recorded (resetElements s.kf) 0⟩

theorem restart_after_stop (held : Held) (t : State) (hplay : t.kf.play = true)
    (harm : t.reproduciranimacion < 1) (hN : 1 < t.kf.FrameIndex) :
    (my_input Key.P Action.PRESS held t).kf.play = false ∧
    (my_input Key.P Action.PRESS held t).kf.FrameIndex = t.kf.FrameIndex ∧
    (my_input Key.P Action.PRESS held t).reproduciranimacion < 1 ∧
    (my_input Key.P Action.PRESS held (my_input Key.P Action.PRESS held t)).kf.play = true ∧
    (my_input Key.P Action.PRESS held (my_input Key.P Action.PRESS held t)).kf.movGlobo_z
      = t.kf.movGlobo_z ∧
    ((my_input Key.P Action.PRESS held
        (my_input Key.P Action.PRESS held t)).kf.KeyFrame 0).movGlobo_z
      = (t.kf.KeyFrame 0).movGlobo_z := by
  have hstop := press_P_stop held t harm hplay
  have h1 : (my_input Key.P Action.PRESS held t).kf.play = false := by rw [hstop.1]
  have h2 : (my_input Key.P Action.PRESS held t).kf.FrameIndex = t.kf.FrameIndex := by
    rw [hstop.1]
  have h3 : (my_input Key.P Action.PRESS held t).reproduciranimacion < 1 := by
    rw [hstop.2.1]; exact harm
  have hs := start_keeps_z held (my_input Key.P Action.PRESS held t) h1 (by rw [h2]; exact hN) h3
  refine ⟨h1, h2, h3, hs.1, ?_, ?_⟩
  · rw [hs.2.1, hstop.1]
  · rw [((recorded_iff _ _).1 hs.2.2.2).2.2.1, hstop.1]

theorem pose_components (k : Keyframes) (x y z g : ℚ) (h : k.pose = (x, y, z, g)) :
    k.movGlobo_x = x ∧ k.movGlobo_y = y ∧ k.movGlobo_z = z ∧ k.giroGlobo = g := by
  simpa [Keyframes.pose] using h

theorem midway_facts :
    (ticks Libm.standIn 2303
      (my_input Key.K0 Action.PRESS Held.none
        (my_input Key.P Action.PRESS Held.none (mainInit Libm.standIn)))).kf.play = true ∧
    (ticks Libm.standIn 2303
      (my_input Key.K0 Action.PRESS Held.none
        (my_input Key.P Action.PRESS Held.none (mainInit Libm.standIn)))).kf.FrameIndex = 46 ∧
    (ticks Libm.standIn 2303
      (my_input Key.K0 Action.PRESS Held.none
        (my_input Key.P Action.PRESS Held.none (mainInit Libm.standIn)))).kf.movGlobo_z = -2 ∧
    ((ticks Libm.standIn 2303
      (my_input Key.K0 Action.PRESS Held.none
        (my_input Key.P Action.PRESS Held.none (mainInit Libm.standIn)))).kf.KeyFrame 0
          ).movGlobo_z = 0 ∧
    (ticks Libm.standIn 2303
      (my_input Key.K0 Action.PRESS Held.none
        (my_input Key.P Action.PRESS Held.none (mainInit Libm.standIn)))).reproduciranimacion
      = 0 := by
  have g := mainInit_guards Libm.standIn
  have hk := mainInit_kf Libm.standIn
  have h1 := press_P_start Held.none (mainInit Libm.standIn) (by rw [g.1]; norm_num)
    (by rw [hk]; rfl) (by rw [hk]; decide)
  have h2 := press_K0 Held.none (my_input Key.P Action.PRESS Held.none (mainInit Libm.standIn))
  have a0 := atFrame_start (mainInit Libm.standIn).kf (by rw [hk]; rfl)
  have a8 := a0.iterate 270 (by rw [hk]; rfl) (by decide) 8 (by rw [hk]; decide)
  have hseg := a8.segment 135 (by rw [hk]; decide)
  rw [← Function.iterate_add_apply] at hseg
  have hticks : (ticks Libm.standIn 2303
      (my_input Key.K0 Action.PRESS Held.none
        (my_input Key.P Action.PRESS Held.none (mainInit Libm.standIn)))).kf
      = advance (animateKeyframes^[8 * (270 + 1)]
          { interpolation (resetElements (mainInit Libm.standIn).kf) with
            play := true, playIndex := 0, i_curr_steps := 0 }) 135 := by
    rw [ticks_kf, h2.1, h1.1]
    exact hseg.1
  rw [hticks, ticks_reproduciranimacion, h2.2.1, h1.2.2]
  have hf := advance_fields (animateKeyframes^[8 * (270 + 1)]
          { interpolation (resetElements (mainInit Libm.standIn).kf) with
            play := true, playIndex := 0, i_curr_steps := 0 }) 135
  refine ⟨hf.1.trans a8.play, ?_, ?_, ?_, by norm_num⟩
  · rw [hf.2.2.2.2.1, a8.count, hk]; rfl
  · rw [(pose_components _ _ _ _ _ hseg.2).2.2.1, hk]
    simp [startOffset, initGlobals, bakeKeyFrames, bakedPoses, FRAME.zero]
    norm_num
  · rw [hf.2.2.2.2.2, ((recorded_iff _ _).1 (a8.recorded 0)).2.2.1, hk]
    simp [initGlobals, bakeKeyFrames, bakedPoses, FRAME.zero]

/-- C2, evaluated on the code.  `resetElements` assigns `movGlobo_y` twice (the
second time from `KeyFrame[0].movGlobo_z`) and never assigns `movGlobo_z`, so a
start of the playback leaves `movGlobo_z` as it was and sets `movGlobo_y` to
`KeyFrame[0].movGlobo_z`.  On the baked path: start, re-arm, 2303 ticks and a
stop leave the balloon inside segment 8 with the playback idle, `FrameIndex =
46` and the start guard armed; the next P press starts the playback with
`movGlobo_z = -2`, while `KeyFrame[0].movGlobo_z = 0`. -/
theorem C2_start_keeps_z :
    (∀ (held : Held) (s : State), s.kf.play = false → 1 < s.kf.FrameIndex →
      s.reproduciranimacion < 1 →
      (my_input Key.P Action.PRESS held s).kf.play = true ∧
      (my_input Key.P Action.PRESS held s).kf.movGlobo_z = s.kf.movGlobo_z ∧
      (my_input Key.P Action.PRESS held s).kf.movGlobo_y = (s.kf.KeyFrame 0).movGlobo_z) ∧
    stoppedMidway.kf.play = false ∧ stoppedMidway.kf.FrameIndex = 46 ∧
    stoppedMidway.reproduciranimacion < 1 ∧
    (my_input Key.P Action.PRESS Held.none stoppedMidway).kf.play = true ∧
    (my_input Key.P Action.PRESS Held.none stoppedMidway).kf.movGlobo_z = -2 ∧
    ((my_input Key.P Action.PRESS Held.none stoppedMidway).kf.KeyFrame 0).movGlobo_z = 0 := by
  have hm := midway_facts
  have hr := restart_after_stop Held.none _ hm.1 (by rw [hm.2.2.2.2]; norm_num)
    (by rw [hm.2.1]; decide)
  rw [stoppedMidway]
  refine ⟨fun held s hp hN ha => ?_, hr.1, hr.2.1.trans hm.2.1, hr.2.2.1, hr.2.2.2.1,
    hr.2.2.2.2.1.trans hm.2.2.1, hr.2.2.2.2.2.trans hm.2.2.2.1⟩
  have h := start_keeps_z held s hp hN ha
  exact ⟨h.1, h.2.1, h.2.2.1⟩

/-! ## The ring (C11) -/

theorem ticks_succ (m : Libm) (n : ℕ) (s : State) :
    ticks m (n + 1) s = animate m (ticks m n s) := by
  simp only [ticks, Function.iterate_succ_apply']

theorem ticks_rings (m : Libm) (n : ℕ) (s : State) :
    (ticks m n s).rings = animateRing^[n] s.rings := by
  induction n with
  | zero => rfl
  | succ n ih => rw [ticks_succ, Function.iterate_succ_apply', ← ih]; rfl

theorem animateRing_rotring (r : Rings) :
    (animateRing r).rotring = if r.rotring + 2.5 ≥ 180 then 0 else r.rotring + 2.5 := by
  simp only [animateRing, ge_iff_le]
  split_ifs <;> norm_num

theorem ring_iterate (r : Rings) (h : r.rotring = 0) (k : ℕ) :
    (animateRing^[k] r).rotring = 2.5 * ((k % 72 : ℕ) : ℚ) := by
  induction k with
  | zero => simp [h]
  | succ k ih =>
    rw [Function.iterate_succ_apply', animateRing_rotring, ih]
    have hr : k % 72 < 72 := Nat.mod_lt _ (by decide)
    by_cases h71 : k % 72 = 71
    · have e : (k + 1) % 72 = 0 := by omega
      rw [e, h71]
      norm_num
    · have e : (k + 1) % 72 = k % 72 + 1 := by omega
      have hlt : ((k % 72 : ℕ) : ℚ) + 1 ≤ 71 := by
        have : k % 72 + 1 ≤ 71 := by omega
        exact_mod_cast this
      rw [e, if_neg (by linarith)]
      push_cast; ring

/-- C11. Rotating collectible: for every `k`, after `k` ticks of `animate`
from the initial state (`rotring = 0`) the ring angle is `(2.5 k) mod 180`,
that is `2.5 * (k mod 72)`, which is `2.5 k - 180 * (k / 72)`. -/
theorem C11_ring_angle (m : Libm) (k : ℕ) :
    initGlobals.rings.rotring = 0 ∧
    (ticks m k initGlobals).rings.rotring = 2.5 * ((k % 72 : ℕ) : ℚ) ∧
    (ticks m k initGlobals).rings.rotring = 2.5 * (k : ℚ) - 180 * ((k / 72 : ℕ) : ℚ) ∧
    0 ≤ (ticks m k initGlobals).rings.rotring ∧ (ticks m k initGlobals).rings.rotring < 180 := by
  have h0 : initGlobals.rings.rotring = 0 := by simp [initGlobals]; norm_num
  have h := ring_iterate initGlobals.rings h0 k
  have hr : k % 72 < 72 := Nat.mod_lt _ (by decide)
  have hr' : ((k % 72 : ℕ) : ℚ) ≤ 71 := by exact_mod_cast Nat.lt_succ_iff.mp hr
  have hr0 : (0 : ℚ) ≤ ((k % 72 : ℕ) : ℚ) := Nat.cast_nonneg _
  have hdm : (k : ℚ) = 72 * ((k / 72 : ℕ) : ℚ) + ((k % 72 : ℕ) : ℚ) := by
    exact_mod_cast (Nat.div_add_mod k 72).symm
  rw [ticks_rings, h]
  refine ⟨h0, rfl, ?_, by linarith, by linarith⟩
  linarith

/-! ## The figures under key events; the waving arm (C12) -/

theorem reachable_fromStart {m : Libm} {s : State} (h : Reachable m s) : FromStart m s := by
  induction h with
  | init => exact FromStart.loop
  | step s e _ ih => exact FromStart.step s e ih

/-- What the key blocks of `my_input` leave alone in a record of figures. -/
theorem inputPlay_figures (key : Key) (action : Action) (s : State) :
    (inputPlay key action s).luz = s.luz ∧ (inputPlay key action s).sonic = s.sonic ∧
    (inputPlay key action s).rings = s.rings ∧ (inputPlay key action s).eggman = s.eggman ∧
    (inputPlay key action s).cheff = s.cheff ∧ (inputPlay key action s).freddy = s.freddy ∧
    (inputPlay key action s).chica = s.chica ∧ (inputPlay key action s).bb = s.bb := by
  unfold inputPlay
  split_ifs <;> exact ⟨rfl, rfl, rfl, rfl, rfl, rfl, rfl, rfl⟩

theorem inputFreddy_figures (key : Key) (action : Action) (s : State) :
    (inputFreddy key action s).luz = s.luz ∧ (inputFreddy key action s).sonic = s.sonic ∧
    (inputFreddy key action s).rings = s.rings ∧ (inputFreddy key action s).eggman = s.eggman ∧
    (inputFreddy key action s).cheff = s.cheff ∧
    (inputFreddy key action s).freddy =
      (if key = Key.K1 ∧ action = Action.PRESS then
        { s.freddy with Freddyanim := xor s.freddy.Freddyanim true } else s.freddy) ∧
    (inputFreddy key action s).chica = s.chica ∧ (inputFreddy key action s).bb = s.bb := by
  unfold inputFreddy
  split_ifs <;> exact ⟨rfl, rfl, rfl, rfl, rfl, rfl, rfl, rfl⟩

theorem inputChica_figures (key : Key) (action : Action) (s : State) :
    (inputChica key action s).luz = s.luz ∧ (inputChica key action s).sonic = s.sonic ∧
    (inputChica key action s).rings = s.rings ∧ (inputChica key action s).eggman = s.eggman ∧
    (inputChica key action s).cheff = s.cheff ∧ (inputChica key action s).freddy = s.freddy ∧
    (inputChica key action s).chica =
      (if key = Key.K2 ∧ action = Action.PRESS then
        { s.chica with Chicaanim := xor s.chica.Chicaanim true } else s.chica) ∧
    (inputChica key action s).bb = s.bb := by
  unfold inputChica
  split_ifs <;> exact ⟨rfl, rfl, rfl, rfl, rfl, rfl, rfl, rfl⟩

theorem inputRearmPlay_figures (key : Key) (action : Action) (s : State) :
    (inputRearmPlay key action s).luz = s.luz ∧ (inputRearmPlay key action s).sonic = s.sonic ∧
    (inputRearmPlay key action s).rings = s.rings ∧
    (inputRearmPlay key action s).eggman = s.eggman ∧
    (inputRearmPlay key action s).cheff = s.cheff ∧
    (inputRearmPlay key action s).freddy = s.freddy ∧
    (inputRearmPlay key action s).chica = s.chica ∧ (inputRearmPlay key action s).bb = s.bb := by
  unfold inputRearmPlay
  split_ifs <;> exact ⟨rfl, rfl, rfl, rfl, rfl, rfl, rfl, rfl⟩

theorem inputSave_figures (key : Key) (action : Action) (s : State) :
    (inputSave key action s).luz = s.luz ∧ (inputSave key action s).sonic = s.sonic ∧
    (inputSave key action s).rings = s.rings ∧ (inputSave key action s).eggman = s.eggman ∧
    (inputSave key action s).cheff = s.cheff ∧ (inputSave key action s).freddy = s.freddy ∧
    (inputSave key action s).chica = s.chica ∧ (inputSave key action s).bb = s.bb := by
  unfold inputSave
  split_ifs <;> exact ⟨rfl, rfl, rfl, rfl, rfl, rfl, rfl, rfl⟩

theorem inputRearmSave_figures (key : Key) (action : Action) (s : State) :
    (inputRearmSave key action s).luz = s.luz ∧ (inputRearmSave key action s).sonic = s.sonic ∧
    (inputRearmSave key action s).rings = s.rings ∧
    (inputRearmSave key action s).eggman = s.eggman ∧
    (inputRearmSave key action s).cheff = s.cheff ∧
    (inputRearmSave key action s).freddy = s.freddy ∧
    (inputRearmSave key action s).chica = s.chica ∧ (inputRearmSave key action s).bb = s.bb := by
  unfold inputRearmSave
  split_ifs <;> exact ⟨rfl, rfl, rfl, rfl, rfl, rfl, rfl, rfl⟩

theorem inputNudge_figures (key : Key) (action : Action) (s : State) :
    (inputNudge key action s).luz = s.luz ∧ (inputNudge key action s).sonic = s.sonic ∧
    (inputNudge key action s).rings = s.rings ∧ (inputNudge key action s).eggman = s.eggman ∧
    (inputNudge key action s).cheff = s.cheff ∧ (inputNudge key action s).freddy = s.freddy ∧
    (inputNudge key action s).chica = s.chica ∧ (inputNudge key action s).bb = s.bb := by
  unfold inputNudge
  split_ifs <;> exact ⟨rfl, rfl, rfl, rfl, rfl, rfl, rfl, rfl⟩

theorem inputRearmNudge_figures (key : Key) (action : Action) (s : State) :
    (inputRearmNudge key action s).luz = s.luz ∧
    (inputRearmNudge key action s).sonic = s.sonic ∧
    (inputRearmNudge key action s).rings = s.rings ∧
    (inputRearmNudge key action s).eggman = s.eggman ∧
    (inputRearmNudge key action s).cheff = s.cheff ∧
    (inputRearmNudge key action s).freddy = s.freddy ∧
    (inputRearmNudge key action s).chica = s.chica ∧
    (inputRearmNudge key action s).bb = s.bb := by
  unfold inputRearmNudge
  split_ifs <;> exact ⟨rfl, rfl, rfl, rfl, rfl, rfl, rfl, rfl⟩

theorem my_input_figures (key : Key) (action : Action) (held : Held) (s : State) :
    (my_input key action held s).luz = s.luz ∧ (my_input key action held s).sonic = s.sonic ∧
    (my_input key action held s).rings = s.rings ∧
    (my_input key action held s).eggman = s.eggman ∧
    (my_input key action held s).cheff = s.cheff ∧
    (my_input key action held s).freddy =
      (if key = Key.K1 ∧ action = Action.PRESS then
        { s.freddy with Freddyanim := xor s.freddy.Freddyanim true } else s.freddy) ∧
    (my_input key action held s).chica =
      (if key = Key.K2 ∧ action = Action.PRESS then
        { s.chica with Chicaanim := xor s.chica.Chicaanim true } else s.chica) ∧
    (my_input key action held s).bb = inputTurn held (inputHead held (inputWalk held s.bb)) := by
  simp only [my_input, (inputRearmNudge_figures _ _ _).1, (inputRearmNudge_figures _ _ _).2.1,
    (inputRearmNudge_figures _ _ _).2.2.1, (inputRearmNudge_figures _ _ _).2.2.2.1,
    (inputRearmNudge_figures _ _ _).2.2.2.2.1, (inputRearmNudge_figures _ _ _).2.2.2.2.2.1,
    (inputRearmNudge_figures _ _ _).2.2.2.2.2.2.1, (inputRearmNudge_figures _ _ _).2.2.2.2.2.2.2,
    (inputNudge_figures _ _ _).1, (inputNudge_figures _ _ _).2.1,
    (inputNudge_figures _ _ _).2.2.1, (inputNudge_figures _ _ _).2.2.2.1,
    (inputNudge_figures _ _ _).2.2.2.2.1, (inputNudge_figures _ _ _).2.2.2.2.2.1,
    (inputNudge_figures _ _ _).2.2.2.2.2.2.1, (inputNudge_figures _ _ _).2.2.2.2.2.2.2,
    (inputRearmSave_figures _ _ _).1, (inputRearmSave_figures _ _ _).2.1,
    (inputRearmSave_figures _ _ _).2.2.1, (inputRearmSave_figures _ _ _).2.2.2.1,
    (inputRearmSave_figures _ _ _).2.2.2.2.1, (inputRearmSave_figures _ _ _).2.2.2.2.2.1,
    (inputRearmSave_figures _ _ _).2.2.2.2.2.2.1, (inputRearmSave_figures _ _ _).2.2.2.2.2.2.2,
    (inputSave_figures _ _ _).1, (inputSave_figures _ _ _).2.1,
    (inputSave_figures _ _ _).2.2.1, (inputSave_figures _ _ _).2.2.2.1,
    (inputSave_figures _ _ _).2.2.2.2.1, (inputSave_figures _ _ _).2.2.2.2.2.1,
    (inputSave_figures _ _ _).2.2.2.2.2.2.1, (inputSave_figures _ _ _).2.2.2.2.2.2.2,
    (inputRearmPlay_figures _ _ _).1, (inputRearmPlay_figures _ _ _).2.1,
    (inputRearmPlay_figures _ _ _).2.2.1, (inputRearmPlay_figures _ _ _).2.2.2.1,
    (inputRearmPlay_figures _ _ _).2.2.2.2.1, (inputRearmPlay_figures _ _ _).2.2.2.2.2.1,
    (inputRearmPlay_figures _ _ _).2.2.2.2.2.2.1, (inputRearmPlay_figures _ _ _).2.2.2.2.2.2.2,
    (inputChica_figures _ _ _).1, (inputChica_figures _ _ _).2.1,
    (inputChica_figures _ _ _).2.2.1, (inputChica_figures _ _ _).2.2.2.1,
    (inputChica_figures _ _ _).2.2.2.2.1, (inputChica_figures _ _ _).2.2.2.2.2.1,
    (inputChica_figures _ _ _).2.2.2.2.2.2.1, (inputChica_figures _ _ _).2.2.2.2.2.2.2,
    (inputFreddy_figures _ _ _).1, (inputFreddy_figures _ _ _).2.1,
    (inputFreddy_figures _ _ _).2.2.1, (inputFreddy_figures _ _ _).2.2.2.1,
    (inputFreddy_figures _ _ _).2.2.2.2.1, (inputFreddy_figures _ _ _).2.2.2.2.2.1,
    (inputFreddy_figures _ _ _).2.2.2.2.2.2.1, (inputFreddy_figures _ _ _).2.2.2.2.2.2.2,
    (inputPlay_figures _ _ _).1, (inputPlay_figures _ _ _).2.1,
    (inputPlay_figures _ _ _).2.2.1, (inputPlay_figures _ _ _).2.2.2.1,
    (inputPlay_figures _ _ _).2.2.2.2.1, (inputPlay_figures _ _ _).2.2.2.2.2.1,
    (inputPlay_figures _ _ _).2.2.2.2.2.2.1, (inputPlay_figures _ _ _).2.2.2.2.2.2.2,
    and_self]

theorem animateFreddy_up (f : Freddy) (he : f.Freddyanim = true) (hp : f.animFreddy = 0) :
    animateFreddy f =
      (if 45 ≤ f.rotBrazoF + 1 then { f with rotBrazoF := f.rotBrazoF + 1, animFreddy := 1 }
       else { f with rotBrazoF := f.rotBrazoF + 1 }) := by
  simp only [animateFreddy, he, hp, if_true, ge_iff_le]
  norm_num

theorem animateFreddy_down (f : Freddy) (he : f.Freddyanim = true) (hp : f.animFreddy = 1) :
    animateFreddy f =
      (if f.rotBrazoF - 1 ≤ -45 then { f with rotBrazoF := f.rotBrazoF - 1, animFreddy := 0 }
       else { f with rotBrazoF := f.rotBrazoF - 1 }) := by
  simp only [animateFreddy, he, hp, if_true]
  norm_num

theorem animateFreddy_off (f : Freddy) (he : f.Freddyanim = false) : animateFreddy f = f := by
  simp [animateFreddy, he]

/-- One enabled tick of the waving arm from a state on the grid: the new
state is on the grid, and the phase changes exactly when the new angle is 45
(going up) or -45 (going down). -/
theorem animateFreddy_onGrid (f : Freddy) (h : f.OnGrid) :
    (animateFreddy f).OnGrid ∧
    (f.Freddyanim = true →
      ((animateFreddy f).animFreddy ≠ f.animFreddy ↔
        (f.animFreddy = 0 ∧ (animateFreddy f).animFreddy = 1 ∧
            (animateFreddy f).rotBrazoF = 45) ∨
        (f.animFreddy = 1 ∧ (animateFreddy f).animFreddy = 0 ∧
            (animateFreddy f).rotBrazoF = -45)) ∧
      ((animateFreddy f).animFreddy ≠ f.animFreddy ↔
        (animateFreddy f).rotBrazoF = 45 ∨ (animateFreddy f).rotBrazoF = -45)) := by
  obtain ⟨z, hz, hcase⟩ := h
  by_cases he : f.Freddyanim = true
  · rcases hcase with ⟨hp, hlo, hhi⟩ | ⟨hp, hlo, hhi⟩
    · rw [animateFreddy_up f he hp, hz]
      by_cases hflip : (45 : ℚ) ≤ (z : ℚ) + 1
      · have hz44 : z = 44 := by
          have : (45 : Int) ≤ z + 1 := by exact_mod_cast hflip
          omega
        subst hz44
        rw [if_pos hflip]
        refine ⟨⟨45, by norm_num, Or.inr ⟨rfl, by norm_num, by norm_num⟩⟩, fun _ => ?_⟩
        simp only [hp]
        norm_num
      · have hz43 : z ≤ 43 := by
          have : ¬ (45 : Int) ≤ z + 1 := by exact_mod_cast hflip
          omega
        rw [if_neg hflip]
        refine ⟨⟨z + 1, by push_cast; ring, Or.inl ⟨hp, by omega, by omega⟩⟩, fun _ => ?_⟩
        have h45 : (z : ℚ) + 1 ≠ 45 := fun h => hflip (le_of_eq h.symm)
        have hm45 : (z : ℚ) + 1 ≠ -45 := by
          have : (-45 : ℚ) ≤ z := by exact_mod_cast hlo
          intro h; linarith
        simp only [hp, h45, hm45]
        norm_num
    · rw [animateFreddy_down f he hp, hz]
      by_cases hflip : (z : ℚ) - 1 ≤ -45
      · have hz44 : z = -44 := by
          have : z - 1 ≤ (-45 : Int) := by exact_mod_cast hflip
          omega
        subst hz44
        rw [if_pos hflip]
        refine ⟨⟨-45, by norm_num, Or.inl ⟨rfl, by norm_num, by norm_num⟩⟩, fun _ => ?_⟩
        simp only [hp]
        norm_num
      · have hz43 : -43 ≤ z := by
          have : ¬ z - 1 ≤ (-45 : Int) := by exact_mod_cast hflip
          omega
        rw [if_neg hflip]
        refine ⟨⟨z - 1, by push_cast; ring, Or.inr ⟨hp, by omega, by omega⟩⟩, fun _ => ?_⟩
        have hm45 : (z : ℚ) - 1 ≠ -45 := fun h => hflip (le_of_eq h)
        have h45 : (z : ℚ) - 1 ≠ 45 := by
          have : (z : ℚ) ≤ 45 := by exact_mod_cast hhi
          intro h; linarith
        simp only [hp, h45, hm45]
        norm_num
  · have hoff : f.Freddyanim = false := by simpa using he
    rw [animateFreddy_off f hoff]
    exact ⟨⟨z, hz, hcase⟩, fun h => absurd h he⟩

theorem fromStart_freddy {m : Libm} {s : State} (h : FromStart m s) : s.freddy.OnGrid := by
  have h0 : initGlobals.freddy.OnGrid :=
    ⟨0, by simp [initGlobals]; norm_num, Or.inl ⟨rfl, by norm_num, by norm_num⟩⟩
  induction h with
  | globals => exact h0
  | loop => exact (animateFreddy_onGrid _ h0).1
  | step s e _ ih =>
    cases e with
    | tick => exact (animateFreddy_onGrid _ ih).1
    | input key action held =>
      obtain ⟨z, hz, hcase⟩ := ih
      show (my_input key action held s).freddy.OnGrid
      rw [(my_input_figures key action held s).2.2.2.2.2.1]
      split_ifs
      · exact ⟨z, hz, hcase⟩
      · exact ⟨z, hz, hcase⟩

/-- C12. Waving figure bound and flip: in every state reachable from the
initial state (`rotBrazoF = 0`, `animFreddy = 0`) by ticks and key events,
`-45 <= rotBrazoF <= 45`; and an enabled tick changes the phase if and only if
the arm angle after that tick is exactly 45 (phase 0 to phase 1) or exactly
-45 (phase 1 to phase 0), so a flip never happens beyond the boundary. -/
theorem C12_waving_bound_and_flip (m : Libm) (s : State) (hs : FromStart m s) :
    (-45 ≤ s.freddy.rotBrazoF ∧ s.freddy.rotBrazoF ≤ 45) ∧
    (s.freddy.Freddyanim = true →
      ((animate m s).freddy.animFreddy ≠ s.freddy.animFreddy ↔
        (animate m s).freddy.rotBrazoF = 45 ∨ (animate m s).freddy.rotBrazoF = -45) ∧
      ((animate m s).freddy.animFreddy ≠ s.freddy.animFreddy ↔
        (s.freddy.animFreddy = 0 ∧ (animate m s).freddy.animFreddy = 1 ∧
            (animate m s).freddy.rotBrazoF = 45) ∨
        (s.freddy.animFreddy = 1 ∧ (animate m s).freddy.animFreddy = 0 ∧
            (animate m s).freddy.rotBrazoF = -45))) ∧
    initGlobals.freddy.rotBrazoF = 0 ∧ initGlobals.freddy.animFreddy = 0 := by
  have hg := fromStart_freddy hs
  have hstep := (animateFreddy_onGrid s.freddy hg).2
  obtain ⟨z, hz, hcase⟩ := hg
  refine ⟨?_, fun he => ⟨(hstep he).2, (hstep he).1⟩, by simp [initGlobals]; norm_num, rfl⟩
  rw [hz]
  rcases hcase with ⟨_, hlo, hhi⟩ | ⟨_, hlo, hhi⟩
  · exact ⟨by exact_mod_cast hlo, by exact_mod_cast (by omega : z ≤ 45)⟩
  · exact ⟨by exact_mod_cast (by omega : -45 ≤ z), by exact_mod_cast hhi⟩

/-- Witness for C12: at the entry of the render loop the arm angle is within
its bounds. -/
theorem C12_waving_bound_and_flip_witness :
    -45 ≤ (mainInit Libm.standIn).freddy.rotBrazoF ∧
    (mainInit Libm.standIn).freddy.rotBrazoF ≤ 45 :=
  (C12_waving_bound_and_flip Libm.standIn (mainInit Libm.standIn) FromStart.loop).1

/-! ## The enable flags (C13) -/

theorem ticks_freddy (m : Libm) (n : ℕ) (s : State) :
    (ticks m n s).freddy = animateFreddy^[n] s.freddy := by
  induction n with
  | zero => rfl
  | succ n ih => rw [ticks_succ, Function.iterate_succ_apply', ← ih]; rfl

theorem ticks_chica (m : Libm) (n : ℕ) (s : State) :
    (ticks m n s).chica = animateChica^[n] s.chica := by
  induction n with
  | zero => rfl
  | succ n ih => rw [ticks_succ, Function.iterate_succ_apply', ← ih]; rfl

theorem animateChica_off (c : Chica) (he : c.Chicaanim = false) : animateChica c = c := by
  simp [animateChica, he]

theorem iterate_freddy_off (f : Freddy) (he : f.Freddyanim = false) (n : ℕ) :
    animateFreddy^[n] f = f := by
  induction n with
  | zero => rfl
  | succ n ih => rw [Function.iterate_succ_apply', ih, animateFreddy_off f he]

theorem iterate_chica_off (c : Chica) (he : c.Chicaanim = false) (n : ℕ) :
    animateChica^[n] c = c := by
  induction n with
  | zero => rfl
  | succ n ih => rw [Function.iterate_succ_apply', ih, animateChica_off c he]

theorem inputBallonBoy_none (b : BallonBoy) :
    inputTurn Held.none (inputHead Held.none (inputWalk Held.none b)) = b := by
  simp [inputTurn, inputHead, inputWalk, Held.none]

theorem press_K1 (held : Held) (s : State) :
    my_input Key.K1 Action.PRESS held s =
      { s with
        freddy := { s.freddy with Freddyanim := xor s.freddy.Freddyanim true }
        bb := inputTurn held (inputHead held (inputWalk held s.bb)) } := by
  simp [my_input, inputPlay, inputFreddy, inputChica, inputRearmPlay, inputSave,
    inputRearmSave, inputNudge, inputRearmNudge]

theorem press_K2 (held : Held) (s : State) :
    my_input Key.K2 Action.PRESS held s =
      { s with
        chica := { s.chica with Chicaanim := xor s.chica.Chicaanim true }
        bb := inputTurn held (inputHead held (inputWalk held s.bb)) } := by
  simp [my_input, inputPlay, inputFreddy, inputChica, inputRearmPlay, inputSave,
    inputRearmSave, inputNudge, inputRearmNudge]

/-- C13. Toggle-freeze: for the waving figure (key 1: `Freddyanim`,
`rotBrazoF`, `animFreddy`) and the throw figure (key 2: `Chicaanim`,
`rotBrazoC`, `rotpanque`, `poszpanque`, `animChica`), in every state in which
the figure is enabled and for every `n`, pressing the toggle key (which
disables it), running `n` ticks of `animate` and pressing the toggle key again
gives back exactly the phase, the parameters and the flag the figure had; no
tick in between moves the figure; and the press of a toggle key changes only
the enabled flag of its figure (with no polled key down, nothing else in the
state). -/
theorem C13_toggle_freeze (m : Libm) (s : State) (n : ℕ) (h1 h2 : Held) :
    (s.freddy.Freddyanim = true →
      (my_input Key.K1 Action.PRESS h2
        (ticks m n (my_input Key.K1 Action.PRESS h1 s))).freddy = s.freddy ∧
      (ticks m n (my_input Key.K1 Action.PRESS h1 s)).freddy
        = { s.freddy with Freddyanim := false }) ∧
    (s.chica.Chicaanim = true →
      (my_input Key.K2 Action.PRESS h2
        (ticks m n (my_input Key.K2 Action.PRESS h1 s))).chica = s.chica ∧
      (ticks m n (my_input Key.K2 Action.PRESS h1 s)).chica
        = { s.chica with Chicaanim := false }) ∧
    my_input Key.K1 Action.PRESS Held.none s
      = { s with freddy := { s.freddy with Freddyanim := !s.freddy.Freddyanim } } ∧
    my_input Key.K2 Action.PRESS Held.none s
      = { s with chica := { s.chica with Chicaanim := !s.chica.Chicaanim } } ∧
    (my_input Key.K1 Action.PRESS h1 s).freddy
      = { s.freddy with Freddyanim := !s.freddy.Freddyanim } ∧
    (my_input Key.K2 Action.PRESS h1 s).chica
      = { s.chica with Chicaanim := !s.chica.Chicaanim } := by
  refine ⟨fun he => ?_, fun he => ?_, ?_, ?_, ?_, ?_⟩
  · have hoff : (ticks m n (my_input Key.K1 Action.PRESS h1 s)).freddy
        = { s.freddy with Freddyanim := false } := by
      rw [ticks_freddy, press_K1]
      simp only [he, Bool.xor_self]
      exact iterate_freddy_off _ rfl n
    refine ⟨?_, hoff⟩
    rw [press_K1]
    simp only [hoff, Bool.false_xor]
    rw [← he]
  · have hoff : (ticks m n (my_input Key.K2 Action.PRESS h1 s)).chica
        = { s.chica with Chicaanim := false } := by
      rw [ticks_chica, press_K2]
      simp only [he, Bool.xor_self]
      exact iterate_chica_off _ rfl n
    refine ⟨?_, hoff⟩
    rw [press_K2]
    simp only [hoff, Bool.false_xor]
    rw [← he]
  · rw [press_K1, inputBallonBoy_none]; simp
  · rw [press_K2, inputBallonBoy_none]; simp
  · rw [press_K1]; simp
  · rw [press_K2]; simp

/-! ## Day and night (C14) -/

theorem fromStart_ticks {m : Libm} {s : State} (h : FromStart m s) (k : ℕ) :
    FromStart m (ticks m k s) := by
  induction k with
  | zero => exact h
  | succ k ih =>
    rw [ticks_succ]
    exact FromStart.step _ Event.tick ih

theorem animateLuz_offset (l : Luz) (h : l.Offset) : (animateLuz l).Offset := by
  obtain ⟨hy, hz⟩ := h
  simp only [animateLuz, Luz.Offset]
  split_ifs <;> refine ⟨?_, ?_⟩ <;> simp only [hy, hz] <;> linarith

theorem fromStart_luz_offset {m : Libm} {s : State} (h : FromStart m s) : s.luz.Offset := by
  have h0 : initGlobals.luz.Offset := by
    simp only [initGlobals, Luz.Offset]
    constructor <;> norm_num
  induction h with
  | globals => exact h0
  | loop => exact animateLuz_offset _ h0
  | step s e _ ih =>
    cases e with
    | tick => exact animateLuz_offset _ ih
    | input key action held =>
      show (my_input key action held s).luz.Offset
      rw [(my_input_figures key action held s).1]
      exact ih

/-- C15, the claim as stated fails: in the initial state (after zero ticks)
the channels are `luzx = 0.5` and `luzy = 0.8`, so it is not the case that
the three channels are equal in every state reached by ticks. -/
theorem C15_counterexample :
    initGlobals.luz.luzx = 0.5 ∧ initGlobals.luz.luzy = 0.8 ∧
    ¬ (∀ k : ℕ, (ticks Libm.standIn k initGlobals).luz.luzx =
                  (ticks Libm.standIn k initGlobals).luz.luzy ∧
                (ticks Libm.standIn k initGlobals).luz.luzy =
                  (ticks Libm.standIn k initGlobals).luz.luzz) := by
  refine ⟨rfl, rfl, fun h => ?_⟩
  have h0 := (h 0).1
  simp [ticks, initGlobals] at h0
  norm_num at h0

/-- C15, amended.  In every state reached from the initial state by ticks of
`animate` (and key events), the green and blue channels are equal and sit
exactly 0.3 above the red one: `luzy = luzz = luzx + 0.3`; so the three
channels move together but `luzx` never equals `luzy`.  In particular this
holds after any number `k` of ticks from the initial state. -/
theorem C15_channels_offset (m : Libm) (s : State) (hs : FromStart m s) :
    (s.luz.luzy = s.luz.luzz ∧ s.luz.luzy = s.luz.luzx + 0.3 ∧ s.luz.luzx ≠ s.luz.luzy) ∧
    (∀ k : ℕ, (ticks m k s).luz.luzy = (ticks m k s).luz.luzz ∧
      (ticks m k s).luz.luzy = (ticks m k s).luz.luzx + 0.3) ∧
    (animate m s).luz.luzx - s.luz.luzx = (animate m s).luz.luzy - s.luz.luzy ∧
    (animate m s).luz.luzy - s.luz.luzy = (animate m s).luz.luzz - s.luz.luzz := by
  have key : ∀ t : State, FromStart m t →
      t.luz.luzy = t.luz.luzz ∧ t.luz.luzy = t.luz.luzx + 0.3 := by
    intro t ht
    obtain ⟨hy, hz⟩ := fromStart_luz_offset ht
    exact ⟨by rw [hy, hz], hy⟩
  have h1 := key s hs
  have h2 := key (animate m s) (FromStart.step s Event.tick hs)
  refine ⟨⟨h1.1, h1.2, ?_⟩, fun k => key _ (fromStart_ticks hs k), ?_, ?_⟩
  · rw [h1.2]
    intro h
    linarith
  · rw [h2.2, h1.2]
    ring
  · rw [← h2.1, ← h1.1]

/-- Witness for C15 (amended): the initial state itself, where the channels
are 0.5, 0.8 and 0.8. -/
theorem C15_channels_offset_witness :
    FromStart Libm.standIn initGlobals ∧
    initGlobals.luz.luzy = initGlobals.luz.luzx + 0.3 :=
  ⟨FromStart.globals,
    (C15_channels_offset Libm.standIn initGlobals FromStart.globals).1.2.1⟩

/-! ## The phase indices (C16) -/

theorem animateLuz_dia (l : Luz) (h : l.dia = 0 ∨ l.dia = 1 ∨ l.dia = 2) :
    (animateLuz l).dia = 0 ∨ (animateLuz l).dia = 1 ∨ (animateLuz l).dia = 2 := by
  simp only [animateLuz, apply_ite Luz.dia]
  split_ifs <;> omega

theorem animateSonic_animsonic (m : Libm) (s : Sonic)
    (h : 0 ≤ s.animsonic ∧ s.animsonic ≤ 5) :
    0 ≤ (animateSonic m s).animsonic ∧ (animateSonic m s).animsonic ≤ 5 := by
  simp only [animateSonic, switchSonic, apply_ite Sonic.animsonic]
  split_ifs <;> omega

theorem animateFreddy_animFreddy (f : Freddy) (h : f.animFreddy = 0 ∨ f.animFreddy = 1) :
    (animateFreddy f).animFreddy = 0 ∨ (animateFreddy f).animFreddy = 1 := by
  simp only [animateFreddy, apply_ite Freddy.animFreddy]
  split_ifs <;> omega

theorem animateEggman_animegg (m : Libm) (e : Eggman) (h : 0 ≤ e.animegg ∧ e.animegg ≤ 6) :
    0 ≤ (animateEggman m e).animegg ∧ (animateEggman m e).animegg ≤ 6 := by
  simp only [animateEggman, apply_ite Eggman.animegg]
  split_ifs <;> omega

theorem animateChica_animChica (c : Chica)
    (h : c.animChica = 0 ∨ c.animChica = 1 ∨ c.animChica = 2) :
    (animateChica c).animChica = 0 ∨ (animateChica c).animChica = 1 ∨
      (animateChica c).animChica = 2 := by
  simp only [animateChica, apply_ite Chica.animChica]
  split_ifs <;> omega

theorem animateCheff_animcheff (m : Libm) (c : Cheff) (h : 0 ≤ c.animcheff ∧ c.animcheff ≤ 4) :
    0 ≤ (animateCheff m c).animcheff ∧ (animateCheff m c).animcheff ≤ 4 := by
  simp only [animateCheff, apply_ite Cheff.animcheff]
  split_ifs <;> omega

theorem animate_phasesDeclared (m : Libm) (s : State) (h : s.PhasesDeclared) :
    (animate m s).PhasesDeclared :=
  ⟨animateLuz_dia _ h.1, animateSonic_animsonic m _ h.2.1, animateFreddy_animFreddy _ h.2.2.1,
    animateEggman_animegg m _ h.2.2.2.1, animateChica_animChica _ h.2.2.2.2.1,
    animateCheff_animcheff m _ h.2.2.2.2.2⟩

theorem my_input_phasesDeclared (key : Key) (action : Action) (held : Held) (s : State)
    (h : s.PhasesDeclared) : (my_input key action held s).PhasesDeclared := by
  obtain ⟨hl, hs, _, he, hk, hf, hc, _⟩ := my_input_figures key action held s
  unfold State.PhasesDeclared
  rw [hl, hs, he, hk, hf, hc]
  refine ⟨h.1, h.2.1, ?_, h.2.2.2.1, ?_, h.2.2.2.2.2⟩
  · split_ifs
    · exact h.2.2.1
    · exact h.2.2.1
  · split_ifs
    · exact h.2.2.2.2.1
    · exact h.2.2.2.2.1

theorem fromStart_phasesDeclared {m : Libm} {s : State} (h : FromStart m s) :
    s.PhasesDeclared := by
  have h0 : initGlobals.PhasesDeclared := by
    simp [State.PhasesDeclared, initGlobals]
  induction h with
  | globals => exact h0
  | loop => exact animate_phasesDeclared m _ h0
  | step s e _ ih =>
    cases e with
    | tick => exact animate_phasesDeclared m _ ih
    | input key action held => exact my_input_phasesDeclared key action held s ih

/-- C16. Phase indices stay declared: in every state reachable from the
initial state by ticks of `animate` and key events, `dia` is in {0,1,2},
`animsonic` in {0..5}, `animFreddy` in {0,1}, `animegg` in {0..6},
`animChica` in {0,1,2} and `animcheff` in {0..4}, so every `switch` of the
tick finds a matching `case`; and the state after the next tick has its
phase indices in the same sets (every phase has a successor). -/
theorem C16_phases_declared (m : Libm) (s : State) (hs : FromStart m s) :
    ((s.luz.dia = 0 ∨ s.luz.dia = 1 ∨ s.luz.dia = 2) ∧
     (0 ≤ s.sonic.animsonic ∧ s.sonic.animsonic ≤ 5) ∧
     (s.freddy.animFreddy = 0 ∨ s.freddy.animFreddy = 1) ∧
     (0 ≤ s.eggman.animegg ∧ s.eggman.animegg ≤ 6) ∧
     (s.chica.animChica = 0 ∨ s.chica.animChica = 1 ∨ s.chica.animChica = 2) ∧
     (0 ≤ s.cheff.animcheff ∧ s.cheff.animcheff ≤ 4)) ∧
    (animate m s).PhasesDeclared ∧
    (∀ key action held, (my_input key action held s).PhasesDeclared) :=
  ⟨fromStart_phasesDeclared hs, animate_phasesDeclared m s (fromStart_phasesDeclared hs),
    fun key action held => my_input_phasesDeclared key action held s (fromStart_phasesDeclared hs)⟩

/-- Witness for C16: the state at the entry of the render loop. -/
theorem C16_phases_declared_witness :
    FromStart Libm.standIn (mainInit Libm.standIn) ∧
    (mainInit Libm.standIn).PhasesDeclared :=
  ⟨FromStart.loop, (C16_phases_declared Libm.standIn _ FromStart.loop).1⟩

/-! ## The blocks of `animate` are independent (C17) -/

theorem block_step_comm (m : Libm) (b c : Block) (s : State) :
    b.step m (c.step m s) = c.step m (b.step m s) := by
  cases b <;> cases c <;> rfl

theorem block_step_other (m : Libm) (b c : Block) (h : b ≠ c) (s : State) :
    b.SameVars (c.step m s) s := by
  cases b <;> cases c <;> first | exact absurd rfl h | rfl

theorem block_step_own (m : Libm) (b : Block) (s t : State) (h : b.SameVars s t) :
    b.SameVars (b.step m s) (b.step m t) := by
  cases b <;> simp only [Block.SameVars, Block.step] at h ⊢ <;> rw [h]

theorem block_step_rest (m : Libm) (b : Block) (s : State) : (b.step m s).SameRest s := by
  cases b <;> exact ⟨rfl, rfl, rfl, rfl, rfl, rfl, rfl⟩

theorem animate_eq_blocks (m : Libm) (s : State) :
    animate m s = Block.order.foldl (fun t b => b.step m t) s := rfl

theorem blocks_perm (m : Libm) (l : List Block) (h : l.Perm Block.order) (s : State) :
    l.foldl (fun t b => b.step m t) s = animate m s := by
  rw [animate_eq_blocks]
  exact h.foldl_eq' (fun x _ y _ z => block_step_comm m y x z) s

/-- C17. Animator independence: `animate` is the composition of its eight
blocks (day/night, keyframe playback, Sonic, ring, Freddy, Eggman, Chica,
Cheff) in the order of the source; any two blocks commute on every state, so
running the eight blocks in any order gives the state `animate` gives; a
block leaves the variables of every other block, the key guards and the
walking figure as they were; and what a block writes into its own variables
depends on the values of those variables only. -/
theorem C17_animator_independence (m : Libm) :
    (Block.order.length = 8 ∧ Block.order.Nodup ∧ ∀ b : Block, b ∈ Block.order) ∧
    (∀ s : State, animate m s =
      Block.step m Block.cheff (Block.step m Block.chica (Block.step m Block.eggman
        (Block.step m Block.freddy (Block.step m Block.ring (Block.step m Block.sonic
          (Block.step m Block.keyframes (Block.step m Block.luz s)))))))) ∧
    (∀ (b c : Block) (s : State), b.step m (c.step m s) = c.step m (b.step m s)) ∧
    (∀ l : List Block, l.Perm Block.order →
      ∀ s : State, l.foldl (fun t b => b.step m t) s = animate m s) ∧
    (∀ b c : Block, b ≠ c → ∀ s : State, b.SameVars (c.step m s) s) ∧
    (∀ (b : Block) (s : State), (b.step m s).SameRest s) ∧
    (∀ (b : Block) (s t : State), b.SameVars s t → b.SameVars (b.step m s) (b.step m t)) := by
  refine ⟨⟨rfl, by decide, fun b => by cases b <;> decide⟩, fun s => rfl,
    block_step_comm m, blocks_perm m, fun b c h s => block_step_other m b c h s,
    block_step_rest m, block_step_own m⟩

/-! ## The length of a playback (C18) -/

theorem AtFrame.play_before {F : Int → FRAME} {S N : Int} {d : ℚ × ℚ × ℚ × ℚ}
    {k : Keyframes} (h : AtFrame F S N d 0 k) (n : ℕ) (hn : (n : Int) = S) (hpos : 0 < n)
    (M : ℕ) (hN : N = (M : Int) + 2) (t : ℕ) (ht : t < (M + 1) * (n + 1)) :
    (animateKeyframes^[t] k).play = true := by
  have hjM : t / (n + 1) ≤ M :=
    Nat.lt_succ_iff.mp ((Nat.div_lt_iff_lt_mul (Nat.succ_pos n)).2 ht)
  have hr : t % (n + 1) ≤ n := Nat.lt_succ_iff.mp (Nat.mod_lt _ (Nat.succ_pos n))
  have hj := h.iterate n hn hpos (t / (n + 1)) (by rw [hN]; omega)
  have ht' : t = t % (n + 1) + t / (n + 1) * (n + 1) := by
    rw [Nat.mul_comm]; exact (Nat.mod_add_div t (n + 1)).symm
  rw [ht', Function.iterate_add_apply, (hj.segment _ (by omega)).1, (advance_fields _ _).1]
  exact hj.play

theorem AtFrame.last_tick {F : Int → FRAME} {S N : Int} {d : ℚ × ℚ × ℚ × ℚ}
    {k : Keyframes} (h : AtFrame F S N d 0 k) (n : ℕ) (hn : (n : Int) = S) (hpos : 0 < n)
    (M : ℕ) (hN : N = (M : Int) + 2) :
    (animateKeyframes^[n + M * (n + 1)] k).pose =
      ((F ((M : Int) + 1)).movGlobo_x + d.1, (F ((M : Int) + 1)).movGlobo_y + d.2.1,
       (F ((M : Int) + 1)).movGlobo_z + d.2.2.1, (F ((M : Int) + 1)).giroGlobo + d.2.2.2) ∧
    animateKeyframes^[(M + 1) * (n + 1)] k =
      { animateKeyframes^[n + M * (n + 1)] k with playIndex := 0, play := false } := by
  have hM := h.iterate n hn hpos M (by rw [hN]; omega)
  have hfin := hM.finish n hn hpos (by rw [hN]; omega)
  rw [← Function.iterate_add_apply, ← Function.iterate_add_apply] at hfin
  have e : (M + 1) * (n + 1) = n + 1 + M * (n + 1) := by ring
  rw [e]
  exact ⟨hfin.2.1, hfin.2.2⟩

theorem AtFrame.after_end {F : Int → FRAME} {S N : Int} {d : ℚ × ℚ × ℚ × ℚ}
    {k : Keyframes} (h : AtFrame F S N d 0 k) (n : ℕ) (hn : (n : Int) = S) (hpos : 0 < n)
    (M : ℕ) (hN : N = (M : Int) + 2) (e : ℕ) :
    animateKeyframes^[(M + 1) * (n + 1) + e] k = animateKeyframes^[(M + 1) * (n + 1)] k := by
  have hl := (h.last_tick n hn hpos M hN).2
  rw [Nat.add_comm _ e, Function.iterate_add_apply]
  exact iterate_idle _ (by rw [hl]) e

theorem AtFrame.boundary {F : Int → FRAME} {S N : Int} {d : ℚ × ℚ × ℚ × ℚ}
    {k : Keyframes} (h : AtFrame F S N d 0 k) (n : ℕ) (hn : (n : Int) = S) (hpos : 0 < n)
    (M : ℕ) (hN : N = (M : Int) + 2) (j : ℕ) (hj : j ≤ M) :
    (animateKeyframes^[(j + 1) * (n + 1)] k).pose
      = (animateKeyframes^[n + j * (n + 1)] k).pose := by
  have hat := h.iterate n hn hpos j (by rw [hN]; omega)
  have hseg := hat.segment n (le_of_eq hn)
  have hend := hat.segment_end n hn hpos
  rw [Function.iterate_add_apply, hseg.1, hend]
  rcases Nat.lt_or_ge j M with hlt | hge
  · have hnext := h.iterate n hn hpos (j + 1) (by rw [hN]; push_cast; omega)
    rw [hnext.pose]
    push_cast
    rfl
  · have hjM : j = M := le_antisymm hj hge
    subst hjM
    have hl := h.last_tick n hn hpos j hN
    rw [hl.2]
    exact hl.1

theorem AtFrame.of_started (k : Keyframes) (hplay : k.play = true) (hcur : k.playIndex = 0)
    (hsteps : k.i_curr_steps = 0)
    (hinc : (interpolation k).KeyFrame 0 = k.KeyFrame 0) :
    AtFrame k.KeyFrame k.i_max_steps k.FrameIndex
      (k.movGlobo_x - (k.KeyFrame 0).movGlobo_x, k.movGlobo_y - (k.KeyFrame 0).movGlobo_y,
       k.movGlobo_z - (k.KeyFrame 0).movGlobo_z, k.giroGlobo - (k.KeyFrame 0).giroGlobo) 0 k := by
  have hat := interpolation_at k
  rw [hcur, hinc] at hat
  refine ⟨hplay, hcur, hsteps, rfl, rfl, fun i => rfl, ?_, ?_⟩
  · have e := congrArg FRAME.increments hat
    simp only [FRAME.increments] at e ⊢
    exact e
  · simp only [Keyframes.pose, Prod.mk.injEq]
    refine ⟨?_, ?_, ?_, ?_⟩ <;> ring

/-- The keyframe variables during a playback that stands at its start: the
facts of C18 read on `animateKeyframes` alone. -/
theorem playback_length (k : Keyframes) (N S : ℕ) (hN : 2 ≤ N) (hS : 0 < S)
    (hplay : k.play = true) (hcur : k.playIndex = 0) (hsteps : k.i_curr_steps = 0)
    (hmax : k.i_max_steps = S) (hcount : k.FrameIndex = N)
    (hinc : (interpolation k).KeyFrame 0 = k.KeyFrame 0)
    (hx : k.movGlobo_x = (k.KeyFrame 0).movGlobo_x)
    (hg : k.giroGlobo = (k.KeyFrame 0).giroGlobo) :
    (∀ n : ℕ, n < (N - 1) * (S + 1) → (animateKeyframes^[n] k).play = true) ∧
    (animateKeyframes^[(N - 1) * (S + 1)] k).play = false ∧
    (animateKeyframes^[(N - 1) * (S + 1)] k).playIndex = 0 ∧
    (∀ j : ℕ, 1 ≤ j → j ≤ N - 1 →
      (animateKeyframes^[j * (S + 1)] k).pose = (animateKeyframes^[j * (S + 1) - 1] k).pose) ∧
    (∀ n : ℕ, (N - 1) * (S + 1) - 1 ≤ n →
      (animateKeyframes^[n] k).movGlobo_x = (k.KeyFrame ((N : Int) - 1)).movGlobo_x ∧
      (animateKeyframes^[n] k).giroGlobo = (k.KeyFrame ((N : Int) - 1)).giroGlobo) := by
  obtain ⟨M, rfl⟩ : ∃ M, N = M + 2 := ⟨N - 2, by omega⟩
  have h0 := AtFrame.of_started k hplay hcur hsteps hinc
  have hNi : k.FrameIndex = (M : Int) + 2 := by rw [hcount]; push_cast; ring
  have e1 : M + 2 - 1 = M + 1 := by omega
  have e3 : (((M + 2 : ℕ) : Int) - 1) = (M : Int) + 1 := by push_cast; ring
  have hl := h0.last_tick S hmax.symm hS M hNi
  rw [e1, e3]
  refine ⟨fun n hn => h0.play_before S hmax.symm hS M hNi n hn, by rw [hl.2], by rw [hl.2],
    fun j hj1 hjN => ?_, fun n hn => ?_⟩
  · obtain ⟨i, rfl⟩ : ∃ i, j = i + 1 := ⟨j - 1, by omega⟩
    have e : (i + 1) * (S + 1) - 1 = S + i * (S + 1) := by
      have : (i + 1) * (S + 1) = S + i * (S + 1) + 1 := by ring
      omega
    rw [e]
    exact h0.boundary S hmax.symm hS M hNi i (by omega)
  · have hlast : (animateKeyframes^[S + M * (S + 1)] k).movGlobo_x
          = (k.KeyFrame ((M : Int) + 1)).movGlobo_x ∧
        (animateKeyframes^[S + M * (S + 1)] k).giroGlobo
          = (k.KeyFrame ((M : Int) + 1)).giroGlobo := by
      have hp := pose_components _ _ _ _ _ hl.1
      exact ⟨by rw [hp.1, hx]; ring, by rw [hp.2.2.2, hg]; ring⟩
    have e : (M + 1) * (S + 1) - 1 = S + M * (S + 1) := by
      have : (M + 1) * (S + 1) = S + M * (S + 1) + 1 := by ring
      omega
    rw [e] at hn
    rcases Nat.eq_or_lt_of_le hn with heq | hlt
    · rw [← heq]
      exact hlast
    · obtain ⟨r, rfl⟩ : ∃ r, n = (M + 1) * (S + 1) + r :=
        ⟨n - (M + 1) * (S + 1), by
          have : (M + 1) * (S + 1) = S + M * (S + 1) + 1 := by ring
          omega⟩
      rw [h0.after_end S hmax.symm hS M hNi r, hl.2]
      exact hlast

/-- What the P handler leaves when it starts the playback from a state with
the cursor at 0: the start state C18 speaks of. -/
theorem started_of_press (held : Held) (s : State) (harm : s.reproduciranimacion < 1)
    (hplay : s.kf.play = false) (hN : 1 < s.kf.FrameIndex) (hcur : s.kf.playIndex = 0) :
    (my_input Key.P Action.PRESS held s).kf.play = true ∧
    (my_input Key.P Action.PRESS held s).kf.playIndex = 0 ∧
    (my_input Key.P Action.PRESS held s).kf.i_curr_steps = 0 ∧
    (my_input Key.P Action.PRESS held s).kf.i_max_steps = s.kf.i_max_steps ∧
    (my_input Key.P Action.PRESS held s).kf.FrameIndex = s.kf.FrameIndex ∧
    (interpolation (my_input Key.P Action.PRESS held s).kf).KeyFrame 0
      = (my_input Key.P Action.PRESS held s).kf.KeyFrame 0 ∧
    (my_input Key.P Action.PRESS held s).kf.movGlobo_x
      = ((my_input Key.P Action.PRESS held s).kf.KeyFrame 0).movGlobo_x ∧
    (my_input Key.P Action.PRESS held s).kf.giroGlobo
      = ((my_input Key.P Action.PRESS held s).kf.KeyFrame 0).giroGlobo ∧
    (∀ i, ((my_input Key.P Action.PRESS held s).kf.KeyFrame i).recorded
      = (s.kf.KeyFrame i).recorded) := by
  rw [(press_P_start held s harm hplay hN).1]
  have hi := interpolation_fields (resetElements s.kf)
  refine ⟨rfl, rfl, rfl, hi.2.2.2.2.1, hi.2.2.2.2.2.2.1, ?_, ?_, ?_, fun i => ?_⟩
  · simp [interpolation, setFrame, resetElements, hcur]
  · simp [interpolation, setFrame, resetElements, hcur]
  · simp [interpolation, setFrame, resetElements, hcur]
  · exact interpolation_recorded (resetElements s.kf) i

theorem baked_start (m : Libm) :
    (mainInit m).reproduciranimacion < 1 ∧ (mainInit m).kf.play = false ∧
    1 < (mainInit m).kf.FrameIndex ∧ (mainInit m).kf.playIndex = 0 ∧
    (mainInit m).kf.i_max_steps = ((270 : ℕ) : Int) ∧
    (mainInit m).kf.FrameIndex = ((46 : ℕ) : Int) := by
  rw [(mainInit_guards m).1, mainInit_kf m]
  exact ⟨by norm_num, rfl, by decide, rfl, rfl, rfl⟩

/-- C18. Actual playback length: for `N = FrameIndex >= 2` and
`S = i_max_steps > 0`, from a state as a successful start leaves it (playback
active, cursor 0, no step taken, the increments of segment 0 computed, the x
and rotation channels of the live pose at those of `KeyFrame[0]`) and with
ticks only: `play` is true after every number of ticks below `(N-1)*(S+1)`
and false after exactly `(N-1)*(S+1)` ticks, with `playIndex` back at 0; for
every `j` in `1 .. N-1` tick number `j*(S+1)`, the one spent on a segment
boundary, does not move the live pose; and from tick `(N-1)*(S+1) - 1` on the
x and rotation channels of the live pose are those of `KeyFrame[N-1]`.  For
the baked path (start key pressed at the entry of the render loop, `N = 46`,
`S = 270`) the playback is active before tick 12195 and ends on it. -/
theorem C18_playback_length (m : Libm) (s : State) (N S : ℕ) (hN : 2 ≤ N) (hS : 0 < S)
    (hplay : s.kf.play = true) (hcur : s.kf.playIndex = 0) (hsteps : s.kf.i_curr_steps = 0)
    (hmax : s.kf.i_max_steps = S) (hcount : s.kf.FrameIndex = N)
    (hinc : (interpolation s.kf).KeyFrame 0 = s.kf.KeyFrame 0)
    (hx : s.kf.movGlobo_x = (s.kf.KeyFrame 0).movGlobo_x)
    (hg : s.kf.giroGlobo = (s.kf.KeyFrame 0).giroGlobo) :
    (∀ n : ℕ, n < (N - 1) * (S + 1) → (ticks m n s).kf.play = true) ∧
    (ticks m ((N - 1) * (S + 1)) s).kf.play = false ∧
    (ticks m ((N - 1) * (S + 1)) s).kf.playIndex = 0 ∧
    (∀ j : ℕ, 1 ≤ j → j ≤ N - 1 →
      (ticks m (j * (S + 1)) s).kf.pose = (ticks m (j * (S + 1) - 1) s).kf.pose) ∧
    (∀ n : ℕ, (N - 1) * (S + 1) - 1 ≤ n →
      (ticks m n s).kf.movGlobo_x = (s.kf.KeyFrame ((N : Int) - 1)).movGlobo_x ∧
      (ticks m n s).kf.giroGlobo = (s.kf.KeyFrame ((N : Int) - 1)).giroGlobo) ∧
    ((∀ n : ℕ, n < 12195 →
        (ticks m n (my_input Key.P Action.PRESS Held.none (mainInit m))).kf.play = true) ∧
      (ticks m 12195 (my_input Key.P Action.PRESS Held.none (mainInit m))).kf.play = false) := by
  have h := playback_length s.kf N S hN hS hplay hcur hsteps hmax hcount hinc hx hg
  have hb := baked_start m
  have hst := started_of_press Held.none (mainInit m) hb.1 hb.2.1 hb.2.2.1 hb.2.2.2.1
  have h2 := playback_length (my_input Key.P Action.PRESS Held.none (mainInit m)).kf 46 270
    (by decide) (by decide) hst.1 hst.2.1 hst.2.2.1 (hst.2.2.2.1.trans hb.2.2.2.2.1)
    (hst.2.2.2.2.1.trans hb.2.2.2.2.2) hst.2.2.2.2.2.1 hst.2.2.2.2.2.2.1
    hst.2.2.2.2.2.2.2.1
  have e : (46 - 1) * (270 + 1) = 12195 := by norm_num
  rw [e] at h2
  simp only [ticks_kf]
  exact ⟨h.1, h.2.1, h.2.2.1, h.2.2.2.1, h.2.2.2.2, h2.1, h2.2.1⟩

/-- Witness for C18: the baked path.  The start key pressed at the entry of
the render loop leaves a state that meets every hypothesis with `N = 46` and
`S = 270`; the playback is still active after 12194 ticks, with the x and
rotation channels at those of `KeyFrame[45]`, which are 0 and 360, and it has
ended after 12195 ticks. -/
theorem C18_playback_length_witness :
    (ticks Libm.standIn 12194
      (my_input Key.P Action.PRESS Held.none (mainInit Libm.standIn))).kf.play = true ∧
    (ticks Libm.standIn 12195
      (my_input Key.P Action.PRESS Held.none (mainInit Libm.standIn))).kf.play = false ∧
    (ticks Libm.standIn 12194
      (my_input Key.P Action.PRESS Held.none (mainInit Libm.standIn))).kf.movGlobo_x = 0 ∧
    (ticks Libm.standIn 12194
      (my_input Key.P Action.PRESS Held.none (mainInit Libm.standIn))).kf.giroGlobo = 360 := by
  have hb := baked_start Libm.standIn
  have hst := started_of_press Held.none (mainInit Libm.standIn) hb.1 hb.2.1 hb.2.2.1
    hb.2.2.2.1
  have h := C18_playback_length Libm.standIn
    (my_input Key.P Action.PRESS Held.none (mainInit Libm.standIn)) 46 270
    (by decide) (by decide) hst.1 hst.2.1 hst.2.2.1 (hst.2.2.2.1.trans hb.2.2.2.2.1)
    (hst.2.2.2.2.1.trans hb.2.2.2.2.2) hst.2.2.2.2.2.1 hst.2.2.2.2.2.2.1
    hst.2.2.2.2.2.2.2.1
  have e : (46 - 1) * (270 + 1) = 12195 := by norm_num
  rw [e] at h
  have hrec := (recorded_iff _ _).1 (hst.2.2.2.2.2.2.2.2 (((46 : ℕ) : Int) - 1))
  have hlast := h.2.2.2.2.1 12194 (by norm_num)
  have hcell : ((mainInit Libm.standIn).kf.KeyFrame (((46 : ℕ) : Int) - 1)).movGlobo_x = 0 ∧
      ((mainInit Libm.standIn).kf.KeyFrame (((46 : ℕ) : Int) - 1)).giroGlobo = 360 := by
    rw [mainInit_kf]
    simp [initGlobals, bakeKeyFrames, bakedPoses, FRAME.zero]
  exact ⟨h.1 12194 (by norm_num), h.2.1,
    hlast.1.trans (hrec.1.trans hcell.1), hlast.2.trans (hrec.2.2.2.trans hcell.2)⟩

/-! ## The walking cycle (C19, C20) -/

theorem movCuerpoSube_skip (b : BallonBoy) (h : ¬ (b.movPierDer ≤ 40 ∧ b.sube = true)) :
    movCuerpoSube b = b := by
  have h' : ¬ (b.movPierDer ≤ 40.0 ∧ b.sube = true) := by norm_num at h ⊢; exact h
  simp only [movCuerpoSube]
  rw [if_neg h']

theorem movCuerpoSube_rise (b : BallonBoy) (h : b.movPierDer ≤ 40) (hs : b.sube = true)
    (h2 : b.movPierDer + 3 < 40) :
    movCuerpoSube b =
      { b with movPierDer := b.movPierDer + 3.0,
               movHombroDer := b.movHombroDer + 0.1 - 0.1,
               movBrazoDer := b.movBrazoDer + 0.12,
               movPierIzq := b.movPierIzq - 3.0,
               rotRodDer := b.rotRodDer + 1.0,
               rotRodIzq := b.rotRodIzq - 1.0,
               movBrazIzq := b.movBrazIzq - 0.1 } := by
  have h' : b.movPierDer ≤ 40.0 ∧ b.sube = true := ⟨by norm_num; exact h, hs⟩
  have h2' : ¬ (b.movPierDer + 3.0 ≥ 40.0) := by norm_num; linarith
  simp only [movCuerpoSube]
  rw [if_pos h', if_neg h2']

theorem movCuerpoSube_flip (b : BallonBoy) (h : b.movPierDer ≤ 40) (hs : b.sube = true)
    (h2 : 40 ≤ b.movPierDer + 3) :
    movCuerpoSube b =
      { b with movPierDer := b.movPierDer + 3.0,
               movHombroDer := b.movHombroDer + 0.1 - 0.1,
               movBrazoDer := b.movBrazoDer + 0.12,
               movPierIzq := b.movPierIzq - 3.0,
               rotRodDer := b.rotRodDer + 1.0,
               rotRodIzq := b.rotRodIzq - 1.0,
               movBrazIzq := b.movBrazIzq - 0.1,
               sube := false, baja := true } := by
  have h' : b.movPierDer ≤ 40.0 ∧ b.sube = true := ⟨by norm_num; exact h, hs⟩
  have h2' : b.movPierDer + 3.0 ≥ 40.0 := by norm_num; linarith
  simp only [movCuerpoSube]
  rw [if_pos h', if_pos h2']

theorem movCuerpoBaja_skip (b : BallonBoy) (h : ¬ (-50 ≤ b.movPierDer ∧ b.baja = true)) :
    movCuerpoBaja b = b := by
  have h' : ¬ (b.movPierDer ≥ -50 ∧ b.baja = true) := h
  simp only [movCuerpoBaja]
  rw [if_neg h']

theorem movCuerpoBaja_lower (b : BallonBoy) (h : -50 ≤ b.movPierDer) (hs : b.baja = true)
    (h2 : -50 < b.movPierDer - 3) :
    movCuerpoBaja b =
      { b with movPierDer := b.movPierDer - 3.0,
               movHombroDer := b.movHombroDer - 0.1 + 0.1,
               movBrazoDer := b.movBrazoDer - 0.12,
               movPierIzq := b.movPierIzq + 3.0,
               rotRodDer := b.rotRodDer - 1.0,
               rotRodIzq := b.rotRodIzq + 1.0,
               movBrazIzq := b.movBrazIzq + 0.1 } := by
  have h' : b.movPierDer ≥ -50 ∧ b.baja = true := ⟨h, hs⟩
  have h2' : ¬ (b.movPierDer - 3.0 ≤ -50.0) := by norm_num; linarith
  simp only [movCuerpoBaja]
  rw [if_pos h', if_neg h2']

theorem movCuerpoBaja_flip (b : BallonBoy) (h : -50 ≤ b.movPierDer) (hs : b.baja = true)
    (h2 : b.movPierDer - 3 ≤ -50) :
    movCuerpoBaja b =
      { b with movPierDer := b.movPierDer - 3.0,
               movHombroDer := b.movHombroDer - 0.1 + 0.1,
               movBrazoDer := b.movBrazoDer - 0.12,
               movPierIzq := b.movPierIzq + 3.0,
               rotRodDer := b.rotRodDer - 1.0,
               rotRodIzq := b.rotRodIzq + 1.0,
               movBrazIzq := b.movBrazIzq + 0.1,
               baja := false, sube := true } := by
  have h' : b.movPierDer ≥ -50 ∧ b.baja = true := ⟨h, hs⟩
  have h2' : b.movPierDer - 3.0 ≤ -50.0 := by norm_num; linarith
  simp only [movCuerpoBaja]
  rw [if_pos h', if_pos h2']

theorem movCuerpo_up (b : BallonBoy) (z : Int) (hz : b.movPierDer = 3 * z)
    (hs : b.sube = true) (hb : b.baja = false) (h13 : z ≤ 12) :
    (movCuerpo b).movPierDer = 3 * ((z + 1 : Int) : ℚ) ∧ (movCuerpo b).sube = true ∧
    (movCuerpo b).baja = false := by
  have hq : (z : ℚ) ≤ 12 := by exact_mod_cast h13
  rw [movCuerpo, movCuerpoSube_rise b (by rw [hz]; linarith) hs (by rw [hz]; linarith),
    movCuerpoBaja_skip _ (by simp [hb])]
  refine ⟨?_, hs, hb⟩
  show b.movPierDer + 3.0 = _
  rw [hz]; push_cast; norm_num; ring

theorem movCuerpo_top (b : BallonBoy) (z : Int) (hz : b.movPierDer = 3 * z)
    (hs : b.sube = true) (h13 : z = 13) :
    (movCuerpo b).movPierDer = 3 * ((13 : Int) : ℚ) ∧ (movCuerpo b).sube = false ∧
    (movCuerpo b).baja = true := by
  subst h13
  rw [movCuerpo, movCuerpoSube_flip b (by rw [hz]; norm_num) hs (by rw [hz]; norm_num),
    movCuerpoBaja_lower _ (by show (-50 : ℚ) ≤ b.movPierDer + 3.0; rw [hz]; norm_num) rfl
      (by show (-50 : ℚ) < b.movPierDer + 3.0 - 3; rw [hz]; norm_num)]
  refine ⟨?_, rfl, rfl⟩
  show b.movPierDer + 3.0 - 3.0 = _
  rw [hz]; norm_num

theorem movCuerpo_down (b : BallonBoy) (z : Int) (hz : b.movPierDer = 3 * z)
    (hs : b.sube = false) (hb : b.baja = true) (hlo : -15 ≤ z) :
    (movCuerpo b).movPierDer = 3 * ((z - 1 : Int) : ℚ) ∧ (movCuerpo b).sube = false ∧
    (movCuerpo b).baja = true := by
  have hq : (-15 : ℚ) ≤ z := by exact_mod_cast hlo
  rw [movCuerpo, movCuerpoSube_skip b (by simp [hs]),
    movCuerpoBaja_lower b (by rw [hz]; linarith) hb (by rw [hz]; linarith)]
  refine ⟨?_, hs, hb⟩
  show b.movPierDer - 3.0 = _
  rw [hz]; push_cast; norm_num; ring

theorem movCuerpo_bottom (b : BallonBoy) (z : Int) (hz : b.movPierDer = 3 * z)
    (hs : b.sube = false) (hb : b.baja = true) (h16 : z = -16) :
    (movCuerpo b).movPierDer = 3 * ((-17 : Int) : ℚ) ∧ (movCuerpo b).sube = true ∧
    (movCuerpo b).baja = false := by
  subst h16
  rw [movCuerpo, movCuerpoSube_skip b (by simp [hs]),
    movCuerpoBaja_flip b (by rw [hz]; norm_num) hb (by rw [hz]; norm_num)]
  refine ⟨?_, rfl, rfl⟩
  show b.movPierDer - 3.0 = _
  rw [hz]; norm_num

theorem movCuerpo_onCycle (b : BallonBoy) (h : b.OnCycle) : (movCuerpo b).OnCycle := by
  obtain ⟨z, hz, ⟨hs, hb, hlo, hhi⟩ | ⟨hs, hb, hlo, hhi⟩⟩ := h
  · rcases lt_or_ge z 13 with hlt | hge
    · have h := movCuerpo_up b z hz hs hb (by omega)
      exact ⟨z + 1, h.1, Or.inl ⟨h.2.1, h.2.2, by omega, by omega⟩⟩
    · have h := movCuerpo_top b z hz hs (by omega)
      exact ⟨13, h.1, Or.inr ⟨h.2.1, h.2.2, by omega, by omega⟩⟩
  · rcases lt_or_ge (-16) z with hlt | hge
    · have h := movCuerpo_down b z hz hs hb (by omega)
      exact ⟨z - 1, h.1, Or.inr ⟨h.2.1, h.2.2, by omega, by omega⟩⟩
    · have h := movCuerpo_bottom b z hz hs hb (by omega)
      exact ⟨-17, h.1, Or.inl ⟨h.2.1, h.2.2, by omega, by omega⟩⟩

theorem iterate_up (b : BallonBoy) (z : Int) (hz : b.movPierDer = 3 * z)
    (hs : b.sube = true) (hb : b.baja = false) (n : ℕ) (hn : z + n ≤ 13) :
    (movCuerpo^[n] b).movPierDer = 3 * ((z + n : Int) : ℚ) ∧ (movCuerpo^[n] b).sube = true ∧
    (movCuerpo^[n] b).baja = false := by
  induction n with
  | zero => exact ⟨by simpa using hz, hs, hb⟩
  | succ n ih =>
    have h := ih (by push_cast at hn; omega)
    rw [Function.iterate_succ_apply']
    have h2 := movCuerpo_up _ (z + n) h.1 h.2.1 h.2.2 (by push_cast at hn; omega)
    exact ⟨by rw [h2.1]; push_cast; ring, h2.2.1, h2.2.2⟩

theorem iterate_down (b : BallonBoy) (z : Int) (hz : b.movPierDer = 3 * z)
    (hs : b.sube = false) (hb : b.baja = true) (n : ℕ) (hn : -16 ≤ z - n) :
    (movCuerpo^[n] b).movPierDer = 3 * ((z - n : Int) : ℚ) ∧ (movCuerpo^[n] b).sube = false ∧
    (movCuerpo^[n] b).baja = true := by
  induction n with
  | zero => exact ⟨by simpa using hz, hs, hb⟩
  | succ n ih =>
    have h := ih (by push_cast at hn; omega)
    rw [Function.iterate_succ_apply']
    have h2 := movCuerpo_down _ (z - n) h.1 h.2.1 h.2.2 (by push_cast at hn; omega)
    exact ⟨by rw [h2.1]; push_cast; ring, h2.2.1, h2.2.2⟩

theorem movCuerpoSube_arm_deltas (b : BallonBoy) :
    (movCuerpoSube b).movBrazoDer - b.movBrazoDer
      = ((movCuerpoSube b).movPierDer - b.movPierDer) / 25 ∧
    (movCuerpoSube b).movBrazIzq - b.movBrazIzq
      = -(((movCuerpoSube b).movPierDer - b.movPierDer) / 30) := by
  by_cases c : b.movPierDer ≤ 40 ∧ b.sube = true
  · rcases lt_or_ge (b.movPierDer + 3) 40 with c2 | c2
    · rw [movCuerpoSube_rise b c.1 c.2 c2]
      constructor <;> simp only [] <;> norm_num
    · rw [movCuerpoSube_flip b c.1 c.2 c2]
      constructor <;> simp only [] <;> norm_num
  · rw [movCuerpoSube_skip b c]
    constructor <;> norm_num

theorem movCuerpoBaja_arm_deltas (b : BallonBoy) :
    (movCuerpoBaja b).movBrazoDer - b.movBrazoDer
      = ((movCuerpoBaja b).movPierDer - b.movPierDer) / 25 ∧
    (movCuerpoBaja b).movBrazIzq - b.movBrazIzq
      = -(((movCuerpoBaja b).movPierDer - b.movPierDer) / 30) := by
  by_cases c : -50 ≤ b.movPierDer ∧ b.baja = true
  · rcases lt_or_ge (-50) (b.movPierDer - 3) with c2 | c2
    · rw [movCuerpoBaja_lower b c.1 c.2 c2]
      constructor <;> simp only [] <;> norm_num
    · rw [movCuerpoBaja_flip b c.1 c.2 c2]
      constructor <;> simp only [] <;> norm_num
  · rw [movCuerpoBaja_skip b c]
    constructor <;> norm_num

theorem movCuerpo_arm_deltas (b : BallonBoy) :
    (movCuerpo b).movBrazoDer - b.movBrazoDer = ((movCuerpo b).movPierDer - b.movPierDer) / 25 ∧
    (movCuerpo b).movBrazIzq - b.movBrazIzq
      = -(((movCuerpo b).movPierDer - b.movPierDer) / 30) := by
  have h1 := movCuerpoSube_arm_deltas b
  have h2 := movCuerpoBaja_arm_deltas (movCuerpoSube b)
  rw [movCuerpo]
  constructor
  · linarith [h1.1, h2.1]
  · linarith [h1.2, h2.2]

theorem movCuerpo_armsTied (b : BallonBoy) (h : b.ArmsTied) : (movCuerpo b).ArmsTied := by
  have hd := movCuerpo_arm_deltas b
  obtain ⟨h1, h2⟩ := h
  constructor
  · linarith [hd.1]
  · linarith [hd.2]

/-- What the polled keys of `my_input` do to the walking figure keeps every
property that `movCuerpo` keeps and that does not read the position, the
heading or the head angle. -/
theorem inputBallonBoy_keeps (P : BallonBoy → Prop)
    (hmov : ∀ b, P b → P (movCuerpo b))
    (hX : ∀ (b : BallonBoy) (x : ℚ), P b → P { b with posX := x })
    (hZ : ∀ (b : BallonBoy) (x : ℚ), P b → P { b with posZ := x })
    (hG : ∀ (b : BallonBoy) (x : ℚ), P b → P { b with giroMonito := x })
    (hC : ∀ (b : BallonBoy) (x : ℚ), P b → P { b with movCabeza := x })
    (held : Held) (b : BallonBoy) (h : P b) :
    P (inputTurn held (inputHead held (inputWalk held b))) := by
  have hw : P (inputWalk held b) := by
    simp only [inputWalk]
    have h1 : P (if held.up then movCuerpo { b with posZ := b.posZ - 1 } else b) := by
      split_ifs
      · exact hmov _ (hZ _ _ h)
      · exact h
    generalize (if held.up then movCuerpo { b with posZ := b.posZ - 1 } else b) = b1 at h1 ⊢
    have h2 : P (if held.right then movCuerpo { b1 with posX := b1.posX + 1 } else b1) := by
      split_ifs
      · exact hmov _ (hX _ _ h1)
      · exact h1
    generalize (if held.right then movCuerpo { b1 with posX := b1.posX + 1 } else b1) = b2
      at h2 ⊢
    have h3 : P (if held.down then movCuerpo { b2 with posZ := b2.posZ + 1 } else b2) := by
      split_ifs
      · exact hmov _ (hZ _ _ h2)
      · exact h2
    generalize (if held.down then movCuerpo { b2 with posZ := b2.posZ + 1 } else b2) = b3
      at h3 ⊢
    split_ifs
    · exact hmov _ (hX _ _ h3)
    · exact h3
  generalize inputWalk held b = w at hw ⊢
  have hh : P (inputHead held w) := by
    simp only [inputHead]
    have h1 : P (if held.m = true ∧ w.movCabeza < 75.0 then
        { w with movCabeza := w.movCabeza + 3.5 } else w) := by
      split_ifs
      · exact hC _ _ hw
      · exact hw
    generalize (if held.m = true ∧ w.movCabeza < 75.0 then
        { w with movCabeza := w.movCabeza + 3.5 } else w) = w1 at h1 ⊢
    split_ifs
    · exact hC _ _ h1
    · exact h1
  generalize inputHead held w = c at hh ⊢
  simp only [inputTurn]
  have h1 : P (if held.r then movCuerpo { c with giroMonito := c.giroMonito - 1 } else c) := by
    split_ifs
    · exact hmov _ (hG _ _ hh)
    · exact hh
  generalize (if held.r then movCuerpo { c with giroMonito := c.giroMonito - 1 } else c) = c1
    at h1 ⊢
  split_ifs
  · exact hmov _ (hG _ _ h1)
  · exact h1

theorem fromStart_bb_keeps (P : BallonBoy → Prop)
    (hmov : ∀ b, P b → P (movCuerpo b))
    (hX : ∀ (b : BallonBoy) (x : ℚ), P b → P { b with posX := x })
    (hZ : ∀ (b : BallonBoy) (x : ℚ), P b → P { b with posZ := x })
    (hG : ∀ (b : BallonBoy) (x : ℚ), P b → P { b with giroMonito := x })
    (hC : ∀ (b : BallonBoy) (x : ℚ), P b → P { b with movCabeza := x })
    (h0 : P initGlobals.bb) {m : Libm} {s : State} (h : FromStart m s) : P s.bb := by
  induction h with
  | globals => exact h0
  | loop => exact h0
  | step s e _ ih =>
    cases e with
    | tick => exact ih
    | input key action held =>
      show P (my_input key action held s).bb
      rw [(my_input_figures key action held s).2.2.2.2.2.2.2]
      exact inputBallonBoy_keeps P hmov hX hZ hG hC held s.bb ih

theorem iterate_keeps (P : BallonBoy → Prop) (hmov : ∀ b, P b → P (movCuerpo b))
    (b : BallonBoy) (h : P b) (n : ℕ) : P (movCuerpo^[n] b) := by
  induction n with
  | zero => exact h
  | succ n ih => rw [Function.iterate_succ_apply']; exact hmov _ ih

theorem initGlobals_bb_onCycle : initGlobals.bb.OnCycle :=
  ⟨0, by simp [initGlobals]; norm_num, Or.inl ⟨rfl, rfl, by norm_num, by norm_num⟩⟩

theorem initGlobals_bb_armsTied : initGlobals.bb.ArmsTied := by
  simp only [BallonBoy.ArmsTied, initGlobals]
  constructor <;> norm_num

theorem fromStart_bb_onCycle {m : Libm} {s : State} (h : FromStart m s) : s.bb.OnCycle :=
  fromStart_bb_keeps BallonBoy.OnCycle movCuerpo_onCycle (fun _ _ h => h) (fun _ _ h => h)
    (fun _ _ h => h) (fun _ _ h => h) initGlobals_bb_onCycle h

theorem fromStart_bb_armsTied {m : Libm} {s : State} (h : FromStart m s) : s.bb.ArmsTied :=
  fromStart_bb_keeps BallonBoy.ArmsTied movCuerpo_armsTied (fun _ _ h => h) (fun _ _ h => h)
    (fun _ _ h => h) (fun _ _ h => h) initGlobals_bb_armsTied h

theorem onCycle_bounds (b : BallonBoy) (h : b.OnCycle) :
    -51 ≤ b.movPierDer ∧ b.movPierDer ≤ 39 ∧
    ((b.sube = true ∧ b.baja = false) ∨ (b.sube = false ∧ b.baja = true)) := by
  obtain ⟨z, hz, ⟨hs, hb, hlo, hhi⟩ | ⟨hs, hb, hlo, hhi⟩⟩ := h
  · have h1 : (-17 : ℚ) ≤ z := by exact_mod_cast hlo
    have h2 : (z : ℚ) ≤ 13 := by exact_mod_cast hhi
    exact ⟨by rw [hz]; linarith, by rw [hz]; linarith, Or.inl ⟨hs, hb⟩⟩
  · have h1 : (-16 : ℚ) ≤ z := by exact_mod_cast hlo
    have h2 : (z : ℚ) ≤ 13 := by exact_mod_cast hhi
    exact ⟨by rw [hz]; linarith, by rw [hz]; linarith, Or.inr ⟨hs, hb⟩⟩

/-- On the cycle the direction flags change in exactly two calls: the one made
with the leg at 39 while it is being raised, and the one made with the leg at
-48 while it is being lowered. -/
theorem movCuerpo_reverses (b : BallonBoy) (h : b.OnCycle) :
    ((movCuerpo b).sube ≠ b.sube ↔
      (b.sube = true ∧ b.movPierDer = 39) ∨ (b.baja = true ∧ b.movPierDer = -48)) ∧
    (b.sube = true → b.movPierDer = 39 →
      (movCuerpo b).movPierDer = 39 ∧ (movCuerpo b).sube = false ∧ (movCuerpo b).baja = true) ∧
    (b.baja = true → b.movPierDer = -48 →
      (movCuerpo b).movPierDer = -51 ∧ (movCuerpo b).sube = true ∧
      (movCuerpo b).baja = false) := by
  obtain ⟨z, hz, ⟨hs, hb, hlo, hhi⟩ | ⟨hs, hb, hlo, hhi⟩⟩ := h
  · rcases lt_or_ge z 13 with hlt | hge
    · have h := movCuerpo_up b z hz hs hb (by omega)
      have hne : b.movPierDer ≠ 39 := by
        rw [hz]; intro h39
        have : (3 * z : Int) = 39 := by exact_mod_cast h39
        omega
      refine ⟨⟨fun hc => absurd (h.2.1.trans hs.symm) hc, fun hc => ?_⟩,
        fun _ h39 => absurd h39 hne, fun hb' => by rw [hb] at hb'; cases hb'⟩
      rcases hc with ⟨_, h39⟩ | ⟨hb', _⟩
      · exact absurd h39 hne
      · rw [hb] at hb'; cases hb'
    · have hz13 : z = 13 := by omega
      have h := movCuerpo_top b z hz hs hz13
      have h39 : b.movPierDer = 39 := by rw [hz, hz13]; norm_num
      refine ⟨⟨fun _ => Or.inl ⟨hs, h39⟩, fun _ => by rw [h.2.1, hs]; decide⟩,
        fun _ _ => ⟨by rw [h.1]; norm_num, h.2.1, h.2.2⟩,
        fun hb' => by rw [hb] at hb'; cases hb'⟩
  · rcases lt_or_ge (-16) z with hlt | hge
    · have h := movCuerpo_down b z hz hs hb (by omega)
      have hne : b.movPierDer ≠ -48 := by
        rw [hz]; intro h48
        have : (3 * z : Int) = -48 := by exact_mod_cast h48
        omega
      refine ⟨⟨fun hc => absurd (h.2.1.trans hs.symm) hc, fun hc => ?_⟩,
        fun hs' => (by rw [hs] at hs'; cases hs'), fun _ h48 => absurd h48 hne⟩
      rcases hc with ⟨hs', _⟩ | ⟨_, h48⟩
      · rw [hs] at hs'; cases hs'
      · exact absurd h48 hne
    · have hz16 : z = -16 := by omega
      have h := movCuerpo_bottom b z hz hs hb hz16
      have h48 : b.movPierDer = -48 := by rw [hz, hz16]; norm_num
      refine ⟨⟨fun _ => Or.inr ⟨hb, h48⟩, fun _ => by rw [h.2.1, hs]; decide⟩,
        fun hs' => (by rw [hs] at hs'; cases hs'),
        fun _ _ => ⟨by rw [h.1]; norm_num, h.2.1, h.2.2⟩⟩

/-- The first descent of the leg: after 13 calls it stands at 39, still being
raised; the next call turns it round; 29 more calls take it to -48; call
number 44 takes it to -51 and turns it round again. -/
theorem first_descent :
    ((movCuerpo^[13] initGlobals.bb).movPierDer = 39 ∧
      (movCuerpo^[13] initGlobals.bb).sube = true) ∧
    ((movCuerpo^[14] initGlobals.bb).movPierDer = 39 ∧
      (movCuerpo^[14] initGlobals.bb).baja = true) ∧
    ((movCuerpo^[43] initGlobals.bb).movPierDer = -48 ∧
      (movCuerpo^[43] initGlobals.bb).baja = true) ∧
    ((movCuerpo^[44] initGlobals.bb).movPierDer = -51 ∧
      (movCuerpo^[44] initGlobals.bb).sube = true) := by
  have h0 : initGlobals.bb.movPierDer = 3 * ((0 : Int) : ℚ) := by
    simp [initGlobals]
    norm_num
  have h13 := iterate_up initGlobals.bb 0 h0 rfl rfl 13 (by norm_num)
  have h14 := movCuerpo_top _ _ h13.1 h13.2.1 (by norm_num)
  rw [← Function.iterate_succ_apply' movCuerpo 13] at h14
  have h43 := iterate_down _ 13 h14.1 h14.2.1 h14.2.2 29 (by norm_num)
  rw [← Function.iterate_add_apply] at h43
  have h44 := movCuerpo_bottom _ _ h43.1 h43.2.1 h43.2.2 (by norm_num)
  rw [← Function.iterate_succ_apply' movCuerpo] at h44
  exact ⟨⟨by rw [h13.1]; norm_num, h13.2.1⟩, ⟨by rw [h14.1]; norm_num, h14.2.2⟩,
    ⟨by rw [h43.1]; norm_num, h43.2.2⟩, ⟨by rw [h44.1]; norm_num, h44.2.1⟩⟩

/-- C19, the claim as stated fails: call number 44 from the initial state
takes the right leg from -48 to -51, below the stated extreme -50. -/
theorem C19_counterexample :
    (movCuerpo^[44] initGlobals.bb).movPierDer = -51 ∧
    ¬ (∀ n : ℕ, -50 ≤ (movCuerpo^[n] initGlobals.bb).movPierDer ∧
        (movCuerpo^[n] initGlobals.bb).movPierDer ≤ 40) := by
  have h := first_descent.2.2.2.1
  refine ⟨h, fun hall => ?_⟩
  have h44 := (hall 44).1
  rw [h] at h44
  norm_num at h44

/-- C19, amended.  From the initial state, and from every state a run can
reach, after any number `n` of calls of `movCuerpo` the right-leg angle stays
within `-51 <= movPierDer <= 39` and exactly one of `sube`, `baja` is set.
The direction is reversed by exactly two kinds of call: the call made with
the leg at 39 while it is being raised, which leaves the leg at 39, and the
call made with the leg at -48 while it is being lowered, which leaves it at
-51.  Both bounds are attained from the initial state: 39 after 13 calls, -51
after 44 calls. -/
theorem C19_walking_extremes (m : Libm) (s : State) (hs : FromStart m s) (n : ℕ) :
    (-51 ≤ (movCuerpo^[n] s.bb).movPierDer ∧ (movCuerpo^[n] s.bb).movPierDer ≤ 39) ∧
    (((movCuerpo^[n] s.bb).sube = true ∧ (movCuerpo^[n] s.bb).baja = false) ∨
      ((movCuerpo^[n] s.bb).sube = false ∧ (movCuerpo^[n] s.bb).baja = true)) ∧
    ((movCuerpo^[n + 1] s.bb).sube ≠ (movCuerpo^[n] s.bb).sube ↔
      ((movCuerpo^[n] s.bb).sube = true ∧ (movCuerpo^[n] s.bb).movPierDer = 39) ∨
      ((movCuerpo^[n] s.bb).baja = true ∧ (movCuerpo^[n] s.bb).movPierDer = -48)) ∧
    ((movCuerpo^[n] s.bb).sube = true → (movCuerpo^[n] s.bb).movPierDer = 39 →
      (movCuerpo^[n + 1] s.bb).movPierDer = 39 ∧ (movCuerpo^[n + 1] s.bb).sube = false ∧
      (movCuerpo^[n + 1] s.bb).baja = true) ∧
    ((movCuerpo^[n] s.bb).baja = true → (movCuerpo^[n] s.bb).movPierDer = -48 →
      (movCuerpo^[n + 1] s.bb).movPierDer = -51 ∧ (movCuerpo^[n + 1] s.bb).sube = true ∧
      (movCuerpo^[n + 1] s.bb).baja = false) ∧
    ((movCuerpo^[13] initGlobals.bb).movPierDer = 39 ∧
      (movCuerpo^[44] initGlobals.bb).movPierDer = -51) := by
  have hc := iterate_keeps BallonBoy.OnCycle movCuerpo_onCycle s.bb (fromStart_bb_onCycle hs) n
  have hb := onCycle_bounds _ hc
  have hr := movCuerpo_reverses _ hc
  rw [Function.iterate_succ_apply']
  exact ⟨⟨hb.1, hb.2.1⟩, hb.2.2, hr.1, hr.2.1, hr.2.2,
    first_descent.1.1, first_descent.2.2.2.1⟩

/-- Witness for C19 (amended): the initial state, where the leg is within the
bounds after 44 calls (it stands at -51) and after 13 calls (it stands at
39). -/
theorem C19_walking_extremes_witness :
    FromStart Libm.standIn initGlobals ∧
    -51 ≤ (movCuerpo^[44] initGlobals.bb).movPierDer ∧
    (movCuerpo^[13] initGlobals.bb).movPierDer ≤ 39 :=
  ⟨FromStart.globals,
    (C19_walking_extremes Libm.standIn initGlobals FromStart.globals 44).1.1,
    (C19_walking_extremes Libm.standIn initGlobals FromStart.globals 13).1.2⟩

/-- C20, the claim as stated fails: the first call of `movCuerpo` from the
initial state leaves `movBrazoDer = 0.12` and `movBrazIzq = -0.1`, whose sum
is 0.02. -/
theorem C20_counterexample :
    (movCuerpo initGlobals.bb).movBrazoDer = 0.12 ∧
    (movCuerpo initGlobals.bb).movBrazIzq = -0.1 ∧
    ¬ (∀ n : ℕ, (movCuerpo^[n] initGlobals.bb).movBrazoDer
        + (movCuerpo^[n] initGlobals.bb).movBrazIzq = 0) := by
  have h0 : initGlobals.bb.movPierDer = 3 * ((0 : Int) : ℚ) := by
    simp [initGlobals]
    norm_num
  have hleg := (movCuerpo_up initGlobals.bb 0 h0 rfl rfl (by norm_num)).1
  have ha := movCuerpo_armsTied _ initGlobals_bb_armsTied
  have h1 : (movCuerpo initGlobals.bb).movBrazoDer = 0.12 := by
    rw [ha.1, hleg]; norm_num
  have h2 : (movCuerpo initGlobals.bb).movBrazIzq = -0.1 := by
    rw [ha.2, hleg]; norm_num
  refine ⟨h1, h2, fun hall => ?_⟩
  have h := hall 1
  rw [Function.iterate_one, h1, h2] at h
  norm_num at h

/-- C20, amended.  Each call of `movCuerpo` moves the two arms in opposite
directions but by different amounts: when the call moves the right leg by
`d` (3, -3 or 0 degrees), the right arm moves by `d / 25` (0.12 per 3 degrees)
and the left arm by `-d / 30` (0.1 per 3 degrees).  So from the initial state,
and from every state a run can reach, after any number of calls
`movBrazoDer = movPierDer / 25` and `movBrazIzq = -movPierDer / 30`: the sum
`movBrazoDer + movBrazIzq` is `movPierDer / 150`, which is zero only when the
leg stands at 0, while `5 * movBrazoDer + 6 * movBrazIzq = 0` always. -/
theorem C20_arm_ratio (m : Libm) (s : State) (hs : FromStart m s) (n : ℕ) :
    ((movCuerpo^[n + 1] s.bb).movBrazoDer - (movCuerpo^[n] s.bb).movBrazoDer
      = ((movCuerpo^[n + 1] s.bb).movPierDer - (movCuerpo^[n] s.bb).movPierDer) / 25 ∧
     (movCuerpo^[n + 1] s.bb).movBrazIzq - (movCuerpo^[n] s.bb).movBrazIzq
      = -(((movCuerpo^[n + 1] s.bb).movPierDer - (movCuerpo^[n] s.bb).movPierDer) / 30)) ∧
    (movCuerpo^[n] s.bb).movBrazoDer = (movCuerpo^[n] s.bb).movPierDer / 25 ∧
    (movCuerpo^[n] s.bb).movBrazIzq = -((movCuerpo^[n] s.bb).movPierDer / 30) ∧
    (movCuerpo^[n] s.bb).movBrazoDer + (movCuerpo^[n] s.bb).movBrazIzq
      = (movCuerpo^[n] s.bb).movPierDer / 150 ∧
    5 * (movCuerpo^[n] s.bb).movBrazoDer + 6 * (movCuerpo^[n] s.bb).movBrazIzq = 0 ∧
    ((movCuerpo^[n] s.bb).movBrazoDer + (movCuerpo^[n] s.bb).movBrazIzq = 0 ↔
      (movCuerpo^[n] s.bb).movPierDer = 0) := by
  have ha := iterate_keeps BallonBoy.ArmsTied movCuerpo_armsTied s.bb
    (fromStart_bb_armsTied hs) n
  have hd := movCuerpo_arm_deltas (movCuerpo^[n] s.bb)
  obtain ⟨h1, h2⟩ := ha
  rw [Function.iterate_succ_apply']
  refine ⟨hd, h1, h2, ?_, ?_, ?_⟩
  · rw [h1, h2]; ring
  · rw [h1, h2]; ring
  · rw [h1, h2]
    constructor
    · intro h; linarith
    · intro h; rw [h]; norm_num

/-- Witness for C20 (amended): the initial state and one call, after which the
arms stand at 0.12 and -0.1 with the leg at 3. -/
theorem C20_arm_ratio_witness :
    FromStart Libm.standIn initGlobals ∧
    (movCuerpo^[1] initGlobals.bb).movBrazoDer = (movCuerpo^[1] initGlobals.bb).movPierDer / 25 ∧
    5 * (movCuerpo^[1] initGlobals.bb).movBrazoDer
      + 6 * (movCuerpo^[1] initGlobals.bb).movBrazIzq = 0 :=
  ⟨FromStart.globals,
    (C20_arm_ratio Libm.standIn initGlobals FromStart.globals 1).2.1,
    (C20_arm_ratio Libm.standIn initGlobals FromStart.globals 1).2.2.2.2.1⟩

/-! ## The legs and knees of the walking figure (C21, C22) -/

theorem movCuerpoSube_leg_deltas (b : BallonBoy) :
    (movCuerpoSube b).movPierIzq - b.movPierIzq
      = -((movCuerpoSube b).movPierDer - b.movPierDer) ∧
    (movCuerpoSube b).rotRodDer - b.rotRodDer
      = ((movCuerpoSube b).movPierDer - b.movPierDer) / 3 ∧
    (movCuerpoSube b).rotRodIzq - b.rotRodIzq
      = -(((movCuerpoSube b).movPierDer - b.movPierDer) / 3) := by
  by_cases c : b.movPierDer ≤ 40 ∧ b.sube = true
  · rcases lt_or_ge (b.movPierDer + 3) 40 with c2 | c2
    · rw [movCuerpoSube_rise b c.1 c.2 c2]
      refine ⟨?_, ?_, ?_⟩ <;> simp only [] <;> norm_num
    · rw [movCuerpoSube_flip b c.1 c.2 c2]
      refine ⟨?_, ?_, ?_⟩ <;> simp only [] <;> norm_num
  · rw [movCuerpoSube_skip b c]
    refine ⟨?_, ?_, ?_⟩ <;> norm_num

theorem movCuerpoBaja_leg_deltas (b : BallonBoy) :
    (movCuerpoBaja b).movPierIzq - b.movPierIzq
      = -((movCuerpoBaja b).movPierDer - b.movPierDer) ∧
    (movCuerpoBaja b).rotRodDer - b.rotRodDer
      = ((movCuerpoBaja b).movPierDer - b.movPierDer) / 3 ∧
    (movCuerpoBaja b).rotRodIzq - b.rotRodIzq
      = -(((movCuerpoBaja b).movPierDer - b.movPierDer) / 3) := by
  by_cases c : -50 ≤ b.movPierDer ∧ b.baja = true
  · rcases lt_or_ge (-50) (b.movPierDer - 3) with c2 | c2
    · rw [movCuerpoBaja_lower b c.1 c.2 c2]
      refine ⟨?_, ?_, ?_⟩ <;> simp only [] <;> norm_num
    · rw [movCuerpoBaja_flip b c.1 c.2 c2]
      refine ⟨?_, ?_, ?_⟩ <;> simp only [] <;> norm_num
  · rw [movCuerpoBaja_skip b c]
    refine ⟨?_, ?_, ?_⟩ <;> norm_num

theorem movCuerpo_leg_deltas (b : BallonBoy) :
    (movCuerpo b).movPierIzq - b.movPierIzq = -((movCuerpo b).movPierDer - b.movPierDer) ∧
    (movCuerpo b).rotRodDer - b.rotRodDer = ((movCuerpo b).movPierDer - b.movPierDer) / 3 ∧
    (movCuerpo b).rotRodIzq - b.rotRodIzq
      = -(((movCuerpo b).movPierDer - b.movPierDer) / 3) := by
  have h1 := movCuerpoSube_leg_deltas b
  have h2 := movCuerpoBaja_leg_deltas (movCuerpoSube b)
  rw [movCuerpo]
  refine ⟨?_, ?_, ?_⟩
  · linarith [h1.1, h2.1]
  · linarith [h1.2.1, h2.2.1]
  · linarith [h1.2.2, h2.2.2]

theorem movCuerpo_legsTied (b : BallonBoy) (h : b.LegsTied) : (movCuerpo b).LegsTied := by
  have hd := movCuerpo_leg_deltas b
  obtain ⟨h1, h2, h3⟩ := h
  refine ⟨?_, ?_, ?_⟩
  · linarith [hd.1]
  · linarith [hd.2.1]
  · linarith [hd.2.2]

theorem initGlobals_bb_legsTied : initGlobals.bb.LegsTied := by
  simp only [BallonBoy.LegsTied, initGlobals]
  refine ⟨?_, ?_, ?_⟩ <;> norm_num

theorem fromStart_bb_legsTied {m : Libm} {s : State} (h : FromStart m s) : s.bb.LegsTied :=
  fromStart_bb_keeps BallonBoy.LegsTied movCuerpo_legsTied (fun _ _ h => h) (fun _ _ h => h)
    (fun _ _ h => h) (fun _ _ h => h) initGlobals_bb_legsTied h

/-- C21. Walking cycle leg symmetry: every call of `movCuerpo`, in any state,
changes the two legs by equal and opposite amounts and the two knees by equal
and opposite amounts, a third of the leg's; so from the initial state (all
0), and from every state a run can reach, after any number of calls
`movPierDer + movPierIzq = 0`, `rotRodDer + rotRodIzq = 0` and
`movPierDer = 3 * rotRodDer`. -/
theorem C21_leg_symmetry (m : Libm) (s : State) (hs : FromStart m s) (n : ℕ) :
    (∀ b : BallonBoy,
      ((movCuerpo b).movPierDer - b.movPierDer) + ((movCuerpo b).movPierIzq - b.movPierIzq) = 0 ∧
      ((movCuerpo b).rotRodDer - b.rotRodDer) + ((movCuerpo b).rotRodIzq - b.rotRodIzq) = 0 ∧
      (movCuerpo b).movPierDer - b.movPierDer = 3 * ((movCuerpo b).rotRodDer - b.rotRodDer)) ∧
    (movCuerpo^[n] s.bb).movPierDer + (movCuerpo^[n] s.bb).movPierIzq = 0 ∧
    (movCuerpo^[n] s.bb).rotRodDer + (movCuerpo^[n] s.bb).rotRodIzq = 0 ∧
    (movCuerpo^[n] s.bb).movPierDer = 3 * (movCuerpo^[n] s.bb).rotRodDer ∧
    (initGlobals.bb.movPierDer = 0 ∧ initGlobals.bb.movPierIzq = 0 ∧
      initGlobals.bb.rotRodDer = 0 ∧ initGlobals.bb.rotRodIzq = 0) := by
  have ht := iterate_keeps BallonBoy.LegsTied movCuerpo_legsTied s.bb
    (fromStart_bb_legsTied hs) n
  obtain ⟨h1, h2, h3⟩ := ht
  refine ⟨fun b => ?_, ?_, ?_, ?_, ?_⟩
  · have hd := movCuerpo_leg_deltas b
    refine ⟨?_, ?_, ?_⟩
    · linarith [hd.1]
    · linarith [hd.2.1, hd.2.2]
    · linarith [hd.2.1]
  · rw [h1]; ring
  · rw [h2, h3]; ring
  · rw [h2]; ring
  · simp only [initGlobals]
    refine ⟨?_, ?_, ?_, ?_⟩ <;> norm_num

/-- Witness for C21: the initial state and 13 calls, after which the right
leg stands at 39, the left leg at -39 and the right knee at 13. -/
theorem C21_leg_symmetry_witness :
    FromStart Libm.standIn initGlobals ∧
    (movCuerpo^[13] initGlobals.bb).movPierDer + (movCuerpo^[13] initGlobals.bb).movPierIzq = 0 ∧
    (movCuerpo^[13] initGlobals.bb).movPierDer = 3 * (movCuerpo^[13] initGlobals.bb).rotRodDer :=
  ⟨FromStart.globals,
    (C21_leg_symmetry Libm.standIn initGlobals FromStart.globals 13).2.1,
    (C21_leg_symmetry Libm.standIn initGlobals FromStart.globals 13).2.2.2.1⟩

theorem movCuerpo_flip_call (b : BallonBoy) (hs : b.sube = true) (hb : b.baja = false)
    (h37 : 37 ≤ b.movPierDer) (h40 : b.movPierDer ≤ 40) :
    movCuerpoSube b =
      { b with movPierDer := b.movPierDer + 3.0,
               movHombroDer := b.movHombroDer + 0.1 - 0.1,
               movBrazoDer := b.movBrazoDer + 0.12,
               movPierIzq := b.movPierIzq - 3.0,
               rotRodDer := b.rotRodDer + 1.0,
               rotRodIzq := b.rotRodIzq - 1.0,
               movBrazIzq := b.movBrazIzq - 0.1,
               sube := false, baja := true } ∧
    movCuerpoBaja (movCuerpoSube b) =
      { movCuerpoSube b with
               movPierDer := (movCuerpoSube b).movPierDer - 3.0,
               movHombroDer := (movCuerpoSube b).movHombroDer - 0.1 + 0.1,
               movBrazoDer := (movCuerpoSube b).movBrazoDer - 0.12,
               movPierIzq := (movCuerpoSube b).movPierIzq + 3.0,
               rotRodDer := (movCuerpoSube b).rotRodDer - 1.0,
               rotRodIzq := (movCuerpoSube b).rotRodIzq + 1.0,
               movBrazIzq := (movCuerpoSube b).movBrazIzq + 0.1 } ∧
    movCuerpo b = { b with sube := false, baja := true } := by
  have h1 := movCuerpoSube_flip b h40 hs (by linarith)
  have h2 : movCuerpoBaja (movCuerpoSube b) = _ :=
    movCuerpoBaja_lower (movCuerpoSube b)
      (by rw [h1]; show (-50 : ℚ) ≤ b.movPierDer + 3.0; norm_num; linarith)
      (by rw [h1])
      (by rw [h1]; show (-50 : ℚ) < b.movPierDer + 3.0 - 3; norm_num; linarith)
  refine ⟨h1, h2, ?_⟩
  rw [movCuerpo, h2, h1]
  cases b
  simp only [BallonBoy.mk.injEq, and_true, true_and]
  norm_num

/-- C22. Walking cycle flip call: in every state a run can reach from the
initial state exactly one of the flags `sube` and `baja` is set; and in every
state with `sube = true`, `baja = false` and `37 <= movPierDer <= 40` a call
of `movCuerpo` runs the raising block (which adds 3 to the leg and, the leg
being at 40 or more, sets `sube = false`, `baja = true`) and then the
lowering block (which takes the 3 off again), so that the call changes the
two flags and nothing else: `movPierDer`, `movPierIzq`, `rotRodDer`,
`rotRodIzq`, `movBrazoDer`, `movBrazIzq` and `movHombroDer` are as they were
before the call. -/
theorem C22_flip_call (b : BallonBoy) (hs : b.sube = true) (hb : b.baja = false)
    (h37 : 37 ≤ b.movPierDer) (h40 : b.movPierDer ≤ 40) :
    ((movCuerpoSube b).movPierDer = b.movPierDer + 3 ∧ (movCuerpoSube b).sube = false ∧
      (movCuerpoSube b).baja = true) ∧
    ((movCuerpoBaja (movCuerpoSube b)).movPierDer = (movCuerpoSube b).movPierDer - 3 ∧
      (movCuerpoBaja (movCuerpoSube b)).sube = false ∧
      (movCuerpoBaja (movCuerpoSube b)).baja = true) ∧
    movCuerpo b = { b with sube := false, baja := true } ∧
    ((movCuerpo b).sube = false ∧ (movCuerpo b).baja = true ∧
      (movCuerpo b).movPierDer = b.movPierDer ∧ (movCuerpo b).movPierIzq = b.movPierIzq ∧
      (movCuerpo b).rotRodDer = b.rotRodDer ∧ (movCuerpo b).rotRodIzq = b.rotRodIzq ∧
      (movCuerpo b).movBrazoDer = b.movBrazoDer ∧ (movCuerpo b).movBrazIzq = b.movBrazIzq ∧
      (movCuerpo b).movHombroDer = b.movHombroDer) ∧
    (∀ (m : Libm) (s : State), FromStart m s →
      (s.bb.sube = true ∧ s.bb.baja = false) ∨ (s.bb.sube = false ∧ s.bb.baja = true)) := by
  have h := movCuerpo_flip_call b hs hb h37 h40
  refine ⟨?_, ?_, h.2.2, ?_, fun m s hs => (onCycle_bounds _ (fromStart_bb_onCycle hs)).2.2⟩
  · rw [h.1]
    refine ⟨?_, rfl, rfl⟩
    show b.movPierDer + 3.0 = b.movPierDer + 3
    norm_num
  · rw [h.2.1]
    refine ⟨?_, ?_, ?_⟩
    · show (movCuerpoSube b).movPierDer - 3.0 = (movCuerpoSube b).movPierDer - 3
      norm_num
    · show (movCuerpoSube b).sube = false
      rw [h.1]
    · show (movCuerpoSube b).baja = true
      rw [h.1]
  · rw [h.2.2]
    exact ⟨rfl, rfl, rfl, rfl, rfl, rfl, rfl, rfl, rfl⟩

/-- Witness for C22: the state reached from the initial one by 13 calls, where
the leg is being raised and stands at 39; call number 14 changes the two
flags only. -/
theorem C22_flip_call_witness :
    (movCuerpo^[13] initGlobals.bb).movPierDer = 39 ∧
    (movCuerpo^[13] initGlobals.bb).sube = true ∧
    (movCuerpo (movCuerpo^[13] initGlobals.bb)).sube = false ∧
    (movCuerpo (movCuerpo^[13] initGlobals.bb)).movPierDer = 39 := by
  have h0 : initGlobals.bb.movPierDer = 3 * ((0 : Int) : ℚ) := by
    simp [initGlobals]
    norm_num
  have h13 := iterate_up initGlobals.bb 0 h0 rfl rfl 13 (by norm_num)
  have h39 : (movCuerpo^[13] initGlobals.bb).movPierDer = 39 := by
    rw [h13.1]; norm_num
  have h := C22_flip_call (movCuerpo^[13] initGlobals.bb) h13.2.1 h13.2.2
    (by rw [h39]; norm_num) (by rw [h39]; norm_num)
  exact ⟨h39, h13.2.1, h.2.2.2.1.1, h.2.2.2.1.2.2.1.trans h39⟩

/-! ## The throw figure (C23, C24) -/

theorem animateChica_windup (c : Chica) (he : c.Chicaanim = true) (hp : c.animChica = 0) :
    (animateChica c).rotBrazoC = c.rotBrazoC - 0.3 ∧
    (animateChica c).poszpanque = c.poszpanque + 0.1 ∧
    (animateChica c).rotpanque = c.rotpanque + 2.7 ∧
    (animateChica c).animChica = (if c.rotBrazoC - 0.3 ≤ -20 then 1 else 0) ∧
    (animateChica c).Chicaanim = true := by
  simp only [animateChica, he, hp, if_true]
  split_ifs <;> simp [he, hp]

theorem animateChica_rise (c : Chica) (he : c.Chicaanim = true) (hp : c.animChica = 1) :
    (animateChica c).rotBrazoC = c.rotBrazoC ∧
    (animateChica c).poszpanque = c.poszpanque + 0.3 ∧
    (animateChica c).rotpanque = c.rotpanque ∧
    (animateChica c).animChica = (if 25 ≤ c.poszpanque + 0.3 then 2 else 1) ∧
    (animateChica c).Chicaanim = true := by
  simp only [animateChica, he, hp, if_true]
  split_ifs <;> simp_all

theorem animateChica_return (c : Chica) (he : c.Chicaanim = true) (hp : c.animChica = 2) :
    (animateChica c).rotBrazoC = c.rotBrazoC + 0.3 ∧
    (animateChica c).poszpanque = c.poszpanque - 0.105 ∧
    (animateChica c).rotpanque = (if 360 ≤ c.rotpanque + 2.7 then 0 else c.rotpanque + 2.7) ∧
    (animateChica c).animChica = (if 0 ≤ c.rotBrazoC + 0.3 then 0 else 2) ∧
    (animateChica c).Chicaanim = true := by
  simp only [animateChica, he, hp, if_true]
  split_ifs <;> simp_all

theorem animateChica_onGrid (c : Chica) (h : c.OnGrid) : (animateChica c).OnGrid := by
  by_cases he : c.Chicaanim = true
  · rcases h with ⟨hp, n, hb, hr, hlo, hhi⟩ | ⟨hp, hb, hr⟩ | ⟨hp, k, hb, hr, hlo, hhi⟩
    · have hs := animateChica_windup c he hp
      have h1 : (0 : ℚ) ≤ n := by exact_mod_cast hlo
      rcases lt_or_ge n 66 with hlt | hge
      · have h2 : (n : ℚ) ≤ 65 := by exact_mod_cast (by omega : n ≤ 65)
        refine Or.inl ⟨?_, n + 1, ?_, ?_, by omega, by omega⟩
        · rw [hs.2.2.2.1, if_neg (by rw [hb]; norm_num; linarith)]
        · rw [hs.1, hb]; push_cast; ring
        · rw [hs.2.2.1, hr]; push_cast; ring
      · have hn : n = 66 := by omega
        subst hn
        refine Or.inr (Or.inl ⟨?_, ?_, ?_⟩)
        · rw [hs.2.2.2.1, if_pos (by rw [hb]; norm_num)]
        · rw [hs.1, hb]; norm_num
        · rw [hs.2.2.1, hr]; norm_num
    · have hs := animateChica_rise c he hp
      by_cases hup : 25 ≤ c.poszpanque + 0.3
      · refine Or.inr (Or.inr ⟨?_, 0, ?_, ?_, by norm_num, by norm_num⟩)
        · rw [hs.2.2.2.1, if_pos hup]
        · rw [hs.1, hb]; norm_num
        · rw [hs.2.2.1, hr]; norm_num
      · refine Or.inr (Or.inl ⟨?_, ?_, ?_⟩)
        · rw [hs.2.2.2.1, if_neg hup]
        · rw [hs.1, hb]
        · rw [hs.2.2.1, hr]
    · have hs := animateChica_return c he hp
      have h1 : (0 : ℚ) ≤ k := by exact_mod_cast hlo
      rcases lt_or_ge k 66 with hlt | hge
      · have h2 : (k : ℚ) ≤ 65 := by exact_mod_cast (by omega : k ≤ 65)
        refine Or.inr (Or.inr ⟨?_, k + 1, ?_, ?_, by omega, by omega⟩)
        · rw [hs.2.2.2.1, if_neg (by rw [hb]; norm_num; linarith)]
        · rw [hs.1, hb]; push_cast; ring
        · rw [hs.2.2.1, if_neg (by rw [hr]; norm_num; linarith), hr]; push_cast; ring
      · have hk : k = 66 := by omega
        subst hk
        refine Or.inl ⟨?_, 0, ?_, ?_, by norm_num, by norm_num⟩
        · rw [hs.2.2.2.1, if_pos (by rw [hb]; norm_num)]
        · rw [hs.1, hb]; norm_num
        · rw [hs.2.2.1, if_pos (by rw [hr]; norm_num)]; norm_num
  · rw [animateChica_off c (by simpa using he)]
    exact h

theorem fromStart_chica {m : Libm} {s : State} (h : FromStart m s) : s.chica.OnGrid := by
  have h0 : initGlobals.chica.OnGrid :=
    Or.inl ⟨rfl, 0, by simp [initGlobals]; norm_num, by simp [initGlobals]; norm_num,
      by norm_num, by norm_num⟩
  induction h with
  | globals => exact h0
  | loop => exact animateChica_onGrid _ h0
  | step s e _ ih =>
    cases e with
    | tick => exact animateChica_onGrid _ ih
    | input key action held =>
      show (my_input key action held s).chica.OnGrid
      rw [(my_input_figures key action held s).2.2.2.2.2.2.1]
      split_ifs
      · exact ih
      · exact ih

theorem chica_onGrid_bounds (c : Chica) (h : c.OnGrid) :
    (0 ≤ c.rotpanque ∧ c.rotpanque < 360) ∧ (-20.1 ≤ c.rotBrazoC ∧ c.rotBrazoC ≤ 0) := by
  rcases h with ⟨_, n, hb, hr, hlo, hhi⟩ | ⟨_, hb, hr⟩ | ⟨_, k, hb, hr, hlo, hhi⟩
  · have h1 : (0 : ℚ) ≤ n := by exact_mod_cast hlo
    have h2 : (n : ℚ) ≤ 66 := by exact_mod_cast hhi
    rw [hb, hr]
    norm_num
    refine ⟨⟨by linarith, by linarith⟩, by linarith, by linarith⟩
  · rw [hb, hr]
    norm_num
  · have h1 : (0 : ℚ) ≤ k := by exact_mod_cast hlo
    have h2 : (k : ℚ) ≤ 66 := by exact_mod_cast hhi
    rw [hb, hr]
    norm_num
    refine ⟨⟨by linarith, by linarith⟩, by linarith, by linarith⟩

/-- C23. Throw-and-catch rotation wraps at 360 degrees: in every state
reachable from the initial state (`rotBrazoC = 0`, `rotpanque = 0`,
`poszpanque = 18.5`, `animChica = 0`) by ticks and key events (the toggles
among them), `0 <= rotpanque < 360` (and `-20.1 <= rotBrazoC <= 0`); and in
phase 1 (rise) an enabled tick, in any state, adds 0.3 to the height
`poszpanque` and leaves the arm angle, the rotation and the flag as they
were, the phase going on to 2 exactly when the new height is 25 or more. -/
theorem C23_rotation_wraps (m : Libm) (s : State) (hs : FromStart m s) :
    (0 ≤ s.chica.rotpanque ∧ s.chica.rotpanque < 360) ∧
    (-20.1 ≤ s.chica.rotBrazoC ∧ s.chica.rotBrazoC ≤ 0) ∧
    (∀ t : State, t.chica.animChica = 1 → t.chica.Chicaanim = true →
      (animate m t).chica.poszpanque = t.chica.poszpanque + 0.3 ∧
      (animate m t).chica.rotBrazoC = t.chica.rotBrazoC ∧
      (animate m t).chica.rotpanque = t.chica.rotpanque ∧
      (animate m t).chica.Chicaanim = t.chica.Chicaanim ∧
      (animate m t).chica.animChica = (if 25 ≤ t.chica.poszpanque + 0.3 then 2 else 1)) ∧
    (initGlobals.chica.rotBrazoC = 0 ∧ initGlobals.chica.rotpanque = 0 ∧
      initGlobals.chica.poszpanque = 18.5 ∧ initGlobals.chica.animChica = 0) := by
  have hb := chica_onGrid_bounds _ (fromStart_chica hs)
  refine ⟨hb.1, hb.2, fun t hp he => ?_, ?_⟩
  · have h := animateChica_rise t.chica he hp
    exact ⟨h.2.1, h.1, h.2.2.1, h.2.2.2.2.trans he.symm, h.2.2.2.1⟩
  · refine ⟨?_, ?_, ?_, ?_⟩ <;> norm_num [initGlobals]

/-- Witness for C23: the state at the entry of the render loop. -/
theorem C23_rotation_wraps_witness :
    0 ≤ (mainInit Libm.standIn).chica.rotpanque ∧
    (mainInit Libm.standIn).chica.rotpanque < 360 :=
  (C23_rotation_wraps Libm.standIn (mainInit Libm.standIn) FromStart.loop).1

theorem iterate_windup (c : Chica) (he : c.Chicaanim = true) (hp : c.animChica = 0) (n : ℕ)
    (h : -20 < c.rotBrazoC - 0.3 * n) :
    (animateChica^[n] c).rotBrazoC = c.rotBrazoC - 0.3 * n ∧
    (animateChica^[n] c).poszpanque = c.poszpanque + 0.1 * n ∧
    (animateChica^[n] c).rotpanque = c.rotpanque + 2.7 * n ∧
    (animateChica^[n] c).animChica = 0 ∧ (animateChica^[n] c).Chicaanim = true := by
  induction n with
  | zero => simp [he, hp]
  | succ n ih =>
    have hn : -20 < c.rotBrazoC - 0.3 * n := by push_cast at h; linarith
    obtain ⟨i1, i2, i3, i4, i5⟩ := ih hn
    have hs := animateChica_windup _ i5 i4
    rw [Function.iterate_succ_apply']
    refine ⟨?_, ?_, ?_, ?_, hs.2.2.2.2⟩
    · rw [hs.1, i1]; push_cast; ring
    · rw [hs.2.1, i2]; push_cast; ring
    · rw [hs.2.2.1, i3]; push_cast; ring
    · rw [hs.2.2.2.1, if_neg (by rw [i1]; push_cast at h; linarith)]

theorem iterate_return (c : Chica) (he : c.Chicaanim = true) (hp : c.animChica = 2) (n : ℕ)
    (h : c.rotBrazoC + 0.3 * n < 0) (hr : c.rotpanque + 2.7 * n < 360) :
    (animateChica^[n] c).rotBrazoC = c.rotBrazoC + 0.3 * n ∧
    (animateChica^[n] c).poszpanque = c.poszpanque - 0.105 * n ∧
    (animateChica^[n] c).rotpanque = c.rotpanque + 2.7 * n ∧
    (animateChica^[n] c).animChica = 2 ∧ (animateChica^[n] c).Chicaanim = true := by
  induction n with
  | zero => simp [he, hp]
  | succ n ih =>
    have hn : c.rotBrazoC + 0.3 * n < 0 := by push_cast at h; linarith
    have hrn : c.rotpanque + 2.7 * n < 360 := by push_cast at hr; linarith
    obtain ⟨i1, i2, i3, i4, i5⟩ := ih hn hrn
    have hs := animateChica_return _ i5 i4
    rw [Function.iterate_succ_apply']
    refine ⟨?_, ?_, ?_, ?_, hs.2.2.2.2⟩
    · rw [hs.1, i1]; push_cast; ring
    · rw [hs.2.1, i2]; push_cast; ring
    · rw [hs.2.2.1, if_neg (by rw [i3]; push_cast at hr; linarith), i3]; push_cast; ring
    · rw [hs.2.2.2.1, if_neg (by rw [i1]; push_cast at h; linarith)]

theorem chicaEnabled_chica :
    chicaEnabled.chica = { initGlobals.chica with Chicaanim := true } := by
  rw [chicaEnabled, press_K2]
  rfl

/-- The throw figure after 67 and after 68 enabled ticks from the initial
state: the end of the wind-up and the single tick of the rise. -/
theorem chica_first_rise :
    ((animateChica^[67] chicaEnabled.chica).rotBrazoC = -20.1 ∧
      (animateChica^[67] chicaEnabled.chica).poszpanque = 25.2 ∧
      (animateChica^[67] chicaEnabled.chica).rotpanque = 180.9 ∧
      (animateChica^[67] chicaEnabled.chica).animChica = 1 ∧
      (animateChica^[67] chicaEnabled.chica).Chicaanim = true) ∧
    ((animateChica^[68] chicaEnabled.chica).rotBrazoC = -20.1 ∧
      (animateChica^[68] chicaEnabled.chica).poszpanque = 25.5 ∧
      (animateChica^[68] chicaEnabled.chica).rotpanque = 180.9 ∧
      (animateChica^[68] chicaEnabled.chica).animChica = 2 ∧
      (animateChica^[68] chicaEnabled.chica).Chicaanim = true) := by
  have h0 : chicaEnabled.chica.rotBrazoC = 0 ∧ chicaEnabled.chica.poszpanque = 18.5 ∧
      chicaEnabled.chica.rotpanque = 0 := by
    rw [chicaEnabled_chica]
    refine ⟨?_, ?_, ?_⟩ <;> norm_num [initGlobals]
  have h66 := iterate_windup chicaEnabled.chica (by rw [chicaEnabled_chica])
    (by rw [chicaEnabled_chica]; rfl) 66 (by rw [h0.1]; norm_num)
  have s67 := animateChica_windup _ h66.2.2.2.2 h66.2.2.2.1
  rw [← Function.iterate_succ_apply' animateChica 66] at s67
  have h67 : (animateChica^[67] chicaEnabled.chica).rotBrazoC = -20.1 ∧
      (animateChica^[67] chicaEnabled.chica).poszpanque = 25.2 ∧
      (animateChica^[67] chicaEnabled.chica).rotpanque = 180.9 ∧
      (animateChica^[67] chicaEnabled.chica).animChica = 1 ∧
      (animateChica^[67] chicaEnabled.chica).Chicaanim = true := by
    refine ⟨?_, ?_, ?_, ?_, s67.2.2.2.2⟩
    · rw [s67.1, h66.1, h0.1]; norm_num
    · rw [s67.2.1, h66.2.1, h0.2.1]; norm_num
    · rw [s67.2.2.1, h66.2.2.1, h0.2.2]; norm_num
    · rw [s67.2.2.2.1, if_pos (by rw [h66.1, h0.1]; norm_num)]
  have s68 := animateChica_rise _ h67.2.2.2.2 h67.2.2.2.1
  rw [← Function.iterate_succ_apply' animateChica 67] at s68
  refine ⟨h67, ?_, ?_, ?_, ?_, s68.2.2.2.2⟩
  · rw [s68.1, h67.1]
  · rw [s68.2.1, h67.2.1]; norm_num
  · rw [s68.2.2.1, h67.2.2.1]
  · rw [s68.2.2.2.1, if_pos (by rw [h67.2.1]; norm_num)]

/-- C24. Throw-and-catch cycle drift: from the initial state with the figure
switched on (`rotBrazoC = 0`, `rotpanque = 0`, `poszpanque = 18.5`,
`animChica = 0`), the figure is in phase 0 (wind-up) after `k <= 66` ticks, in
phase 1 (rise) after 67 ticks and in phase 2 (return) after `68 <= k <= 134`
ticks; after exactly 135 ticks it is back in phase 0 with `rotBrazoC = 0` and
`rotpanque = 0`, but with `poszpanque = 18.465`, which is 0.035 below the
height it started from: a cycle does not restore the height. -/
theorem C24_cycle_drift (m : Libm) :
    (chicaEnabled.chica.Chicaanim = true ∧ chicaEnabled.chica.rotBrazoC = 0 ∧
      chicaEnabled.chica.rotpanque = 0 ∧ chicaEnabled.chica.poszpanque = 18.5 ∧
      chicaEnabled.chica.animChica = 0) ∧
    (∀ k : ℕ, k ≤ 66 → (ticks m k chicaEnabled).chica.animChica = 0) ∧
    (ticks m 67 chicaEnabled).chica.animChica = 1 ∧
    (∀ k : ℕ, 68 ≤ k → k ≤ 134 → (ticks m k chicaEnabled).chica.animChica = 2) ∧
    ((ticks m 135 chicaEnabled).chica.animChica = 0 ∧
      (ticks m 135 chicaEnabled).chica.rotBrazoC = 0 ∧
      (ticks m 135 chicaEnabled).chica.rotpanque = 0 ∧
      (ticks m 135 chicaEnabled).chica.poszpanque = 18.465 ∧
      (ticks m 135 chicaEnabled).chica.poszpanque = chicaEnabled.chica.poszpanque - 0.035 ∧
      (ticks m 135 chicaEnabled).chica.poszpanque ≠ chicaEnabled.chica.poszpanque) := by
  have h0 : chicaEnabled.chica.rotBrazoC = 0 ∧ chicaEnabled.chica.poszpanque = 18.5 ∧
      chicaEnabled.chica.rotpanque = 0 := by
    rw [chicaEnabled_chica]
    refine ⟨?_, ?_, ?_⟩ <;> norm_num [initGlobals]
  have he : chicaEnabled.chica.Chicaanim = true := by rw [chicaEnabled_chica]
  have hp : chicaEnabled.chica.animChica = 0 := by rw [chicaEnabled_chica]; rfl
  obtain ⟨h67, h68⟩ := chica_first_rise
  have hret : ∀ j : ℕ, j ≤ 66 →
      (animateChica^[j + 68] chicaEnabled.chica).rotBrazoC = -20.1 + 0.3 * j ∧
      (animateChica^[j + 68] chicaEnabled.chica).poszpanque = 25.5 - 0.105 * j ∧
      (animateChica^[j + 68] chicaEnabled.chica).rotpanque = 180.9 + 2.7 * j ∧
      (animateChica^[j + 68] chicaEnabled.chica).animChica = 2 ∧
      (animateChica^[j + 68] chicaEnabled.chica).Chicaanim = true := by
    intro j hj
    have hjq : (j : ℚ) ≤ 66 := by exact_mod_cast hj
    have h := iterate_return _ h68.2.2.2.2 h68.2.2.2.1 j
      (by rw [h68.1]; norm_num; linarith) (by rw [h68.2.2.1]; norm_num; linarith)
    rw [← Function.iterate_add_apply, h68.1, h68.2.1, h68.2.2.1] at h
    exact h
  have h134 := hret 66 (le_refl _)
  have s135 := animateChica_return _ h134.2.2.2.2 h134.2.2.2.1
  rw [← Function.iterate_succ_apply' animateChica (66 + 68)] at s135
  have hpos : (animateChica^[135] chicaEnabled.chica).poszpanque = 18.465 := by
    show (animateChica^[(66 + 68 : ℕ).succ] chicaEnabled.chica).poszpanque = 18.465
    rw [s135.2.1, h134.2.1]; norm_num
  simp only [ticks_chica]
  refine ⟨⟨he, h0.1, h0.2.2, h0.2.1, hp⟩, fun k hk => ?_, h67.2.2.2.1, fun k hlo hhi => ?_,
    ?_, ?_, ?_, hpos, ?_, ?_⟩
  · have hkq : (k : ℚ) ≤ 66 := by exact_mod_cast hk
    exact (iterate_windup _ he hp k (by rw [h0.1]; norm_num; linarith)).2.2.2.1
  · obtain ⟨j, rfl⟩ : ∃ j, k = j + 68 := ⟨k - 68, by omega⟩
    exact (hret j (by omega)).2.2.2.1
  · show (animateChica^[(66 + 68 : ℕ).succ] chicaEnabled.chica).animChica = 0
    rw [s135.2.2.2.1, if_pos (by rw [h134.1]; norm_num)]
  · show (animateChica^[(66 + 68 : ℕ).succ] chicaEnabled.chica).rotBrazoC = 0
    rw [s135.1, h134.1]; norm_num
  · show (animateChica^[(66 + 68 : ℕ).succ] chicaEnabled.chica).rotpanque = 0
    rw [s135.2.2.1, if_pos (by rw [h134.2.2.1]; norm_num)]
  · rw [hpos, h0.2.1]; norm_num
  · rw [hpos, h0.2.1]; norm_num

/-! ## The cooking figure (C25, C26) -/

theorem ticks_cheff (m : Libm) (n : ℕ) (s : State) :
    (ticks m n s).cheff = (animateCheff m)^[n] s.cheff := by
  induction n with
  | zero => rfl
  | succ n ih => rw [ticks_succ, Function.iterate_succ_apply', ← ih]; rfl

theorem animateCheff_phase0 (m : Libm) (c : Cheff) (hp : c.animcheff = 0) :
    (animateCheff m c).rotcheff = c.rotcheff + 0.3 ∧
    (animateCheff m c).poszsar = c.poszsar + 0.1 ∧
    (animateCheff m c).rotsarten = c.rotsarten + 0.25 ∧
    (animateCheff m c).carneinc = (if 3 ≤ c.carneinc + 0.015 then 3 else c.carneinc + 0.015) ∧
    (animateCheff m c).animcheff = (if 30 ≤ c.rotcheff + 0.3 then 1 else 0) := by
  simp only [animateCheff, hp, if_true]
  split_ifs <;> simp_all <;> norm_num

theorem animateCheff_phase1 (m : Libm) (c : Cheff) (hp : c.animcheff = 1) :
    (animateCheff m c).rotcheff = c.rotcheff ∧ (animateCheff m c).poszsar = c.poszsar ∧
    (animateCheff m c).rotsarten = c.rotsarten ∧ (animateCheff m c).carnex = c.carnex ∧
    (animateCheff m c).carney = c.carney ∧ (animateCheff m c).carnez = c.carnez ∧
    (animateCheff m c).tempcarne = c.tempcarne ∧
    (animateCheff m c).carneinc = c.carneinc + 0.04 ∧
    (animateCheff m c).animcheff = (if 3.1 ≤ c.carneinc + 0.04 then 2 else 1) := by
  simp only [animateCheff, hp]
  split_ifs <;> simp_all

theorem animateCheff_phase2 (m : Libm) (c : Cheff) (hp : c.animcheff = 2) :
    (animateCheff m c).rotcheff = c.rotcheff - 0.3 ∧
    (animateCheff m c).poszsar = c.poszsar - 0.1 ∧
    (animateCheff m c).rotsarten = c.rotsarten - 0.25 ∧
    (animateCheff m c).carneinc = c.carneinc + 0.005 ∧
    (animateCheff m c).animcheff = (if c.rotcheff - 0.3 ≤ 0 then 3 else 2) := by
  simp only [animateCheff, hp]
  split_ifs <;> simp_all

theorem animateCheff_phase3 (m : Libm) (c : Cheff) (hp : c.animcheff = 3) :
    (animateCheff m c).rotcheff = c.rotcheff ∧ (animateCheff m c).poszsar = c.poszsar ∧
    (animateCheff m c).rotsarten = c.rotsarten ∧
    (animateCheff m c).carneinc = c.carneinc + 0.008 ∧
    (animateCheff m c).animcheff = (if 4.85 ≤ c.carneinc + 0.008 then 4 else 3) := by
  simp only [animateCheff, hp]
  split_ifs <;> simp_all

theorem animateCheff_phase4 (m : Libm) (c : Cheff) (hp : c.animcheff = 4) :
    (animateCheff m c).rotcheff = c.rotcheff ∧ (animateCheff m c).poszsar = c.poszsar ∧
    (animateCheff m c).rotsarten = c.rotsarten ∧ (animateCheff m c).carnex = c.carnex ∧
    (animateCheff m c).carney = c.carney ∧ (animateCheff m c).carnez = c.carnez ∧
    (animateCheff m c).tempcarne = c.tempcarne ∧
    (animateCheff m c).carneinc = (if 7 ≤ c.carneinc + 0.01 then 1.5 else c.carneinc + 0.01) ∧
    (animateCheff m c).animcheff = (if 7 ≤ c.carneinc + 0.01 then 0 else 4) := by
  simp only [animateCheff, hp]
  split_ifs <;> simp_all

theorem iterate_cheff0 (m : Libm) (c : Cheff) (hp : c.animcheff = 0) (n : ℕ)
    (h1 : c.rotcheff + 0.3 * n < 30) (h2 : c.carneinc + 0.015 * n < 3) :
    ((animateCheff m)^[n] c).animcheff = 0 ∧
    ((animateCheff m)^[n] c).rotcheff = c.rotcheff + 0.3 * n ∧
    ((animateCheff m)^[n] c).poszsar = c.poszsar + 0.1 * n ∧
    ((animateCheff m)^[n] c).rotsarten = c.rotsarten + 0.25 * n ∧
    ((animateCheff m)^[n] c).carneinc = c.carneinc + 0.015 * n := by
  induction n with
  | zero => simp [hp]
  | succ n ih =>
    obtain ⟨i0, i1, i2, i3, i4⟩ := ih (by push_cast at h1; linarith) (by push_cast at h2; linarith)
    have hs := animateCheff_phase0 m _ i0
    rw [Function.iterate_succ_apply']
    refine ⟨?_, ?_, ?_, ?_, ?_⟩
    · rw [hs.2.2.2.2, if_neg (by rw [i1]; push_cast at h1; linarith)]
    · rw [hs.1, i1]; push_cast; ring
    · rw [hs.2.1, i2]; push_cast; ring
    · rw [hs.2.2.1, i3]; push_cast; ring
    · rw [hs.2.2.2.1, if_neg (by rw [i4]; push_cast at h2; linarith), i4]; push_cast; ring

theorem iterate_cheff1 (m : Libm) (c : Cheff) (hp : c.animcheff = 1) (n : ℕ)
    (h : c.carneinc + 0.04 * n < 3.1) :
    ((animateCheff m)^[n] c).animcheff = 1 ∧
    ((animateCheff m)^[n] c).rotcheff = c.rotcheff ∧
    ((animateCheff m)^[n] c).poszsar = c.poszsar ∧
    ((animateCheff m)^[n] c).rotsarten = c.rotsarten ∧
    ((animateCheff m)^[n] c).carneinc = c.carneinc + 0.04 * n := by
  induction n with
  | zero => simp [hp]
  | succ n ih =>
    obtain ⟨i0, i1, i2, i3, i4⟩ := ih (by push_cast at h; linarith)
    have hs := animateCheff_phase1 m _ i0
    rw [Function.iterate_succ_apply']
    refine ⟨?_, ?_, ?_, ?_, ?_⟩
    · rw [hs.2.2.2.2.2.2.2.2, if_neg (by rw [i4]; push_cast at h; linarith)]
    · rw [hs.1, i1]
    · rw [hs.2.1, i2]
    · rw [hs.2.2.1, i3]
    · rw [hs.2.2.2.2.2.2.2.1, i4]; push_cast; ring

theorem iterate_cheff2 (m : Libm) (c : Cheff) (hp : c.animcheff = 2) (n : ℕ)
    (h : 0 < c.rotcheff - 0.3 * n) :
    ((animateCheff m)^[n] c).animcheff = 2 ∧
    ((animateCheff m)^[n] c).rotcheff = c.rotcheff - 0.3 * n ∧
    ((animateCheff m)^[n] c).poszsar = c.poszsar - 0.1 * n ∧
    ((animateCheff m)^[n] c).rotsarten = c.rotsarten - 0.25 * n ∧
    ((animateCheff m)^[n] c).carneinc = c.carneinc + 0.005 * n := by
  induction n with
  | zero => simp [hp]
  | succ n ih =>
    obtain ⟨i0, i1, i2, i3, i4⟩ := ih (by push_cast at h; linarith)
    have hs := animateCheff_phase2 m _ i0
    rw [Function.iterate_succ_apply']
    refine ⟨?_, ?_, ?_, ?_, ?_⟩
    · rw [hs.2.2.2.2, if_neg (by rw [i1]; push_cast at h; linarith)]
    · rw [hs.1, i1]; push_cast; ring
    · rw [hs.2.1, i2]; push_cast; ring
    · rw [hs.2.2.1, i3]; push_cast; ring
    · rw [hs.2.2.2.1, i4]; push_cast; ring

theorem iterate_cheff3 (m : Libm) (c : Cheff) (hp : c.animcheff = 3) (n : ℕ)
    (h : c.carneinc + 0.008 * n < 4.85) :
    ((animateCheff m)^[n] c).animcheff = 3 ∧
    ((animateCheff m)^[n] c).rotcheff = c.rotcheff ∧
    ((animateCheff m)^[n] c).poszsar = c.poszsar ∧
    ((animateCheff m)^[n] c).rotsarten = c.rotsarten ∧
    ((animateCheff m)^[n] c).carneinc = c.carneinc + 0.008 * n := by
  induction n with
  | zero => simp [hp]
  | succ n ih =>
    obtain ⟨i0, i1, i2, i3, i4⟩ := ih (by push_cast at h; linarith)
    have hs := animateCheff_phase3 m _ i0
    rw [Function.iterate_succ_apply']
    refine ⟨?_, ?_, ?_, ?_, ?_⟩
    · rw [hs.2.2.2.2, if_neg (by rw [i4]; push_cast at h; linarith)]
    · rw [hs.1, i1]
    · rw [hs.2.1, i2]
    · rw [hs.2.2.1, i3]
    · rw [hs.2.2.2.1, i4]; push_cast; ring

theorem iterate_cheff4 (m : Libm) (c : Cheff) (hp : c.animcheff = 4) (n : ℕ)
    (h : c.carneinc + 0.01 * n < 7) :
    ((animateCheff m)^[n] c).animcheff = 4 ∧
    ((animateCheff m)^[n] c).rotcheff = c.rotcheff ∧
    ((animateCheff m)^[n] c).poszsar = c.poszsar ∧
    ((animateCheff m)^[n] c).rotsarten = c.rotsarten ∧
    ((animateCheff m)^[n] c).carneinc = c.carneinc + 0.01 * n := by
  induction n with
  | zero => simp [hp]
  | succ n ih =>
    obtain ⟨i0, i1, i2, i3, i4⟩ := ih (by push_cast at h; linarith)
    have hs := animateCheff_phase4 m _ i0
    rw [Function.iterate_succ_apply']
    refine ⟨?_, ?_, ?_, ?_, ?_⟩
    · rw [hs.2.2.2.2.2.2.2.2, if_neg (by rw [i4]; push_cast at h; linarith)]
    · rw [hs.1, i1]
    · rw [hs.2.1, i2]
    · rw [hs.2.2.1, i3]
    · rw [hs.2.2.2.2.2.2.2.1, if_neg (by rw [i4]; push_cast at h; linarith), i4]
      push_cast; ring

theorem core_eq (c : Cheff) (p : Int) (r z t i : ℚ) :
    c.core = (p, r, z, t, i) ↔
      c.animcheff = p ∧ c.rotcheff = r ∧ c.poszsar = z ∧ c.rotsarten = t ∧ c.carneinc = i := by
  simp [Cheff.core]

/-- Phase 0 of the cooking figure from its start values: 100 ticks. -/
theorem cheff_stage0 (m : Libm) (c : Cheff) (h : c.core = (0, 0, 13.5, 0, 1.5)) :
    (∀ k : ℕ, k < 100 →
      ((animateCheff m)^[k] c).core
        = (0, 0.3 * (k : ℚ), 13.5 + 0.1 * (k : ℚ), 0.25 * (k : ℚ), 1.5 + 0.015 * (k : ℚ))) ∧
    ((animateCheff m)^[100] c).core = (1, 30, 23.5, 25, 3) := by
  obtain ⟨hp, h1, h2, h3, h4⟩ := (core_eq _ _ _ _ _ _).1 h
  have run : ∀ k : ℕ, k < 100 →
      ((animateCheff m)^[k] c).core
        = (0, 0.3 * (k : ℚ), 13.5 + 0.1 * (k : ℚ), 0.25 * (k : ℚ), 1.5 + 0.015 * (k : ℚ)) := by
    intro k hk
    have hkq : (k : ℚ) ≤ 99 := by exact_mod_cast Nat.lt_succ_iff.mp hk
    have hi := iterate_cheff0 m c hp k (by rw [h1]; norm_num; linarith)
      (by rw [h4]; norm_num; linarith)
    rw [core_eq]
    exact ⟨hi.1, by rw [hi.2.1, h1]; ring, by rw [hi.2.2.1, h2], by rw [hi.2.2.2.1, h3]; ring,
      by rw [hi.2.2.2.2, h4]⟩
  refine ⟨run, ?_⟩
  obtain ⟨i0, i1, i2, i3, i4⟩ := (core_eq _ _ _ _ _ _).1 (run 99 (by norm_num))
  have hs := animateCheff_phase0 m _ i0
  rw [← Function.iterate_succ_apply' (animateCheff m) 99] at hs
  rw [core_eq]
  refine ⟨?_, ?_, ?_, ?_, ?_⟩
  · rw [hs.2.2.2.2, if_pos (by rw [i1]; norm_num)]
  · rw [hs.1, i1]; norm_num
  · rw [hs.2.1, i2]; norm_num
  · rw [hs.2.2.1, i3]; norm_num
  · rw [hs.2.2.2.1, if_pos (by rw [i4]; norm_num)]

/-- Phase 1 (the pause): 3 ticks. -/
theorem cheff_stage1 (m : Libm) (c : Cheff) (h : c.core = (1, 30, 23.5, 25, 3)) :
    (∀ k : ℕ, k < 3 →
      ((animateCheff m)^[k] c).core = (1, 30, 23.5, 25, 3 + 0.04 * (k : ℚ))) ∧
    ((animateCheff m)^[3] c).core = (2, 30, 23.5, 25, 3.12) := by
  obtain ⟨hp, h1, h2, h3, h4⟩ := (core_eq _ _ _ _ _ _).1 h
  have run : ∀ k : ℕ, k < 3 →
      ((animateCheff m)^[k] c).core = (1, 30, 23.5, 25, 3 + 0.04 * (k : ℚ)) := by
    intro k hk
    have hkq : (k : ℚ) ≤ 2 := by exact_mod_cast Nat.lt_succ_iff.mp hk
    have hi := iterate_cheff1 m c hp k (by rw [h4]; norm_num; linarith)
    rw [core_eq]
    exact ⟨hi.1, by rw [hi.2.1, h1], by rw [hi.2.2.1, h2], by rw [hi.2.2.2.1, h3],
      by rw [hi.2.2.2.2, h4]⟩
  refine ⟨run, ?_⟩
  obtain ⟨i0, i1, i2, i3, i4⟩ := (core_eq _ _ _ _ _ _).1 (run 2 (by norm_num))
  have hs := animateCheff_phase1 m _ i0
  rw [← Function.iterate_succ_apply' (animateCheff m) 2] at hs
  rw [core_eq]
  refine ⟨?_, ?_, ?_, ?_, ?_⟩
  · rw [hs.2.2.2.2.2.2.2.2, if_pos (by rw [i4]; norm_num)]
  · rw [hs.1, i1]
  · rw [hs.2.1, i2]
  · rw [hs.2.2.1, i3]
  · rw [hs.2.2.2.2.2.2.2.1, i4]; norm_num

/-- Phase 2 (the way down): 100 ticks. -/
theorem cheff_stage2 (m : Libm) (c : Cheff) (h : c.core = (2, 30, 23.5, 25, 3.12)) :
    (∀ k : ℕ, k < 100 →
      ((animateCheff m)^[k] c).core
        = (2, 30 - 0.3 * (k : ℚ), 23.5 - 0.1 * (k : ℚ), 25 - 0.25 * (k : ℚ),
           3.12 + 0.005 * (k : ℚ))) ∧
    ((animateCheff m)^[100] c).core = (3, 0, 13.5, 0, 3.62) := by
  obtain ⟨hp, h1, h2, h3, h4⟩ := (core_eq _ _ _ _ _ _).1 h
  have run : ∀ k : ℕ, k < 100 →
      ((animateCheff m)^[k] c).core
        = (2, 30 - 0.3 * (k : ℚ), 23.5 - 0.1 * (k : ℚ), 25 - 0.25 * (k : ℚ),
           3.12 + 0.005 * (k : ℚ)) := by
    intro k hk
    have hkq : (k : ℚ) ≤ 99 := by exact_mod_cast Nat.lt_succ_iff.mp hk
    have hi := iterate_cheff2 m c hp k (by rw [h1]; norm_num; linarith)
    rw [core_eq]
    exact ⟨hi.1, by rw [hi.2.1, h1], by rw [hi.2.2.1, h2], by rw [hi.2.2.2.1, h3],
      by rw [hi.2.2.2.2, h4]⟩
  refine ⟨run, ?_⟩
  obtain ⟨i0, i1, i2, i3, i4⟩ := (core_eq _ _ _ _ _ _).1 (run 99 (by norm_num))
  have hs := animateCheff_phase2 m _ i0
  rw [← Function.iterate_succ_apply' (animateCheff m) 99] at hs
  rw [core_eq]
  refine ⟨?_, ?_, ?_, ?_, ?_⟩
  · rw [hs.2.2.2.2, if_pos (by rw [i1]; norm_num)]
  · rw [hs.1, i1]; norm_num
  · rw [hs.2.1, i2]; norm_num
  · rw [hs.2.2.1, i3]; norm_num
  · rw [hs.2.2.2.1, i4]; norm_num

/-- Phase 3: 154 ticks. -/
theorem cheff_stage3 (m : Libm) (c : Cheff) (h : c.core = (3, 0, 13.5, 0, 3.62)) :
    (∀ k : ℕ, k < 154 →
      ((animateCheff m)^[k] c).core = (3, 0, 13.5, 0, 3.62 + 0.008 * (k : ℚ))) ∧
    ((animateCheff m)^[154] c).core = (4, 0, 13.5, 0, 4.852) := by
  obtain ⟨hp, h1, h2, h3, h4⟩ := (core_eq _ _ _ _ _ _).1 h
  have run : ∀ k : ℕ, k < 154 →
      ((animateCheff m)^[k] c).core = (3, 0, 13.5, 0, 3.62 + 0.008 * (k : ℚ)) := by
    intro k hk
    have hkq : (k : ℚ) ≤ 153 := by exact_mod_cast Nat.lt_succ_iff.mp hk
    have hi := iterate_cheff3 m c hp k (by rw [h4]; norm_num; linarith)
    rw [core_eq]
    exact ⟨hi.1, by rw [hi.2.1, h1], by rw [hi.2.2.1, h2], by rw [hi.2.2.2.1, h3],
      by rw [hi.2.2.2.2, h4]⟩
  refine ⟨run, ?_⟩
  obtain ⟨i0, i1, i2, i3, i4⟩ := (core_eq _ _ _ _ _ _).1 (run 153 (by norm_num))
  have hs := animateCheff_phase3 m _ i0
  rw [← Function.iterate_succ_apply' (animateCheff m) 153] at hs
  rw [core_eq]
  refine ⟨?_, ?_, ?_, ?_, ?_⟩
  · rw [hs.2.2.2.2, if_pos (by rw [i4]; norm_num)]
  · rw [hs.1, i1]
  · rw [hs.2.1, i2]
  · rw [hs.2.2.1, i3]
  · rw [hs.2.2.2.1, i4]; norm_num

/-- Phase 4 (the meat rests on the plate): 215 ticks. -/
theorem cheff_stage4 (m : Libm) (c : Cheff) (h : c.core = (4, 0, 13.5, 0, 4.852)) :
    (∀ k : ℕ, k < 215 →
      ((animateCheff m)^[k] c).core = (4, 0, 13.5, 0, 4.852 + 0.01 * (k : ℚ))) ∧
    ((animateCheff m)^[215] c).core = (0, 0, 13.5, 0, 1.5) := by
  obtain ⟨hp, h1, h2, h3, h4⟩ := (core_eq _ _ _ _ _ _).1 h
  have run : ∀ k : ℕ, k < 215 →
      ((animateCheff m)^[k] c).core = (4, 0, 13.5, 0, 4.852 + 0.01 * (k : ℚ)) := by
    intro k hk
    have hkq : (k : ℚ) ≤ 214 := by exact_mod_cast Nat.lt_succ_iff.mp hk
    have hi := iterate_cheff4 m c hp k (by rw [h4]; norm_num; linarith)
    rw [core_eq]
    exact ⟨hi.1, by rw [hi.2.1, h1], by rw [hi.2.2.1, h2], by rw [hi.2.2.2.1, h3],
      by rw [hi.2.2.2.2, h4]⟩
  refine ⟨run, ?_⟩
  obtain ⟨i0, i1, i2, i3, i4⟩ := (core_eq _ _ _ _ _ _).1 (run 214 (by norm_num))
  have hs := animateCheff_phase4 m _ i0
  rw [← Function.iterate_succ_apply' (animateCheff m) 214] at hs
  rw [core_eq]
  refine ⟨?_, ?_, ?_, ?_, ?_⟩
  · rw [hs.2.2.2.2.2.2.2.2, if_pos (by rw [i4]; norm_num)]
  · rw [hs.1, i1]
  · rw [hs.2.1, i2]
  · rw [hs.2.2.1, i3]
  · rw [hs.2.2.2.2.2.2.2.1, if_pos (by rw [i4]; norm_num)]

theorem initGlobals_cheff_core : initGlobals.cheff.core = (0, 0, 13.5, 0, 1.5) := by
  rw [core_eq]
  refine ⟨rfl, ?_, ?_, ?_, ?_⟩ <;> norm_num [initGlobals]

/-- The cooking figure through one cycle from its start values: where each
phase begins, and that the start values are back after 572 ticks. -/
theorem cheff_cycle (m : Libm) (c : Cheff) (h : c.core = (0, 0, 13.5, 0, 1.5)) :
    ((animateCheff m)^[100] c).core = (1, 30, 23.5, 25, 3) ∧
    ((animateCheff m)^[103] c).core = (2, 30, 23.5, 25, 3.12) ∧
    ((animateCheff m)^[203] c).core = (3, 0, 13.5, 0, 3.62) ∧
    ((animateCheff m)^[357] c).core = (4, 0, 13.5, 0, 4.852) ∧
    ((animateCheff m)^[572] c).core = (0, 0, 13.5, 0, 1.5) := by
  have a0 := (cheff_stage0 m c h).2
  have a1 := (cheff_stage1 m _ a0).2
  rw [← Function.iterate_add_apply] at a1
  have a2 := (cheff_stage2 m _ a1).2
  rw [← Function.iterate_add_apply] at a2
  have a3 := (cheff_stage3 m _ a2).2
  rw [← Function.iterate_add_apply] at a3
  have a4 := (cheff_stage4 m _ a3).2
  rw [← Function.iterate_add_apply] at a4
  exact ⟨a0, a1, a2, a3, a4⟩

/-- C25. Cooking figure pause: in every state with `animcheff = 1` a tick of
`animate` adds 0.04 to `carneinc`, moves the phase to 2 exactly when the new
`carneinc` is 3.1 or more, and leaves `rotcheff`, `poszsar`, `rotsarten`,
`carnex`, `carney`, `carnez` (and `tempcarne`) as they were.  In every state
with `animcheff = 4` a tick leaves the same variables as they were, adds 0.01
to `carneinc` and, exactly when the sum is 7 or more, sets `carneinc` to 1.5
and the phase to 0. -/
theorem C25_cooking_pause (m : Libm) (s : State) (h1 : s.cheff.animcheff = 1) :
    ((animate m s).cheff.carneinc = s.cheff.carneinc + 0.04 ∧
      (animate m s).cheff.animcheff = (if 3.1 ≤ s.cheff.carneinc + 0.04 then 2 else 1) ∧
      (animate m s).cheff.rotcheff = s.cheff.rotcheff ∧
      (animate m s).cheff.poszsar = s.cheff.poszsar ∧
      (animate m s).cheff.rotsarten = s.cheff.rotsarten ∧
      (animate m s).cheff.carnex = s.cheff.carnex ∧
      (animate m s).cheff.carney = s.cheff.carney ∧
      (animate m s).cheff.carnez = s.cheff.carnez ∧
      (animate m s).cheff.tempcarne = s.cheff.tempcarne) ∧
    (∀ t : State, t.cheff.animcheff = 4 →
      (animate m t).cheff.carneinc
        = (if 7 ≤ t.cheff.carneinc + 0.01 then 1.5 else t.cheff.carneinc + 0.01) ∧
      (animate m t).cheff.animcheff = (if 7 ≤ t.cheff.carneinc + 0.01 then 0 else 4) ∧
      (animate m t).cheff.rotcheff = t.cheff.rotcheff ∧
      (animate m t).cheff.poszsar = t.cheff.poszsar ∧
      (animate m t).cheff.rotsarten = t.cheff.rotsarten ∧
      (animate m t).cheff.carnex = t.cheff.carnex ∧
      (animate m t).cheff.carney = t.cheff.carney ∧
      (animate m t).cheff.carnez = t.cheff.carnez ∧
      (animate m t).cheff.tempcarne = t.cheff.tempcarne) := by
  have a := animateCheff_phase1 m s.cheff h1
  refine ⟨⟨a.2.2.2.2.2.2.2.1, a.2.2.2.2.2.2.2.2, a.1, a.2.1, a.2.2.1, a.2.2.2.1, a.2.2.2.2.1,
    a.2.2.2.2.2.1, a.2.2.2.2.2.2.1⟩, fun t h4 => ?_⟩
  have b := animateCheff_phase4 m t.cheff h4
  exact ⟨b.2.2.2.2.2.2.2.1, b.2.2.2.2.2.2.2.2, b.1, b.2.1, b.2.2.1, b.2.2.2.1, b.2.2.2.2.1,
    b.2.2.2.2.2.1, b.2.2.2.2.2.2.1⟩

/-- Witness for C25: the state 100 ticks after the initial one, which is in
phase 1 with `carneinc = 3`; the next tick makes it 3.04 and keeps the
pan where it is. -/
theorem C25_cooking_pause_witness :
    (ticks Libm.standIn 100 initGlobals).cheff.animcheff = 1 ∧
    (animate Libm.standIn (ticks Libm.standIn 100 initGlobals)).cheff.carneinc = 3.04 ∧
    (animate Libm.standIn (ticks Libm.standIn 100 initGlobals)).cheff.poszsar = 23.5 := by
  have hc : (ticks Libm.standIn 100 initGlobals).cheff.core = (1, 30, 23.5, 25, 3) := by
    rw [ticks_cheff]
    exact (cheff_cycle Libm.standIn _ initGlobals_cheff_core).1
  obtain ⟨hp, _, hz, _, hi⟩ := (core_eq _ _ _ _ _ _).1 hc
  have h := (C25_cooking_pause Libm.standIn (ticks Libm.standIn 100 initGlobals) hp).1
  exact ⟨hp, by rw [h.1, hi]; norm_num, by rw [h.2.2.2.1, hz]⟩

theorem ticks_eggman (m : Libm) (n : ℕ) (s : State) :
    (ticks m n s).eggman = (animateEggman m)^[n] s.eggman := by
  induction n with
  | zero => rfl
  | succ n ih => rw [ticks_succ, Function.iterate_succ_apply', ← ih]; rfl

theorem animateEggman_phase5 (m : Libm) (e : Eggman) (hp : e.animegg = 5) :
    (animateEggman m e).eggx = 200 * m.cos e.egginc ∧
    (animateEggman m e).eggy = 200 * m.sin e.egginc ∧
    (animateEggman m e).eggz = e.eggz + 0.3 + 0.3 + 0.3 ∧
    (animateEggman m e).egginc = e.egginc + 0.01 ∧
    (animateEggman m e).rotegg = e.rotegg - 0.4 ∧
    (animateEggman m e).animegg = (if 100 ≤ e.eggz + 0.3 + 0.3 + 0.3 then 6 else 5) := by
  simp only [animateEggman, hp]
  split_ifs <;> simp_all

theorem animateEggman_phase6 (m : Libm) (e : Eggman) (hp : e.animegg = 6) :
    (animateEggman m e).eggx = 200 * m.cos e.egginc ∧
    (animateEggman m e).eggy = 200 * m.sin e.egginc ∧
    (animateEggman m e).eggz = e.eggz ∧
    (animateEggman m e).egginc = e.egginc + 0.008 ∧
    (animateEggman m e).rotegg = e.rotegg - 0.46 ∧
    (animateEggman m e).animegg = 6 := by
  simp [animateEggman, hp]

theorem iterate_orbit (m : Libm) (e : Eggman) (hp : e.animegg = 6) (n : ℕ) :
    ((animateEggman m)^[n] e).animegg = 6 ∧
    ((animateEggman m)^[n] e).eggz = e.eggz ∧
    ((animateEggman m)^[n] e).egginc = e.egginc + 0.008 * (n : ℚ) ∧
    ((animateEggman m)^[n] e).rotegg = e.rotegg - 0.46 * (n : ℚ) := by
  induction n with
  | zero => simp [hp]
  | succ n ih =>
    obtain ⟨i0, i1, i2, i3⟩ := ih
    have hs := animateEggman_phase6 m _ i0
    rw [Function.iterate_succ_apply']
    refine ⟨hs.2.2.2.2.2, by rw [hs.2.2.1, i1], ?_, ?_⟩
    · rw [hs.2.2.2.1, i2]; push_cast; ring
    · rw [hs.2.2.2.2.1, i3]; push_cast; ring

theorem run_orbit (m : Libm) (es : List Event) (s : State) (hp : s.eggman.animegg = 6) :
    (run m s es).eggman.animegg = 6 ∧ (run m s es).eggman.eggz = s.eggman.eggz := by
  induction es generalizing s with
  | nil => exact ⟨hp, rfl⟩
  | cons e es ih =>
    have hstep : (applyEvent m s e).eggman.animegg = 6 ∧
        (applyEvent m s e).eggman.eggz = s.eggman.eggz := by
      cases e with
      | tick =>
        have hs := animateEggman_phase6 m s.eggman hp
        exact ⟨hs.2.2.2.2.2, hs.2.2.1⟩
      | input key action held =>
        show (my_input key action held s).eggman.animegg = 6 ∧
          (my_input key action held s).eggman.eggz = s.eggman.eggz
        rw [(my_input_figures key action held s).2.2.2.1]
        exact ⟨hp, rfl⟩
    have h := ih (applyEvent m s e) hstep.1
    exact ⟨h.1, h.2.trans hstep.2⟩

/-- C27. Flight figure orbit never terminates: in every state with
`animegg = 6` a tick of `animate` leaves `animegg = 6` and `eggz` as it was,
adds 0.008 to `egginc` and takes 0.46 off `rotegg`; so after `n` further
ticks the phase is still 6, `eggz` is unchanged, `egginc` has grown by
`0.008 n` and `rotegg` has fallen by `0.46 n`; and after any sequence of
ticks and key events the phase is still 6 (and `eggz` unchanged). -/
theorem C27_orbit_never_ends (m : Libm) (s : State) (h6 : s.eggman.animegg = 6) :
    ((animate m s).eggman.animegg = 6 ∧ (animate m s).eggman.eggz = s.eggman.eggz ∧
      (animate m s).eggman.egginc = s.eggman.egginc + 0.008 ∧
      (animate m s).eggman.rotegg = s.eggman.rotegg - 0.46) ∧
    (∀ n : ℕ, (ticks m n s).eggman.animegg = 6 ∧ (ticks m n s).eggman.eggz = s.eggman.eggz ∧
      (ticks m n s).eggman.egginc = s.eggman.egginc + 0.008 * (n : ℚ) ∧
      (ticks m n s).eggman.rotegg = s.eggman.rotegg - 0.46 * (n : ℚ)) ∧
    (∀ es : List Event, (run m s es).eggman.animegg = 6 ∧
      (run m s es).eggman.eggz = s.eggman.eggz) := by
  have hs := animateEggman_phase6 m s.eggman h6
  refine ⟨⟨hs.2.2.2.2.2, hs.2.2.1, hs.2.2.2.1, hs.2.2.2.2.1⟩, fun n => ?_,
    fun es => run_orbit m es s h6⟩
  rw [ticks_eggman]
  exact iterate_orbit m s.eggman h6 n

/-- Witness for C27: the initial state with the flight figure put in phase 6;
after 1000 ticks it is still in phase 6 and the orbit angle is 8. -/
theorem C27_orbit_never_ends_witness :
    (ticks Libm.standIn 1000
      { initGlobals with eggman := { initGlobals.eggman with animegg := 6 } }).eggman.animegg = 6 ∧
    (ticks Libm.standIn 1000
      { initGlobals with eggman := { initGlobals.eggman with animegg := 6 } }).eggman.egginc
        = 8 := by
  have h := (C27_orbit_never_ends Libm.standIn
    { initGlobals with eggman := { initGlobals.eggman with animegg := 6 } } rfl).2.1 1000
  refine ⟨h.1, ?_⟩
  rw [h.2.2.1]
  norm_num [initGlobals]

/-- C28. Flight figure orbit parametrisation: a tick of `animate` taken in
phase 5 or 6 with `t = egginc` before the tick leaves `eggx = 200 * cos t`
and `eggy = 200 * sin t`, so `eggx^2 + eggy^2 = 200^2 * (cos^2 t + sin^2 t)`,
which is `200^2` whenever the library functions satisfy
`cos^2 t + sin^2 t = 1`; the tick adds 0.01 to `egginc` in phase 5 and 0.008
in phase 6. -/
theorem C28_orbit_parametrisation (m : Libm) (s : State)
    (h : s.eggman.animegg = 5 ∨ s.eggman.animegg = 6) :
    (animate m s).eggman.eggx = 200 * m.cos s.eggman.egginc ∧
    (animate m s).eggman.eggy = 200 * m.sin s.eggman.egginc ∧
    (animate m s).eggman.eggx ^ 2 + (animate m s).eggman.eggy ^ 2
      = 200 ^ 2 * (m.cos s.eggman.egginc ^ 2 + m.sin s.eggman.egginc ^ 2) ∧
    (m.cos s.eggman.egginc ^ 2 + m.sin s.eggman.egginc ^ 2 = 1 →
      (animate m s).eggman.eggx ^ 2 + (animate m s).eggman.eggy ^ 2 = 200 ^ 2) ∧
    (s.eggman.animegg = 5 → (animate m s).eggman.egginc = s.eggman.egginc + 0.01) ∧
    (s.eggman.animegg = 6 → (animate m s).eggman.egginc = s.eggman.egginc + 0.008) := by
  have hxy : (animate m s).eggman.eggx = 200 * m.cos s.eggman.egginc ∧
      (animate m s).eggman.eggy = 200 * m.sin s.eggman.egginc := by
    rcases h with h5 | h6
    · exact ⟨(animateEggman_phase5 m _ h5).1, (animateEggman_phase5 m _ h5).2.1⟩
    · exact ⟨(animateEggman_phase6 m _ h6).1, (animateEggman_phase6 m _ h6).2.1⟩
  have hsq : (animate m s).eggman.eggx ^ 2 + (animate m s).eggman.eggy ^ 2
      = 200 ^ 2 * (m.cos s.eggman.egginc ^ 2 + m.sin s.eggman.egginc ^ 2) := by
    rw [hxy.1, hxy.2]; ring
  refine ⟨hxy.1, hxy.2, hsq, fun hc => ?_, fun h5 => (animateEggman_phase5 m _ h5).2.2.2.1,
    fun h6 => (animateEggman_phase6 m _ h6).2.2.2.1⟩
  rw [hsq, hc, mul_one]

/-- Witness for C28: the initial state with the flight figure put in phase 5
and the stand-in library (`cos = 1`, `sin = 0`): the tick leaves the figure at
`(200, 0)`, on the circle of radius 200. -/
theorem C28_orbit_parametrisation_witness :
    (animate Libm.standIn
      { initGlobals with eggman := { initGlobals.eggman with animegg := 5 } }).eggman.eggx
        = 200 ∧
    (animate Libm.standIn
      { initGlobals with eggman := { initGlobals.eggman with animegg := 5 } }).eggman.eggx ^ 2
      + (animate Libm.standIn
      { initGlobals with eggman := { initGlobals.eggman with animegg := 5 } }).eggman.eggy ^ 2
        = 200 ^ 2 := by
  have h := C28_orbit_parametrisation Libm.standIn
    { initGlobals with eggman := { initGlobals.eggman with animegg := 5 } } (Or.inl rfl)
  refine ⟨?_, h.2.2.2.1 (by norm_num [Libm.standIn])⟩
  rw [h.1]
  norm_num [Libm.standIn]

/-! ## The rolling mover (C29) -/

end ProyectoFinal
